import Mathlib

/-!
# Clinic front end: verification development

A shallow embedding of the date, validation, filtering and pagination logic of the clinic
front end (`src/pages/*.jsx`), followed by theorems about it.

Conventions of the embedding

* JavaScript strings are Lean `String`s; `!s` on a string is `s = ""`.
* A JavaScript `Date` is its time value, an `Option Int` of milliseconds since the epoch, with
  `none` for an invalid date (time value `NaN`).  Comparisons with an invalid date are false.
* The browser's local time zone is a parameter (`TimeZone`): the zone decides what
  `getDate`, `setDate` and the parsing of a date-time string without a zone designator do.
* A handler that awaits network replies takes the replies as an argument and returns the state
  it leaves behind together with the notifications and requests it issued, in order.
-/

namespace Clinic

/-! ## JavaScript strings -/

/-- The characters `String.prototype.trim` strips: ECMAScript `WhiteSpace` and `LineTerminator`. -/
def isJsWhitespace (c : Char) : Bool :=
  let n := c.toNat
  n = 0x09 || n = 0x0A || n = 0x0B || n = 0x0C || n = 0x0D || n = 0x20 || n = 0xA0 ||
  n = 0x1680 || (0x2000 ≤ n && n ≤ 0x200A) || n = 0x2028 || n = 0x2029 || n = 0x202F ||
  n = 0x205F || n = 0x3000 || n = 0xFEFF

/-- The method `String.prototype.trim`. -/
def jsTrim (s : String) : String :=
  String.mk ((s.data.dropWhile isJsWhitespace).reverse.dropWhile isJsWhitespace).reverse

/-- The property `String.prototype.length`: the number of UTF-16 code units. -/
def jsLength (s : String) : Nat :=
  (s.data.map fun c => if c.toNat < 0x10000 then 1 else 2).sum

/-- The UTF-16 code units of a string, the sequence JavaScript indexes, slices and compares:
one unit for a character of the basic plane, a surrogate pair for any other. -/
def utf16 (s : String) : List Nat :=
  s.data.flatMap fun c =>
    if c.toNat < 0x10000 then [c.toNat]
    else [0xD800 + (c.toNat - 0x10000) / 0x400, 0xDC00 + (c.toNat - 0x10000) % 0x400]

/-- The method `String.prototype.includes`: `t` occurs in `s` as a contiguous substring. -/
def jsIncludes (s t : String) : Bool :=
  decide (t.data <:+: s.data)

/-- The decimal digit of a number below ten. -/
def digitChar : Nat → Char
  | 0 => '0' | 1 => '1' | 2 => '2' | 3 => '3' | 4 => '4'
  | 5 => '5' | 6 => '6' | 7 => '7' | 8 => '8' | _ => '9'

/-- The value of a decimal digit, `none` for any other character. -/
def digitVal (c : Char) : Option Nat :=
  if c = '0' then some 0 else if c = '1' then some 1 else if c = '2' then some 2
  else if c = '3' then some 3 else if c = '4' then some 4 else if c = '5' then some 5
  else if c = '6' then some 6 else if c = '7' then some 7 else if c = '8' then some 8
  else if c = '9' then some 9 else none

/-- The value of a string of decimal digits, most significant first. -/
def digitsVal : List Char → Option Nat
  | [] => some 0
  | cs => cs.foldl (fun acc c => match acc, digitVal c with
      | some a, some d => some (10 * a + d)
      | _, _ => none) (some 0)

/-- Two decimal digits, zero padded. -/
def pad2 (n : Nat) : List Char := [digitChar (n / 10 % 10), digitChar (n % 10)]

/-- Four decimal digits, zero padded. -/
def pad4 (n : Nat) : List Char :=
  [digitChar (n / 1000 % 10), digitChar (n / 100 % 10), digitChar (n / 10 % 10), digitChar (n % 10)]

/-- Six decimal digits, zero padded. -/
def pad6 (n : Nat) : List Char :=
  digitChar (n / 100000 % 10) :: digitChar (n / 10000 % 10) :: pad4 n

/-- The operand a chain `a || b || ...` of optional strings stops at: a value is falsy when it
is missing or the empty string. -/
def truthy : Option String → Option String
  | some s => if s = "" then none else some s
  | none => none

/-- The expression `a || b` on optional strings. -/
def jsOr (a b : Option String) : Option String :=
  match truthy a with
  | some s => some s
  | none => b

/-- The expression `a || d` where `d` is a string literal. -/
def jsOrElse (a : Option String) (d : String) : String :=
  match truthy a with
  | some s => s
  | none => d

/-! ## JavaScript arrays and paging -/

/-- The relative index of `Array.prototype.slice`: a negative index counts from the end, and
the result is clamped to `0..len`. -/
def relIndex (len i : Int) : Int :=
  if i < 0 then max (len + i) 0 else min i len

/-- The method `Array.prototype.slice(start, stop)` with integer arguments. -/
def jsSlice {α : Type} (xs : List α) (start stop : Int) : List α :=
  (xs.drop (relIndex xs.length start).toNat).take
    (relIndex xs.length stop - relIndex xs.length start).toNat

/-- The page window every paginated page computes: `indexOfLast = currentPage * perPage`,
`indexOfFirst = indexOfLast - perPage`, `list.slice(indexOfFirst, indexOfLast)`. -/
def pageSlice {α : Type} (xs : List α) (currentPage perPage : Int) : List α :=
  jsSlice xs (currentPage * perPage - perPage) (currentPage * perPage)

/-- The expression `Math.ceil(length / perPage)` for an array length and a positive page size.
The quotient of two integers below `2 ^ 53` is rounded to a double that is an integer only
when the exact quotient is, so the result is the exact ceiling. -/
def totalPages (length perPage : Nat) : Nat :=
  (length + perPage - 1) / perPage

/-! ## Notifications and records shared by the pages -/

/-- The kinds of `react-toastify` notification the pages raise. -/
inductive ToastKind where
  | success
  | error
  | info
  deriving DecidableEq, Repr

/-- A notification: `toast.success(message)`, `toast.error(message)` or `toast.info(message)`. -/
structure Toast where
  kind : ToastKind
  message : String
  deriving DecidableEq, Repr

/-- A doctor record as the doctor list returns it.  The identifier is kept as the string the
doctor select offers as option value (`String(doctor.id)`). -/
structure Doctor where
  id : String
  full_name : Option String
  email : Option String
  specialization : Option String
  phone : Option String
  status : Option String
  deriving DecidableEq, Repr

/-- An appointment record as the appointment lists return it.  `patient_name` is read without
a guard by the pages and is always a string; the other fields may be missing.  `doctor_id` is
kept as the string the doctor select offers as option value, so that the loose comparison
`apt.doctor_id == doctorFilter` is equality of these strings. -/
structure Appointment where
  id : String
  patient_name : String
  patient_email : Option String
  patient_phone : Option String
  doctor_id : String
  appointment_date : Option String
  appointment_time : Option String
  status : Option String
  reason : Option String
  deriving DecidableEq, Repr

/-! ## The ECMAScript calendar -/

/-- Milliseconds in a day. -/
def msPerDay : Int := 86400000

/-- ECMAScript `DayFromYear`: the day number of 1 January of year `y`. -/
def DayFromYear (y : Int) : Int :=
  365 * (y - 1970) + (y - 1969) / 4 - (y - 1901) / 100 + (y - 1601) / 400

/-- ECMAScript `InLeapYear`. -/
def InLeapYear (y : Int) : Bool :=
  decide (y % 4 = 0) && (decide (y % 100 ≠ 0) || decide (y % 400 = 0))

/-- ECMAScript `DaysInYear`. -/
def DaysInYear (y : Int) : Int := if InLeapYear y then 366 else 365

/-- The quotient `r / k`, capped at three (the last period of a cycle is one day longer). -/
def capDiv (r k : Int) : Int := if r / k = 4 then 3 else r / k

/-- ECMAScript `YearFromTime` and `DayWithinYear` of a day number, by the 400/100/4/1 year
cycles counted from 1 January 1601. -/
def yearAndDay (day : Int) : Int × Int :=
  let n400 := (day + 134774) / 146097
  let r := (day + 134774) % 146097
  let n100 := capDiv r 36524
  let r2 := r - 36524 * n100
  let n4 := r2 / 1461
  let r3 := r2 % 1461
  let n1 := capDiv r3 365
  (1601 + 400 * n400 + 100 * n100 + 4 * n4 + n1, r3 - 365 * n1)

/-- The extra day a leap year has from March on. -/
def leapDay (leap : Bool) : Int := if leap then 1 else 0

/-- Days of the year before month `m` (1 = January). -/
def daysBeforeMonth (leap : Bool) (m : Int) : Int :=
  if m ≤ 1 then 0 else if m = 2 then 31 else if m = 3 then 59 + leapDay leap
  else if m = 4 then 90 + leapDay leap else if m = 5 then 120 + leapDay leap
  else if m = 6 then 151 + leapDay leap else if m = 7 then 181 + leapDay leap
  else if m = 8 then 212 + leapDay leap else if m = 9 then 243 + leapDay leap
  else if m = 10 then 273 + leapDay leap else if m = 11 then 304 + leapDay leap
  else 334 + leapDay leap

/-- Days in month `m` (1 = January) of year `y`. -/
def daysInMonth (y m : Int) : Int :=
  if m = 2 then (if InLeapYear y then 29 else 28)
  else if m = 4 ∨ m = 6 ∨ m = 9 ∨ m = 11 then 30 else 31

/-- The month (1 = January) of a day within the first half of a year. -/
def monthOfDayFirstHalf (leap : Bool) (doy : Int) : Int :=
  if doy < 31 then 1 else if doy < 59 + leapDay leap then 2
  else if doy < 90 + leapDay leap then 3 else if doy < 120 + leapDay leap then 4
  else if doy < 151 + leapDay leap then 5 else 6

/-- The month (1 = January) of a day within the second half of a year. -/
def monthOfDaySecondHalf (leap : Bool) (doy : Int) : Int :=
  if doy < 212 + leapDay leap then 7 else if doy < 243 + leapDay leap then 8
  else if doy < 273 + leapDay leap then 9 else if doy < 304 + leapDay leap then 10
  else if doy < 334 + leapDay leap then 11 else 12

/-- ECMAScript `MonthFromTime` of a day within a year, with 1 for January. -/
def monthOfDay (leap : Bool) (doy : Int) : Int :=
  if doy < 181 + leapDay leap then monthOfDayFirstHalf leap doy
  else monthOfDaySecondHalf leap doy

/-- ECMAScript `MonthFromTime` (here 1 = January) and `DateFromTime` of a day within a year. -/
def monthAndDate (leap : Bool) (doy : Int) : Int × Int :=
  (monthOfDay leap doy, doy - daysBeforeMonth leap (monthOfDay leap doy) + 1)

/-- Year, month (1 = January) and day of the month of a day number. -/
def civilFromDay (day : Int) : Int × Int × Int :=
  let yd := yearAndDay day
  let md := monthAndDate (InLeapYear yd.1) yd.2
  (yd.1, md.1, md.2)

/-- ECMAScript `MakeDay` for a month in range: the day number of the `dt`-th day of month `m`
of year `y`, where `dt` may run past the end of the month. -/
def dayFromCivil (y m dt : Int) : Int :=
  DayFromYear y + daysBeforeMonth (InLeapYear y) m + dt - 1

/-- ECMAScript `Day`: the day number of a time value. -/
def Day (t : Int) : Int := t / msPerDay

/-- ECMAScript `TimeWithinDay`. -/
def TimeWithinDay (t : Int) : Int := t % msPerDay

/-! ## Dates -/

/-- The browser's local time zone, as ECMAScript sees it: the offset of local time from UTC
(milliseconds, positive east of Greenwich) in force at a UTC instant, and the offset used to
read a local wall-clock value (a wall-clock value skipped or repeated at a transition is read
with the offset in force before the transition). -/
structure TimeZone where
  /-- ECMAScript `LocalTZA(t, true)`. -/
  offsetAtUTC : Int → Int
  /-- ECMAScript `LocalTZA(t, false)`. -/
  offsetAtLocal : Int → Int

/-- A zone that keeps one offset all year. -/
def fixedZone (offset : Int) : TimeZone :=
  ⟨fun _ => offset, fun _ => offset⟩

/-- Central European Time in 2024: UTC+1, and UTC+2 from 31 March 01:00 UTC until
27 October 01:00 UTC. -/
def centralEurope2024 : TimeZone where
  offsetAtUTC t := if 1711846800000 ≤ t ∧ t < 1729990800000 then 7200000 else 3600000
  offsetAtLocal l := if 1711854000000 ≤ l ∧ l < 1729998000000 then 7200000 else 3600000

/-- ECMAScript `LocalTime`. -/
def LocalTime (tz : TimeZone) (t : Int) : Int := t + tz.offsetAtUTC t

/-- ECMAScript `UTC`: the instant of a local wall-clock value. -/
def UTC (tz : TimeZone) (l : Int) : Int := l - tz.offsetAtLocal l

/-- The calendar date `YYYY-MM-DD` as a day number; `none` unless the ten characters are four,
two and two digits joined by hyphens and name a day that exists. -/
def parseDateChars : List Char → Option Int
  | [y1, y2, y3, y4, s1, m1, m2, s2, d1, d2] =>
    if s1 = '-' ∧ s2 = '-' then
      match digitsVal [y1, y2, y3, y4], digitsVal [m1, m2], digitsVal [d1, d2] with
      | some y, some m, some d =>
        if 1 ≤ m ∧ m ≤ 12 ∧ 1 ≤ d ∧ (d : Int) ≤ daysInMonth y m then
          some (dayFromCivil y m d)
        else none
      | _, _, _ => none
    else none
  | _ => none

/-- The time of day `HH:mm` or `HH:mm:ss` in milliseconds; `none` for any other shape and for
a field out of range (`24:00` and `24:00:00` are in range, as in ECMAScript). -/
def parseTimeChars : List Char → Option Int
  | [h1, h2, c1, m1, m2] =>
    if c1 = ':' then
      match digitsVal [h1, h2], digitsVal [m1, m2] with
      | some h, some m =>
        if (h ≤ 23 ∧ m ≤ 59) ∨ (h = 24 ∧ m = 0) then some (((h * 60 + m) * 60000 : Nat) : Int)
        else none
      | _, _ => none
    else none
  | [h1, h2, c1, m1, m2, c2, s1, s2] =>
    if c1 = ':' ∧ c2 = ':' then
      match digitsVal [h1, h2], digitsVal [m1, m2], digitsVal [s1, s2] with
      | some h, some m, some s =>
        if (h ≤ 23 ∧ m ≤ 59 ∧ s ≤ 59) ∨ (h = 24 ∧ m = 0 ∧ s = 0) then
          some ((((h * 60 + m) * 60 + s) * 1000 : Nat) : Int)
        else none
      | _, _, _ => none
    else none
  | _ => none

/-- The constructor `new Date(string)` on the two shapes this front end builds: a date-only
string `YYYY-MM-DD`, read as UTC midnight, and a date-time string `YYYY-MM-DDTHH:mm[:ss]`
without zone designator, read as local time.  Every other string is an invalid date here;
the date inputs and time selects of the pages produce no other shape. -/
def newDate (tz : TimeZone) (s : String) : Option Int :=
  match parseDateChars (s.data.take 10), s.data.drop 10 with
  | some day, [] => some (day * msPerDay)
  | some day, 'T' :: rest =>
    match parseTimeChars rest with
    | some ms => some (UTC tz (day * msPerDay + ms))
    | none => none
  | _, _ => none

/-- The method `Date.prototype.getDate`: the day of the month in local time. -/
def getDate (tz : TimeZone) (t : Int) : Int :=
  (civilFromDay (Day (LocalTime tz t))).2.2

/-- The method `Date.prototype.setDate`: replace the day of the month in local time, keeping
the local time of day, and return the new time value. -/
def setDate (tz : TimeZone) (t dt : Int) : Int :=
  let l := LocalTime tz t
  let c := civilFromDay (Day l)
  UTC tz (dayFromCivil c.1 c.2.1 dt * msPerDay + TimeWithinDay l)

/-- The year field of `toISOString`: four digits, or a sign and six digits outside 0..9999. -/
def isoYear (y : Int) : List Char :=
  if 0 ≤ y ∧ y ≤ 9999 then pad4 y.toNat
  else (if y < 0 then '-' else '+') :: pad6 y.natAbs

/-- The expression `date.toISOString().split('T')[0]`: the UTC calendar date of a time value. -/
def isoDatePart (t : Int) : String :=
  let c := civilFromDay (Day t)
  String.mk (isoYear c.1 ++ '-' :: pad2 c.2.1.toNat ++ '-' :: pad2 c.2.2.toNat)

/-- The string `YYYY-MM-DD` of a calendar date. -/
def isoDate (y m d : Nat) : String :=
  String.mk (pad4 y ++ '-' :: pad2 m ++ '-' :: pad2 d)

/-- A calendar date that exists, with a four-digit year. -/
def ValidDate (y m d : Nat) : Prop :=
  y ≤ 9999 ∧ 1 ≤ m ∧ m ≤ 12 ∧ 1 ≤ d ∧ (d : Int) ≤ daysInMonth y m

instance (y m d : Nat) : Decidable (ValidDate y m d) := by
  unfold ValidDate
  infer_instance

/-- The calendar order of dates: `y-m-d` is an earlier day than `y'-m'-d'`. -/
def CalendarBefore (y m d y' m' d' : Nat) : Prop :=
  y < y' ∨ (y = y' ∧ (m < m' ∨ (m = m' ∧ d < d')))

instance (y m d y' m' d' : Nat) : Decidable (CalendarBefore y m d y' m' d') := by
  unfold CalendarBefore
  infer_instance

/-- The local wall-clock reading one day after the instant `t` denotes a later instant than
`t`.  It fails only in a zone whose offset jumps ahead by a day or more within that day. -/
def NextDayLater (tz : TimeZone) (t : Int) : Prop :=
  t < UTC tz (LocalTime tz t + msPerDay)

instance (tz : TimeZone) (t : Int) : Decidable (NextDayLater tz t) := by
  unfold NextDayLater
  infer_instance

/-- The zone keeps one offset for every wall-clock reading of 1 January 2000 (time values
946684800000 to 946771200000 read as local time), the day `isTimeRangeValid` puts its times
on. -/
def SingleOffsetOnY2K (tz : TimeZone) : Prop :=
  ∀ ms : Int, 0 ≤ ms → ms ≤ msPerDay →
    tz.offsetAtLocal (946684800000 + ms) = tz.offsetAtLocal 946684800000

/-- The time of day `HH:MM` as a string. -/
def hhmm (h m : Nat) : String :=
  String.mk (pad2 h ++ ':' :: pad2 m)

end Clinic

namespace Clinic

/-! ## DoctorAvailability.jsx -/

namespace DoctorAvailability

/-- The loop of `getDatesInRange`: `for (d = start; d <= end; d.setDate(d.getDate() + 1))`
pushing `d.toISOString().split('T')[0]`.  `fuel` bounds the number of loop tests; `none` means
the loop was still running when the fuel ran out. -/
def getDatesLoop (tz : TimeZone) (endT : Int) : Nat → Int → Option (List String)
  | 0, _ => none
  | fuel + 1, d =>
    if d ≤ endT then
      (getDatesLoop tz endT fuel (setDate tz d (getDate tz d + 1))).map (isoDatePart d :: ·)
    else some []

/-- The function `getDatesInRange(startStr, endStr)`.  When either string is an invalid date
the loop test is false at once and the result is empty. -/
def getDatesInRange (tz : TimeZone) (fuel : Nat) (startStr endStr : String) :
    Option (List String) :=
  match newDate tz startStr, newDate tz endStr with
  | some s, some e => getDatesLoop tz e fuel s
  | _, _ => some []

/-- The function `isTimeRangeValid(start, end)`; a missing argument is `none`. -/
def isTimeRangeValid (tz : TimeZone) (start stop : Option String) : Bool :=
  match start, stop with
  | some s, some e =>
    if s = "" ∨ e = "" then false
    else
      match newDate tz ("2000-01-01T" ++ s), newDate tz ("2000-01-01T" ++ e) with
      | some a, some b => decide (a < b)
      | _, _ => false
  | _, _ => false

/-- The helper `formatTimeForAPI(t)`: `t && t.length === 5 ? t + ':00' : t || null`. -/
def formatTimeForAPI : Option String → Option String
  | none => none
  | some t =>
    if t ≠ "" ∧ jsLength t = 5 then some (t ++ ":00")
    else if t ≠ "" then some t else none

/-- The form state `formData`. -/
structure FormData where
  available_date : String
  end_date : String
  start_time : String
  end_time : String
  break_start : String
  break_end : String
  deriving DecidableEq, Repr

/-- A schedule row as the availability list returns it. -/
structure Schedule where
  id : String
  available_date : String
  start_time : Option String
  end_time : Option String
  break_start : Option String
  break_end : Option String
  deriving DecidableEq, Repr

/-- The view state of the page.  `userId` is `user.id` of the signed-in doctor. -/
structure State where
  userId : String
  schedules : List Schedule
  showForm : Bool
  editingSchedule : Option Schedule
  submitting : Bool
  currentPage : Int
  formData : FormData
  deriving DecidableEq, Repr

/-- The body of a schedule write request. -/
structure Payload where
  doctor_id : String
  available_date : String
  start_time : Option String
  end_time : Option String
  break_start : Option String
  break_end : Option String
  deriving DecidableEq, Repr

/-- A schedule write request: `PUT /api/updateSchedule/:id` or `POST /api/createNewSchedule`. -/
inductive Request where
  | updateSchedule (id : String) (body : Payload)
  | createNewSchedule (body : Payload)
  deriving DecidableEq, Repr

/-- What comes back from the update request: `res.ok`, an error response with the `error` and
`message` fields of its body, or an exception from `fetch` or `res.json()`. -/
inductive UpdateReply where
  | ok
  | rejected (error message : Option String)
  | failed
  deriving DecidableEq, Repr

/-- What comes back from one create request: `res.ok`, an error response with the `error` and
`message` fields of its body (both missing when the body is not JSON), its `statusText` and
`status`, or an exception from `fetch` with its `message`. -/
inductive CreateReply where
  | ok
  | rejected (error message : Option String) (statusText : String) (status : Nat)
  | failed (message : Option String)
  deriving DecidableEq, Repr

/-- An entry of `failures`. -/
structure Failure where
  date : String
  message : String
  deriving DecidableEq, Repr

/-- What a run of a handler leaves behind: the state, the notifications and write requests in
the order they were issued, and whether `fetchSchedules()` was called. -/
structure Outcome where
  state : State
  toasts : List Toast
  requests : List Request
  refetched : Bool
  deriving DecidableEq, Repr

/-- The form `resetForm()` installs. -/
def emptyForm : FormData := ⟨"", "", "", "", "", ""⟩

/-- The payload both branches of `handleSubmit` build for a date. -/
def payloadFor (st : State) (date : String) : Payload where
  doctor_id := st.userId
  available_date := date
  start_time := formatTimeForAPI (some st.formData.start_time)
  end_time := formatTimeForAPI (some st.formData.end_time)
  break_start :=
    if st.formData.break_start ≠ "" then formatTimeForAPI (some st.formData.break_start) else none
  break_end :=
    if st.formData.break_end ≠ "" then formatTimeForAPI (some st.formData.break_end) else none

/-- The message recorded for a date whose create request did not succeed. -/
def failureMessage : CreateReply → String
  | .ok => ""
  | .rejected error message statusText status =>
    jsOrElse (jsOr error (jsOr message (some statusText))) ("Status " ++ toString status)
  | .failed message => jsOrElse message "Network error"

/-- The sequential loop `for (const date of dates)`: the `i`-th request is answered by
`reply i`; returns `successes` and `failures`. -/
def runBatch (reply : Nat → CreateReply) : Nat → List String → List String × List Failure
  | _, [] => ([], [])
  | i, date :: rest =>
    match reply i with
    | .ok => (date :: (runBatch reply (i + 1) rest).1, (runBatch reply (i + 1) rest).2)
    | r => ((runBatch reply (i + 1) rest).1, ⟨date, failureMessage r⟩ :: (runBatch reply (i + 1) rest).2)

/-- The text of the failure notification: the first three failures, and how many more. -/
def failureSummary (failures : List Failure) : String :=
  "Failed for " ++ toString failures.length ++ " date(s): " ++
    "; ".intercalate ((failures.take 3).map fun f => f.date ++ ": " ++ f.message) ++
    (if failures.length > 3 then " (+" ++ toString (failures.length - 3) ++ " more)" else "")

/-- The end date the create branch uses: `end_date` unless it is empty or blank. -/
def effectiveEndDate (f : FormData) : String :=
  if f.end_date ≠ "" ∧ jsTrim f.end_date ≠ "" then f.end_date else f.available_date

/-- The test `new Date(endDate) < new Date(startDate)`. -/
def endBeforeStart (tz : TimeZone) (startDate endDate : String) : Bool :=
  match newDate tz endDate, newDate tz startDate with
  | some e, some s => decide (e < s)
  | _, _ => false

/-- The edit branch of `handleSubmit`, after `setSubmitting(true)`. -/
def submitEdit (st : State) (sch : Schedule) (reply : UpdateReply) : Outcome :=
  let request := Request.updateSchedule sch.id (payloadFor st st.formData.available_date)
  match reply with
  | .ok =>
    { state := { st with showForm := false, editingSchedule := none, formData := emptyForm,
                         submitting := false }
      toasts := [⟨.success, "Schedule updated"⟩]
      requests := [request]
      refetched := true }
  | .rejected error message =>
    { state := { st with submitting := false }
      toasts := [⟨.error, jsOrElse (jsOr error message) "Failed to update schedule"⟩]
      requests := [request]
      refetched := false }
  | .failed =>
    { state := { st with submitting := false }
      toasts := [⟨.error, "Error updating schedule"⟩]
      requests := [request]
      refetched := false }

/-- The summary after the batch loop of the create branch. -/
def summarize (st : State) (requests : List Request) (successes : List String)
    (failures : List Failure) : Outcome where
  state :=
    if successes.length > 0 then
      { st with showForm := false, formData := emptyForm, submitting := false }
    else { st with submitting := false }
  toasts :=
    (if successes.length > 0 then
      [⟨.success, "Created " ++ toString successes.length ++ " schedule(s)"⟩] else []) ++
    (if failures.length > 0 then [⟨.error, failureSummary failures⟩] else [])
  requests := requests
  refetched := decide (successes.length > 0)

/-- The create branch of `handleSubmit`, after `setSubmitting(true)`.  `none` means the date
loop was still running when the fuel ran out. -/
def submitCreate (tz : TimeZone) (fuel : Nat) (reply : Nat → CreateReply) (st : State) :
    Option Outcome :=
  if endBeforeStart tz st.formData.available_date (effectiveEndDate st.formData) then
    some { state := { st with submitting := false }
           toasts := [⟨.error, "End date cannot be before start date"⟩]
           requests := []
           refetched := false }
  else
    match getDatesInRange tz fuel st.formData.available_date (effectiveEndDate st.formData) with
    | none => none
    | some dates =>
      some (summarize st (dates.map fun date => Request.createNewSchedule (payloadFor st date))
        (runBatch reply 0 dates).1 (runBatch reply 0 dates).2)

/-- A validation failure: one error notification, nothing else changes. -/
def reject (st : State) (message : String) : Outcome :=
  ⟨st, [⟨.error, message⟩], [], false⟩

/-- The handler `handleSubmit`, run to completion with the replies the backend gives: `update`
to the update request, `create i` to the `i`-th create request. -/
def handleSubmit (tz : TimeZone) (fuel : Nat) (update : UpdateReply) (create : Nat → CreateReply)
    (st : State) : Option Outcome :=
  if st.submitting then some ⟨st, [], [], false⟩
  else if st.formData.available_date = "" then some (reject st "Please select start date")
  else if st.formData.start_time = "" ∨ st.formData.end_time = "" then
    some (reject st "Please select start and end time")
  else if ¬ isTimeRangeValid tz (some st.formData.start_time) (some st.formData.end_time) then
    some (reject st "Start time must be before end time")
  else
    match st.editingSchedule with
    | some sch => some (submitEdit st sch update)
    | none => submitCreate tz fuel create st

/-- A create-mode form whose end date lies before its start date and whose times are not
chosen yet. -/
def reversedDatesNoTimes : State where
  userId := "7"
  schedules := []
  showForm := true
  editingSchedule := none
  submitting := false
  currentPage := 1
  formData := ⟨"2024-01-03", "2024-01-01", "", "", "", ""⟩

/-- A create-mode form whose end date lies before its start date, with working hours. -/
def reversedDates : State where
  userId := "7"
  schedules := []
  showForm := true
  editingSchedule := none
  submitting := false
  currentPage := 1
  formData := ⟨"2024-01-03", "2024-01-01", "09:00", "17:00", "", ""⟩

/-- A create-mode form without end date whose times are not chosen yet. -/
def singleDateNoTimes : State where
  userId := "7"
  schedules := []
  showForm := true
  editingSchedule := none
  submitting := false
  currentPage := 1
  formData := ⟨"2024-01-01", "", "", "", "", ""⟩

/-- A create-mode form without end date (a blank one), with working hours. -/
def singleDate : State where
  userId := "7"
  schedules := []
  showForm := true
  editingSchedule := none
  submitting := false
  currentPage := 1
  formData := ⟨"2024-01-01", "  ", "09:00", "17:00", "", ""⟩

end DoctorAvailability

/-! ## BookAppointment.jsx -/

namespace BookAppointment

/-- The form state `formData`. -/
structure FormData where
  patient_name : String
  patient_email : String
  patient_phone : String
  patient_age : String
  appointment_date : String
  appointment_time : String
  reason : String
  deriving DecidableEq, Repr

/-- The part of the view state `handleSubmit` reads and writes. -/
structure State where
  selectedDoctor : Option Doctor
  formData : FormData
  loading : Bool
  deriving DecidableEq, Repr

/-- The body of the booking request `POST /api/book`. -/
structure Payload where
  patient_name : String
  patient_age : String
  patient_email : String
  patient_phone : String
  doctor_id : String
  appointment_date : String
  appointment_time : String
  reason : String
  status : String
  deriving DecidableEq, Repr

/-- What comes back from the booking request: a response with `response.ok`, whether
`data.id` is truthy, and the `message` and `error` fields of its body; or an exception from
`fetch` or `response.json()`. -/
inductive Reply where
  | response (ok : Bool) (hasId : Bool) (message error : Option String)
  | failed
  deriving DecidableEq, Repr

/-- What a run of `handleSubmit` leaves behind: the state, the notifications and booking
requests in the order they were issued, and the route navigated to, if any. -/
structure Outcome where
  state : State
  toasts : List Toast
  requests : List Payload
  navigated : Option String
  deriving DecidableEq, Repr

/-- The form the handler installs after a successful booking. -/
def emptyForm : FormData := ⟨"", "", "", "", "", "", ""⟩

/-- The checks of the validation block of `handleSubmit` that read the form, in the order of
the source: the message of the first one that fails, or `none` when all pass. -/
def fieldError (f : FormData) : Option String :=
  if jsTrim f.patient_name = "" then some "Please enter patient name"
  else if f.patient_age = "" then some "Please select age"
  else if jsTrim f.patient_phone = "" then some "Please enter mobile number"
  else if jsTrim f.patient_email = "" then some "Please enter email"
  else if f.appointment_date = "" then some "Please select appointment date"
  else if f.appointment_time = "" then some "Please select appointment time"
  else if jsTrim f.reason = "" then some "Please enter message"
  else none

/-- The payload `handleSubmit` posts. -/
def payloadFor (doctor : Doctor) (f : FormData) : Payload where
  patient_name := f.patient_name
  patient_age := f.patient_age
  patient_email := f.patient_email
  patient_phone := f.patient_phone
  doctor_id := doctor.id
  appointment_date := f.appointment_date
  appointment_time := f.appointment_time
  reason := f.reason
  status := "Pending"

/-- A validation failure: one error notification, nothing else changes. -/
def reject (st : State) (message : String) : Outcome :=
  ⟨st, [⟨.error, message⟩], [], none⟩

/-- The part of `handleSubmit` after validation: post the booking and act on the reply. -/
def book (doctor : Doctor) (st : State) : Reply → Outcome
  | .response true true message _ =>
    { state := { selectedDoctor := none, formData := emptyForm, loading := false }
      toasts := [⟨.success, jsOrElse message "Appointment booked successfully!"⟩]
      requests := [payloadFor doctor st.formData]
      navigated := some "/contact-us" }
  | .response _ _ message error =>
    { state := { st with loading := false }
      toasts := [⟨.error, jsOrElse (jsOr error message) "Failed to book appointment"⟩]
      requests := [payloadFor doctor st.formData]
      navigated := none }
  | .failed =>
    { state := { st with loading := false }
      toasts := [⟨.error, "Error booking appointment. Please try again."⟩]
      requests := [payloadFor doctor st.formData]
      navigated := none }

/-- The handler `handleSubmit`, run to completion with the reply the backend gives. -/
def handleSubmit (reply : Reply) (st : State) : Outcome :=
  match st.selectedDoctor with
  | none => reject st "Please select a doctor"
  | some doctor =>
    match fieldError st.formData with
    | some message => reject st message
    | none => book doctor st reply

/-- Every required input of the booking form is present: a doctor is selected and the seven
fields are non-empty, name, phone, email and reason after trimming. -/
def AllRequiredPresent (st : State) : Prop :=
  st.selectedDoctor ≠ none ∧ jsTrim st.formData.patient_name ≠ "" ∧
  st.formData.patient_age ≠ "" ∧ jsTrim st.formData.patient_phone ≠ "" ∧
  jsTrim st.formData.patient_email ≠ "" ∧ st.formData.appointment_date ≠ "" ∧
  st.formData.appointment_time ≠ "" ∧ jsTrim st.formData.reason ≠ ""

/-- A doctor for the examples. -/
def doctorRao : Doctor :=
  ⟨"3", some "Rao", some "rao@clinic.example", some "Cardiology", some "5550100", some "Active"⟩

/-- A booking form that is complete except for a reason of white space only. -/
def missingReason : State where
  selectedDoctor := some doctorRao
  formData := ⟨"Asha", "asha@mail.example", "5550123", "19-30", "2024-05-06", "10:15:00", "  "⟩
  loading := false

end BookAppointment

/-! ## AdminAppointments.jsx -/

namespace AdminAppointments

/-- The part of the view state the list, its filters and its pagination use. -/
structure State where
  appointments : List Appointment
  filter : String
  doctorFilter : String
  dateFilter : String
  searchTerm : String
  currentPage : Int
  deriving DecidableEq, Repr

/-- What comes back from `GET /api/appointments`: a body with its `status` flag and `data`
array, or an exception from `fetch` or `response.json()`. -/
inductive Reply where
  | body (status : Bool) (data : List Appointment)
  | failed
  deriving DecidableEq, Repr

/-- The page size `appointmentsPerPage`. -/
def appointmentsPerPage : Nat := 5

/-- The search predicate of `fetchAppointments`:
`name.toLowerCase().includes(term.toLowerCase()) || email?.toLowerCase().includes(...) ||
phone?.includes(term)`.  `lower` is `String.prototype.toLowerCase`. -/
def matchesSearch (lower : String → String) (term : String) (apt : Appointment) : Bool :=
  jsIncludes (lower apt.patient_name) (lower term) ||
  (match apt.patient_email with
    | some email => jsIncludes (lower email) (lower term)
    | none => false) ||
  (match apt.patient_phone with
    | some phone => jsIncludes phone term
    | none => false)

/-- The filter cascade of `fetchAppointments`, applied to `data.data`. -/
def filterAppointments (lower : String → String) (st : State) (data : List Appointment) :
    List Appointment :=
  let byStatus := if st.filter ≠ "all" then data.filter (fun apt => apt.status = some st.filter)
    else data
  let byDoctor := if st.doctorFilter ≠ "" then
    byStatus.filter (fun apt => apt.doctor_id = st.doctorFilter) else byStatus
  let byDate := if st.dateFilter ≠ "" then
    byDoctor.filter (fun apt => apt.appointment_date = some st.dateFilter) else byDoctor
  if st.searchTerm ≠ "" then byDate.filter (matchesSearch lower st.searchTerm) else byDate

/-- The function `fetchAppointments`, run to completion with the reply the backend gives:
the state it leaves behind and the notifications it raised. -/
def fetchAppointments (lower : String → String) (st : State) : Reply → State × List Toast
  | .body true data =>
    ({ st with appointments := filterAppointments lower st data, currentPage := 1 }, [])
  | .body false _ => (st, [⟨.error, "Failed to fetch appointments"⟩])
  | .failed => (st, [⟨.error, "Error fetching appointments"⟩])

/-- The status select: `setFilter(value)`.  The effect with dependencies
`[filter, doctorFilter, dateFilter]` runs `fetchAppointments` when the value changed. -/
def changeFilter (lower : String → String) (st : State) (value : String) (reply : Reply) :
    State × List Toast :=
  if value = st.filter then (st, [])
  else fetchAppointments lower { st with filter := value } reply

/-- The doctor select: `setDoctorFilter(value)`, then the effect as for the status select. -/
def changeDoctorFilter (lower : String → String) (st : State) (value : String) (reply : Reply) :
    State × List Toast :=
  if value = st.doctorFilter then (st, [])
  else fetchAppointments lower { st with doctorFilter := value } reply

/-- The date input: `setDateFilter(value)`, then the effect as for the status select. -/
def changeDateFilter (lower : String → String) (st : State) (value : String) (reply : Reply) :
    State × List Toast :=
  if value = st.dateFilter then (st, [])
  else fetchAppointments lower { st with dateFilter := value } reply

/-- The search input: `setSearchTerm(value)`.  `searchTerm` is not among the dependencies of
the effect, so nothing else runs. -/
def changeSearchTerm (st : State) (value : String) : State :=
  { st with searchTerm := value }

/-- The rows shown: `appointments.slice(indexOfFirst, indexOfLast)`. -/
def currentAppointments (st : State) : List Appointment :=
  pageSlice st.appointments st.currentPage appointmentsPerPage

/-- The page count shown: `Math.ceil(appointments.length / appointmentsPerPage)`. -/
def totalPages (st : State) : Nat :=
  Clinic.totalPages st.appointments.length appointmentsPerPage

/-- The conjunction of the predicates of the active stages of the cascade of
`fetchAppointments`: the status stage is active unless the filter is 'all', the other stages
when their value is set; the search stage is the search predicate of the code,
`matchesSearch`, which compares the phone as typed. -/
def satisfiesActiveFilters (lower : String → String) (st : State) (apt : Appointment) : Bool :=
  decide (st.filter = "all" ∨ apt.status = some st.filter) &&
  decide (st.doctorFilter = "" ∨ apt.doctor_id = st.doctorFilter) &&
  decide (st.dateFilter = "" ∨ apt.appointment_date = some st.dateFilter) &&
  (decide (st.searchTerm = "") || matchesSearch lower st.searchTerm apt)

/-- An appointment for the examples: number 1, Confirmed. -/
def apt1 : Appointment :=
  ⟨"1", "Patient A", some "p1@mail.example", some "5550100", "1",
    some "2024-05-06", some "10:00:00", some "Confirmed", none⟩

/-- An appointment for the examples: number 2, Pending. -/
def apt2 : Appointment :=
  ⟨"2", "Patient B", some "p2@mail.example", some "5550101", "2",
    some "2024-05-07", some "10:15:00", some "Pending", none⟩

/-- An appointment for the examples: number 3, Cancelled. -/
def apt3 : Appointment :=
  ⟨"3", "Patient C", some "p3@mail.example", some "5550102", "3",
    some "2024-05-08", some "10:30:00", some "Cancelled", none⟩

/-- An appointment for the examples: number 4, Confirmed. -/
def apt4 : Appointment :=
  ⟨"4", "Patient D", some "p4@mail.example", some "5550103", "1",
    some "2024-05-09", some "10:45:00", some "Confirmed", none⟩

/-- An appointment for the examples: number 5, Pending. -/
def apt5 : Appointment :=
  ⟨"5", "Patient E", some "p5@mail.example", some "5550104", "2",
    some "2024-05-06", some "10:00:00", some "Pending", none⟩

/-- An appointment for the examples: number 6, Rejected. -/
def apt6 : Appointment :=
  ⟨"6", "Patient F", some "p6@mail.example", some "5550105", "3",
    some "2024-05-07", some "10:15:00", some "Rejected", none⟩

/-- An appointment for the examples: number 7, Confirmed. -/
def apt7 : Appointment :=
  ⟨"7", "Patient G", some "p7@mail.example", some "5550106", "1",
    some "2024-05-08", some "10:30:00", some "Confirmed", none⟩

/-- An appointment for the examples: number 8, Cancelled. -/
def apt8 : Appointment :=
  ⟨"8", "Patient H", some "p8@mail.example", some "5550107", "2",
    some "2024-05-09", some "10:45:00", some "Cancelled", none⟩

/-- An appointment for the examples: number 9, Pending. -/
def apt9 : Appointment :=
  ⟨"9", "Patient I", some "p9@mail.example", some "5550108", "3",
    some "2024-05-06", some "10:00:00", some "Pending", none⟩

/-- An appointment for the examples: number 10, Confirmed. -/
def apt10 : Appointment :=
  ⟨"10", "Patient J", some "p10@mail.example", some "5550109", "1",
    some "2024-05-07", some "10:15:00", some "Confirmed", none⟩

/-- A collection of ten appointments, three of them Pending. -/
def tenAppointments : List Appointment :=
  [apt1, apt2, apt3, apt4, apt5, apt6, apt7, apt8, apt9, apt10]

/-- A view state whose only active filter is the status filter, set to Pending. -/
def pendingOnly : State where
  appointments := []
  filter := "Pending"
  doctorFilter := ""
  dateFilter := ""
  searchTerm := ""
  currentPage := 2

end AdminAppointments

/-! ## DoctorAppointments.jsx -/

namespace DoctorAppointments

/-- The part of the view state the list, its filters and its pagination use. -/
structure State where
  appointments : List Appointment
  filter : String
  dateFilter : String
  currentPage : Int
  deriving DecidableEq, Repr

/-- What comes back from `GET /api/appointments/doctor/:id`: an error response with its
status code, a body with its `status` flag, `message` and `data` (possibly missing), or an
exception from `fetch` or `res.json()` with its `message`. -/
inductive Reply where
  | notOk (status : Nat)
  | body (status : Bool) (message : Option String) (data : Option (List Appointment))
  | failed (message : Option String)
  deriving DecidableEq, Repr

/-- The page size `appointmentsPerPage`. -/
def appointmentsPerPage : Nat := 5

/-- The status predicate: `(apt?.status || '').toLowerCase() === filter.toLowerCase()`. -/
def matchesStatus (lower : String → String) (filter : String) (apt : Appointment) : Bool :=
  decide (lower (jsOrElse apt.status "") = lower filter)

/-- The date predicate: a missing or empty `appointment_date` fails, otherwise
`apt.appointment_date.slice(0, 10) === dateFilter`: the first ten UTF-16 code units of the
stored date are the code units of the filter date. -/
def matchesDate (dateFilter : String) (apt : Appointment) : Bool :=
  match truthy apt.appointment_date with
  | none => false
  | some date => decide ((utf16 date).take 10 = utf16 dateFilter)

/-- The filter cascade of `fetchAppointments`, applied to `data?.data || []`. -/
def filterAppointments (lower : String → String) (st : State) (data : List Appointment) :
    List Appointment :=
  let byStatus := if st.filter ≠ "all" then data.filter (matchesStatus lower st.filter) else data
  if st.dateFilter ≠ "" then byStatus.filter (matchesDate st.dateFilter) else byStatus

/-- The function `fetchAppointments`, run to completion with the reply the backend gives. -/
def fetchAppointments (lower : String → String) (st : State) : Reply → State × List Toast
  | .notOk status => (st, [⟨.error, "Server responded with " ++ toString status⟩])
  | .body true _ data =>
    ({ st with appointments := filterAppointments lower st (data.getD []) }, [])
  | .body false message _ => (st, [⟨.error, jsOrElse message "Failed to fetch appointments"⟩])
  | .failed message => (st, [⟨.error, jsOrElse message "Error fetching appointments"⟩])

/-- The status select: `setFilter(value)`.  The effect with dependencies
`[user, filter, dateFilter, currentPage]` runs `fetchAppointments` when the value changed. -/
def changeFilter (lower : String → String) (st : State) (value : String) (reply : Reply) :
    State × List Toast :=
  if value = st.filter then (st, [])
  else fetchAppointments lower { st with filter := value } reply

/-- The date input: `setDateFilter(value)`, then the effect as for the status select. -/
def changeDateFilter (lower : String → String) (st : State) (value : String) (reply : Reply) :
    State × List Toast :=
  if value = st.dateFilter then (st, [])
  else fetchAppointments lower { st with dateFilter := value } reply

/-- The rows shown: `appointments.slice(indexOfFirstAppointment, indexOfLastAppointment)`. -/
def currentAppointments (st : State) : List Appointment :=
  pageSlice st.appointments st.currentPage appointmentsPerPage

/-- A view state showing the second page of an unfiltered list. -/
def onPageTwo : State where
  appointments := AdminAppointments.tenAppointments
  filter := "all"
  dateFilter := ""
  currentPage := 2

end DoctorAppointments

/-! ## DoctorPage.jsx -/

namespace DoctorPage

/-- The part of the view state the list, its search box and its pagination use. -/
structure State where
  doctors : List Doctor
  searchTerm : String
  currentPage : Int
  deriving DecidableEq, Repr

/-- The page size `doctorsPerPage`. -/
def doctorsPerPage : Nat := 5

/-- The search predicate of `filteredDoctors`: some truthy field among name, email,
specialization, phone and status contains the term, both in lower case. -/
def matchesSearch (lower : String → String) (term : String) (doc : Doctor) : Bool :=
  ([doc.full_name, doc.email, doc.specialization, doc.phone, doc.status].filterMap truthy).any
    fun field => jsIncludes (lower field) (lower term)

/-- The list `filteredDoctors`. -/
def filteredDoctors (lower : String → String) (st : State) : List Doctor :=
  st.doctors.filter (matchesSearch lower st.searchTerm)

/-- The search input: `setSearchTerm(value); setCurrentPage(1)`. -/
def changeSearchTerm (st : State) (value : String) : State :=
  { st with searchTerm := value, currentPage := 1 }

/-- The rows shown: `filteredDoctors.slice(indexOfFirstDoctor, indexOfLastDoctor)`. -/
def currentDoctors (lower : String → String) (st : State) : List Doctor :=
  pageSlice (filteredDoctors lower st) st.currentPage doctorsPerPage

/-- The page count: `Math.ceil(filteredDoctors.length / doctorsPerPage)`. -/
def totalPages (lower : String → String) (st : State) : Nat :=
  Clinic.totalPages (filteredDoctors lower st).length doctorsPerPage

end DoctorPage

/-! ## Enquiries.jsx -/

namespace Enquiries

/-- A contact-form record. -/
structure Contact where
  name : Option String
  email : Option String
  subject : Option String
  message : Option String
  deriving DecidableEq, Repr

/-- The part of the view state the list, its search box and its pagination use. -/
structure State where
  contacts : List Contact
  searchQuery : String
  currentPage : Int
  deriving DecidableEq, Repr

/-- The page size `pageSize`. -/
def pageSize : Nat := 10

/-- One disjunct of the search predicate: `field?.toLowerCase().includes(query.toLowerCase())`. -/
def fieldMatches (lower : String → String) (query : String) : Option String → Bool
  | some field => jsIncludes (lower field) (lower query)
  | none => false

/-- The search predicate of `filteredContacts`. -/
def matchesSearch (lower : String → String) (query : String) (c : Contact) : Bool :=
  fieldMatches lower query c.name || fieldMatches lower query c.email ||
  fieldMatches lower query c.subject || fieldMatches lower query c.message

/-- The list `filteredContacts`. -/
def filteredContacts (lower : String → String) (st : State) : List Contact :=
  st.contacts.filter (matchesSearch lower st.searchQuery)

/-- The handler `handleSearch`: `setSearchQuery(value); setCurrentPage(1)`. -/
def handleSearch (st : State) (value : String) : State :=
  { st with searchQuery := value, currentPage := 1 }

/-- The rows shown: `filteredContacts.slice((currentPage - 1) * pageSize, currentPage * pageSize)`. -/
def paginatedContacts (lower : String → String) (st : State) : List Contact :=
  jsSlice (filteredContacts lower st) ((st.currentPage - 1) * pageSize) (st.currentPage * pageSize)

/-- The page count: `Math.ceil(filteredContacts.length / pageSize)`. -/
def totalPages (lower : String → String) (st : State) : Nat :=
  Clinic.totalPages (filteredContacts lower st).length pageSize

end Enquiries

/-- A lower-casing function for examples: ASCII letters, as `toLowerCase` maps them. -/
def asciiLower (s : String) : String :=
  String.mk (s.data.map Char.toLower)

end Clinic

namespace Clinic

/-! ## Row and modal actions of the appointment lists -/

/-- The body of a status update `PUT .../appointments/:id` with `{ status }`. -/
structure StatusUpdate where
  appointmentId : String
  status : String
  deriving DecidableEq, Repr

/-- What a click handler of the appointment lists does, step by step. -/
inductive Effect where
  | viewDetails (apt : Appointment)
  | updateStatus (update : StatusUpdate)
  | deleteAppointment (id : String)
  | closeModal
  deriving DecidableEq, Repr

/-- A rendered button: its title or caption and what its `onClick` does. -/
structure Button where
  title : String
  onClick : List Effect
  deriving DecidableEq, Repr

/-- The status updates a list of rendered buttons can issue. -/
def offeredUpdates (buttons : List Button) : List StatusUpdate :=
  buttons.flatMap fun b => b.onClick.filterMap fun
    | .updateStatus u => some u
    | _ => none

namespace AdminAppointments

/-- The buttons of a table row: view, then confirm and reject under
`appointment.status === "Pending"`, then delete. -/
def rowButtons (apt : Appointment) : List Button :=
  [⟨"View Details", [.viewDetails apt]⟩] ++
  (if apt.status = some "Pending" then
    [⟨"Confirm", [.updateStatus ⟨apt.id, "Confirmed"⟩]⟩,
     ⟨"Reject", [.updateStatus ⟨apt.id, "Rejected"⟩]⟩]
   else []) ++
  [⟨"Delete", [.deleteAppointment apt.id]⟩]

/-- The buttons of the details modal for `selectedAppointment`: close, then confirm and reject
under `selectedAppointment.status === 'Pending'`. -/
def modalButtons (selected : Appointment) : List Button :=
  [⟨"Close", [.closeModal]⟩] ++
  (if selected.status = some "Pending" then
    [⟨"Confirm", [.updateStatus ⟨selected.id, "Confirmed"⟩, .closeModal]⟩,
     ⟨"Reject", [.updateStatus ⟨selected.id, "Rejected"⟩, .closeModal]⟩]
   else [])

/-- The words of the specification for the search: the term, compared case-insensitively, is
a substring of the patient name, the patient email or the patient phone. -/
def matchesIgnoringCase (lower : String → String) (term : String) (apt : Appointment) : Bool :=
  jsIncludes (lower apt.patient_name) (lower term) ||
  (match apt.patient_email with
    | some email => jsIncludes (lower email) (lower term)
    | none => false) ||
  (match apt.patient_phone with
    | some phone => jsIncludes (lower phone) (lower term)
    | none => false)

/-- The words of the specification: an appointment satisfies every active predicate, status
equal to the status filter when it is not 'all', doctor equal to the doctor filter when set,
date equal to the date filter when set, and, when a search term is set, the case-insensitive
substring search across name, email and phone. -/
def satisfiesSpecifiedFilters (lower : String → String) (st : State) (apt : Appointment) :
    Bool :=
  decide (st.filter = "all" ∨ apt.status = some st.filter) &&
  decide (st.doctorFilter = "" ∨ apt.doctor_id = st.doctorFilter) &&
  decide (st.dateFilter = "" ∨ apt.appointment_date = some st.dateFilter) &&
  (decide (st.searchTerm = "") || matchesIgnoringCase lower st.searchTerm apt)

/-- A view state whose only active filter is the search term 'call'. -/
def searchingCall : State where
  appointments := []
  filter := "all"
  doctorFilter := ""
  dateFilter := ""
  searchTerm := "call"
  currentPage := 1

/-- An appointment whose phone number is written with letters. -/
def aptVanityPhone : Appointment :=
  ⟨"11", "Asha", some "asha@mail.example", some "555-CALL", "1", some "2024-05-06",
    some "10:15:00", some "Pending", none⟩

/-- An appointment without phone number. -/
def aptNoPhone : Appointment :=
  ⟨"12", "Asha", some "asha@mail.example", none, "1", some "2024-05-06", some "10:15:00",
    some "Pending", none⟩

/-- A view state whose only active filter is the status filter, set to a status no example
appointment carries. -/
def noShowOnly : State where
  appointments := []
  filter := "NoShow"
  doctorFilter := ""
  dateFilter := ""
  searchTerm := ""
  currentPage := 3

end AdminAppointments

namespace DoctorAppointments

/-- The buttons of a table row: view, then accept and reject under
`apt?.status === 'Pending'`. -/
def rowButtons (apt : Appointment) : List Button :=
  [⟨"View", [.viewDetails apt]⟩] ++
  (if apt.status = some "Pending" then
    [⟨"Accept", [.updateStatus ⟨apt.id, "Confirmed"⟩]⟩,
     ⟨"Reject", [.updateStatus ⟨apt.id, "Rejected"⟩]⟩]
   else [])

/-- The buttons of the details modal for `selectedAppointment`: close, then accept and reject
under `selectedAppointment?.status === 'Pending'`. -/
def modalButtons (selected : Appointment) : List Button :=
  [⟨"Close", [.closeModal]⟩] ++
  (if selected.status = some "Pending" then
    [⟨"Accept", [.updateStatus ⟨selected.id, "Confirmed"⟩, .closeModal]⟩,
     ⟨"Reject", [.updateStatus ⟨selected.id, "Rejected"⟩, .closeModal]⟩]
   else [])

end DoctorAppointments

namespace DoctorAvailability

/-- The list `timeSlots` the time selects offer. -/
def timeSlots : List String :=
  ["08:00", "08:15", "08:30", "08:45",
   "09:00", "09:15", "09:30", "09:45",
   "10:00", "10:15", "10:30", "10:45",
   "11:00", "11:15", "11:30", "11:45",
   "12:00", "12:15", "12:30", "12:45",
   "13:00", "13:15", "13:30", "13:45",
   "14:00", "14:15", "14:30", "14:45",
   "15:00", "15:15", "15:30", "15:45",
   "16:00", "16:15", "16:30", "16:45",
   "17:00", "17:15", "17:30", "17:45",
   "18:00", "18:15", "18:30", "18:45",
   "19:00", "19:15", "19:30", "19:45",
   "20:00"]

/-- The body of a schedule write request. -/
def Request.body : Request → Payload
  | .updateSchedule _ body => body
  | .createNewSchedule body => body

/-- The time of day, in milliseconds, of a time field of a request body; `none` when the field
is null or not of the shape `HH:mm` or `HH:mm:ss`. -/
def timeOfDay : Option String → Option Int
  | some t => parseTimeChars t.data
  | none => none

/-- The break field a request carries for a break field of the form: null when the form
field is empty, and the form field in API format otherwise. -/
def breakFieldFor (formField : String) : Option String :=
  if formField ≠ "" then formatTimeForAPI (some formField) else none

/-- A create-mode form for 30 March to 1 April 2024, with working hours. -/
def acrossClockChange : State where
  userId := "7"
  schedules := []
  showForm := true
  editingSchedule := none
  submitting := false
  currentPage := 1
  formData := ⟨"2024-03-30", "2024-04-01", "09:00", "17:00", "", ""⟩

/-- A create-mode form for 1 to 3 January 2024, with working hours and a lunch break. -/
def threeDays : State where
  userId := "7"
  schedules := []
  showForm := true
  editingSchedule := none
  submitting := false
  currentPage := 1
  formData := ⟨"2024-01-01", "2024-01-03", "09:00", "17:00", "12:00", "13:00"⟩

/-- A create-mode form for one day whose break starts after the working hours and has no
end. -/
def breakOutsideHours : State where
  userId := "7"
  schedules := []
  showForm := true
  editingSchedule := none
  submitting := false
  currentPage := 1
  formData := ⟨"2024-01-01", "", "09:00", "17:00", "18:00", ""⟩

/-- A create-mode form for one day whose start time is later than its end time. -/
def lateStart : State where
  userId := "7"
  schedules := []
  showForm := true
  editingSchedule := none
  submitting := false
  currentPage := 1
  formData := ⟨"2024-01-01", "", "17:00", "09:00", "", ""⟩

/-- A backend that accepts the first date of a batch and turns every other one down with a
conflict message. -/
def firstOnly : Nat → CreateReply
  | 0 => .ok
  | _ => .rejected (some "Schedule already exists") none "Conflict" 409

/-- A backend that turns every date down. -/
def allRejected : Nat → CreateReply :=
  fun _ => .rejected none (some "Schedule already exists") "Conflict" 409

/-- Five failures, for the examples. -/
def fiveFailures : List Failure :=
  [⟨"2024-01-01", "a"⟩, ⟨"2024-01-02", "b"⟩, ⟨"2024-01-03", "c"⟩, ⟨"2024-01-04", "d"⟩,
   ⟨"2024-01-05", "e"⟩]

end DoctorAvailability

end Clinic

namespace Clinic

/-! ## JavaScript values and objects -/

/-- A JavaScript value as a page receives it from a parsed JSON body or reads it from an
object.  Numbers are kept as integers: the code modelled here only tests a number for being
zero.  The fields of an object are in insertion order. -/
inductive JsValue where
  | undefined
  | null
  | bool (b : Bool)
  | num (n : Int)
  | str (s : String)
  | arr (items : List JsValue)
  | obj (fields : List (String × JsValue))
  deriving Repr

/-- The own properties of an object, in insertion order. -/
abbrev Fields := List (String × JsValue)

/-- The value of property `name` of an object with these fields; `undefined` when it has no
such property. -/
def fieldOf (name : String) : Fields → JsValue
  | [] => .undefined
  | (key, value) :: rest => if key = name then value else fieldOf name rest

/-- Whether an object with these fields has the own property `name`. -/
def hasField (name : String) (fields : Fields) : Bool :=
  fields.any fun kv => decide (kv.1 = name)

/-- The assignment `object[name] = value`: an existing property keeps its place, a new one
goes last. -/
def setField (name : String) (value : JsValue) : Fields → Fields
  | [] => [(name, value)]
  | (key, old) :: rest =>
    if key = name then (key, value) :: rest else (key, old) :: setField name value rest

/-- The statement `delete object[name]`. -/
def deleteField (name : String) (fields : Fields) : Fields :=
  fields.filter fun kv => decide (kv.1 ≠ name)

/-- The object spread `{ ...a, ...b }`. -/
def spread (a b : Fields) : Fields :=
  b.foldl (fun acc kv => setField kv.1 kv.2 acc) a

namespace JsValue

/-- ECMAScript `ToBoolean`: `undefined`, `null`, `false`, `0` and the empty string are falsy,
every other value is truthy. -/
def toBoolean : JsValue → Bool
  | .undefined => false
  | .null => false
  | .bool b => b
  | .num n => decide (n ≠ 0)
  | .str s => decide (s ≠ "")
  | .arr _ => true
  | .obj _ => true

/-- Whether reading a property of the value throws a `TypeError`: it does for `undefined`
and `null` only. -/
def isNullish : JsValue → Bool
  | .undefined => true
  | .null => true
  | _ => false

/-- The property read `value.name` for the property names the pages use on data of the
backend (none of them is a built-in property of a string, number, boolean or array): the
field of an object, `undefined` for any other value.  On `undefined` and `null` the read
throws; callers test `isNullish` or truthiness first. -/
def prop (value : JsValue) (name : String) : JsValue :=
  match value with
  | .obj fields => fieldOf name fields
  | _ => .undefined

/-- The test `Array.isArray(value)`. -/
def isArray : JsValue → Bool
  | .arr _ => true
  | _ => false

/-- The elements of an array; no elements for any other value. -/
def items : JsValue → List JsValue
  | .arr xs => xs
  | _ => []

/-- The comparison `value === 'literal'` with a string literal. -/
def isStr (value : JsValue) (literal : String) : Bool :=
  match value with
  | .str s => decide (s = literal)
  | _ => false

/-- The expression `a || b`. -/
def or (a b : JsValue) : JsValue :=
  if a.toBoolean then a else b

end JsValue

/-! ## BookAppointment.jsx: the slots of a date -/

namespace BookAppointment

/-- What comes back from `GET /api/available-slots/:doctor/:date`: the parsed body, or an
exception from `fetch` or `response.json()`. -/
inductive SlotsReply where
  | body (data : JsValue)
  | failed
  deriving Repr

/-- What a run of `fetchAvailableSlots` leaves behind: `availableSlots`, `slotsLoading` and
the notifications raised. -/
structure SlotsOutcome where
  availableSlots : List JsValue
  slotsLoading : Bool
  toasts : List Toast
  deriving Repr

/-- The four places `fetchAvailableSlots` looks for the slot array, in the order it tries
them: `data.allSlots`, `data.data.allSlots`, `data.data` and `data` itself. -/
def slotArrayPlaces (data : JsValue) : List JsValue :=
  [data.prop "allSlots", (data.prop "data").prop "allSlots", data.prop "data", data]

/-- The variable `slots` after the chain of shape tests of `fetchAvailableSlots`; `none` when
the first test, `data.allSlots`, throws because `data` is `null` or `undefined`. -/
def recognisedSlots (data : JsValue) : Option (List JsValue) :=
  if data.isNullish then none
  else if (data.prop "allSlots").toBoolean && (data.prop "allSlots").isArray then
    some (data.prop "allSlots").items
  else if (data.prop "data").toBoolean && ((data.prop "data").prop "allSlots").toBoolean &&
      ((data.prop "data").prop "allSlots").isArray then
    some ((data.prop "data").prop "allSlots").items
  else if (data.prop "data").toBoolean && (data.prop "data").isArray then
    some (data.prop "data").items
  else if data.isArray then some data.items
  else some []

/-- The function `fetchAvailableSlots`, run to completion with the reply the backend gives. -/
def fetchAvailableSlots : SlotsReply → SlotsOutcome
  | .body data =>
    match recognisedSlots data with
    | some slots =>
      { availableSlots := slots
        slotsLoading := false
        toasts := if slots.length = 0 then [⟨.info, "No available slots for this date"⟩] else [] }
    | none =>
      { availableSlots := []
        slotsLoading := false
        toasts := [⟨.error, "Error fetching available time slots"⟩] }
  | .failed =>
    { availableSlots := []
      slotsLoading := false
      toasts := [⟨.error, "Error fetching available time slots"⟩] }

/-- What the time-slot part of the form shows. -/
inductive SlotPanel where
  | hidden
  | message (text : String)
  | buttons (slots : List JsValue)
  deriving Repr

/-- The time-slot part of the form: nothing without a date, then a hint without a doctor, a
hint while loading, the slot buttons, or the text that there are none. -/
def slotPanel (appointment_date : String) (selectedDoctor : Option Doctor) (slotsLoading : Bool)
    (availableSlots : List JsValue) : SlotPanel :=
  if appointment_date = "" then .hidden
  else if selectedDoctor.isNone then .message "Select Doctor to see slots"
  else if slotsLoading then .message "Loading slots..."
  else if availableSlots.length > 0 then .buttons availableSlots
  else .message "No available slots for this date"

/-- The constant `timeValue` of a slot button:
`slot.fullTime || slot.time || slot.slot_time || slot`. -/
def timeValue (slot : JsValue) : JsValue :=
  (((slot.prop "fullTime").or (slot.prop "time")).or (slot.prop "slot_time")).or slot

/-- The constant `status` of a slot button: `slot.status || 'available'`. -/
def slotStatus (slot : JsValue) : JsValue :=
  (slot.prop "status").or (.str "available")

/-- The constant `isAvailable` of a slot button: `status === 'available'`. -/
def isAvailable (slot : JsValue) : Bool :=
  (slotStatus slot).isStr "available"

/-- The handler `onClick` of the button of a slot, on the form data as an object:
`isAvailable && setFormData({ ...formData, appointment_time: timeValue })`; the result is the
form data after the click.  `none` for a slot that is `null` or `undefined`: rendering its
button throws on `slot.fullTime`, so there is nothing to click. -/
def slotClick (formData : Fields) (slot : JsValue) : Option Fields :=
  if slot.isNullish then none
  else if isAvailable slot then some (setField "appointment_time" (timeValue slot) formData)
  else some formData

/-- The form data as the object the page keeps in `formData`. -/
def formObject (f : FormData) : Fields :=
  [("patient_name", .str f.patient_name), ("patient_email", .str f.patient_email),
   ("patient_phone", .str f.patient_phone), ("patient_age", .str f.patient_age),
   ("appointment_date", .str f.appointment_date), ("appointment_time", .str f.appointment_time),
   ("reason", .str f.reason)]

/-- A response without slots: `{ "success": true, "data": { "allSlots": [] } }`. -/
def noSlotsBody : JsValue :=
  .obj [("success", .bool true), ("data", .obj [("allSlots", .arr [])])]

/-- A slot the backend marks with the status `false`. -/
def slotStatusFalse : JsValue :=
  .obj [("time", .str "09:00:00"), ("status", .bool false)]

/-- A booked slot. -/
def slotBooked : JsValue :=
  .obj [("time", .str "09:15:00"), ("status", .str "booked")]

/-- A slot without status. -/
def slotNoStatus : JsValue :=
  .obj [("time", .str "09:30:00")]

end BookAppointment

/-! ## The Slot Availability Calculator -/

namespace SlotCalculator

/-- Modelled from the spec: the schedule record the Slot Availability Calculator is given
(section 4.1).  The calculator runs behind `GET /api/available-slots`; the source of this
repository holds its caller `BookAppointment.fetchAvailableSlots` only.  Times of day are
minutes after midnight; `break_start` and `break_end` are optional. -/
structure Schedule where
  start_time : Nat
  end_time : Nat
  break_start : Option Nat
  break_end : Option Nat
  deriving DecidableEq, Repr

/-- Modelled from the spec: a slot descriptor, 'a time value and a status'. -/
structure Slot where
  time : Nat
  status : String
  deriving DecidableEq, Repr

/-- Modelled from the spec: the 'fixed granularity (15 minutes)'. -/
def granularity : Nat := 15

/-- Modelled from the spec: a slot 'falls within [break_start, break_end)'; without a break
window no slot does. -/
def inBreak (s : Schedule) (t : Nat) : Bool :=
  match s.break_start, s.break_end with
  | some a, some b => decide (a ≤ t ∧ t < b)
  | _, _ => false

/-- Modelled from the spec: 'an existing appointment already occupies the slot', read as:
the time of a booked appointment lies in the quarter of an hour the slot starts. -/
def occupied (booked : List Nat) (t : Nat) : Bool :=
  booked.any fun b => decide (t ≤ b ∧ b < t + granularity)

/-- Modelled from the spec: the status of the slot at `t`: 'status = "break" if it falls within
[break_start, break_end); "booked" if an existing appointment already occupies the slot;
otherwise "available"'. -/
def statusOf (s : Schedule) (booked : List Nat) (t : Nat) : String :=
  if inBreak s t then "break" else if occupied booked t then "booked" else "available"

/-- Modelled from the spec: 'generate slots at a fixed granularity (15 minutes) from
start_time to end_time, exclusive of end_time': the times from `t` on, one loop round per
unit of fuel. -/
def slotTimes : Nat → Nat → Nat → List Nat
  | 0, _, _ => []
  | fuel + 1, t, end_time =>
    if t < end_time then t :: slotTimes fuel (t + granularity) end_time else []

/-- Modelled from the spec: the Slot Availability Calculator: no schedule row gives the
empty sequence, a schedule the slots from `start_time` up to `end_time`, each with its
status.  The fuel `end_time - start_time` covers every round of the loop. -/
def slots (schedule : Option Schedule) (booked : List Nat) : List Slot :=
  match schedule with
  | none => []
  | some s =>
    (slotTimes (s.end_time - s.start_time) s.start_time s.end_time).map fun t =>
      ⟨t, statusOf s booked t⟩

/-- A morning from 09:00 to 10:00 without break. -/
def morning : Schedule := ⟨540, 600, none, none⟩

/-- A day from 09:00 to 11:00 with a break from 09:30 to 10:00. -/
def withBreak : Schedule := ⟨540, 660, some 570, some 600⟩

end SlotCalculator

/-! ## DoctorProfile.jsx and AdminProfile.jsx -/

namespace Profile

/-- The view state of a profile page: the record `doctor` or `admin` (`null` until it is
fetched), the form data and the flags. -/
structure State where
  record : Option Fields
  formData : Fields
  isEditing : Bool
  enablePassword : Bool
  saving : Bool
  deriving Repr

/-- What comes back from the update request: a response with whether `res.data?.success` is
truthy and its `res.data?.message`, or an exception of the request with its
`err.response?.data?.message`. -/
inductive Reply where
  | response (success : Bool) (message : Option String)
  | failed (message : Option String)
  deriving DecidableEq, Repr

/-- What a run of `handleSubmit` leaves behind: the state, the notifications, the bodies of
the update requests issued, and the record handed to `setUser` and written to local storage,
if any. -/
structure Outcome where
  state : State
  toasts : List Toast
  requests : List Fields
  storedUser : Option Fields
  deriving Repr

/-- The payload of `handleSubmit`: the copy `{ ...formData }`, with `password` deleted when
`!enablePassword || !payload.password?.trim()`.  `none` when the test throws: password
editing is enabled and the password is neither a string nor `undefined` nor `null`, so that
`trim` is not a function. -/
def payloadFor (enablePassword : Bool) (formData : Fields) : Option Fields :=
  if !enablePassword then some (deleteField "password" formData)
  else
    match fieldOf "password" formData with
    | .undefined => some (deleteField "password" formData)
    | .null => some (deleteField "password" formData)
    | .str s => if jsTrim s = "" then some (deleteField "password" formData) else some formData
    | _ => none

/-- The record after a successful update: `{ ...record, ...payload, password: "" }`. -/
def updatedRecord (record : Option Fields) (payload : Fields) : Fields :=
  setField "password" (.str "") (spread (record.getD []) payload)

/-- The handler `handleSubmit` of both profile pages, run to completion with the reply the
backend gives; `caught` is the text the catch block shows for the message of the exception. -/
def submitWith (caught : Option String → String) (st : State) (reply : Reply) : Outcome :=
  match payloadFor st.enablePassword st.formData with
  | none =>
    { state := { st with saving := false }
      toasts := [⟨.error, caught none⟩]
      requests := []
      storedUser := none }
  | some payload =>
    match reply with
    | .response true _ =>
      { state := { record := some (updatedRecord st.record payload)
                   formData := updatedRecord st.record payload
                   isEditing := false
                   enablePassword := false
                   saving := false }
        toasts := [⟨.success, "Profile updated successfully"⟩]
        requests := [payload]
        storedUser := some (updatedRecord st.record payload) }
    | .response false message =>
      { state := { st with saving := false }
        toasts := [⟨.error, jsOrElse message "Failed to update profile"⟩]
        requests := [payload]
        storedUser := none }
    | .failed message =>
      { state := { st with saving := false }
        toasts := [⟨.error, caught message⟩]
        requests := [payload]
        storedUser := none }

/-- A profile form with password editing switched off and a password typed in. -/
def typedPassword : State where
  record := some [("id", .num 7), ("name", .str "Rao"), ("password", .str "$2b$10$hash")]
  formData := [("id", .num 7), ("name", .str "Rao"), ("password", .str "secret")]
  isEditing := true
  enablePassword := false
  saving := false

/-- The same form with password editing switched on. -/
def enabledPassword : State :=
  { typedPassword with enablePassword := true }

end Profile

namespace DoctorProfile

/-- The handler `handleSubmit` of DoctorProfile: the catch block shows
`err.response?.data?.message || "Failed to update profile"`. -/
def handleSubmit (st : Profile.State) (reply : Profile.Reply) : Profile.Outcome :=
  Profile.submitWith (fun message => jsOrElse message "Failed to update profile") st reply

end DoctorProfile

namespace AdminProfile

/-- The handler `handleSubmit` of AdminProfile: the catch block shows
"Failed to update profile". -/
def handleSubmit (st : Profile.State) (reply : Profile.Reply) : Profile.Outcome :=
  Profile.submitWith (fun _ => "Failed to update profile") st reply

end AdminProfile

/-! ## Strings cut by code units -/

/-- The characters that fit into the first `n` UTF-16 code units of a list of characters. -/
def takeUnits : Nat → List Char → List Char
  | _, [] => []
  | n, c :: cs =>
    if (if c.toNat < 0x10000 then 1 else 2) ≤ n then
      c :: takeUnits (n - (if c.toNat < 0x10000 then 1 else 2)) cs
    else []

/-- The call `s.slice(0, n)` on a string: its first `n` UTF-16 code units.  Where the cut
falls inside a surrogate pair JavaScript keeps the first half of the pair; a string here
cannot hold half a pair and the pair is left out. -/
def sliceTo (n : Nat) (s : String) : String :=
  String.mk (takeUnits n s.data)

/-! ## DoctorAvailability.jsx: editing, deleting and paging -/

namespace DoctorAvailability

/-- The page size `appointmentsPerPage`. -/
def appointmentsPerPage : Nat := 5

/-- A stored time with zero seconds: five code units, as in `HH:MM`, followed by `:00`. -/
def ZeroSeconds (stored : String) : Prop :=
  ∃ t, jsLength t = 5 ∧ stored = t ++ ":00"

/-- A stored break time that is missing or has zero seconds. -/
def MissingOrZeroSeconds : Option String → Prop
  | none => True
  | some stored => ZeroSeconds stored

/-- A time field of the edit form: `schedule.start_time?.slice(0, 5) || ''`. -/
def loadTime (stored : Option String) : String :=
  jsOrElse (stored.map (sliceTo 5)) ""

/-- The handler `handleEdit`. -/
def handleEdit (st : State) (schedule : Schedule) : State :=
  { st with
    editingSchedule := some schedule
    formData :=
      { available_date := schedule.available_date
        end_date := ""
        start_time := loadTime schedule.start_time
        end_time := loadTime schedule.end_time
        break_start := loadTime schedule.break_start
        break_end := loadTime schedule.break_end }
    showForm := true }

/-- What comes back from `GET /api/getDoctorAvailability/:id`: a body with whether
`data.status` is truthy and its `data.data`, or an exception. -/
inductive FetchReply where
  | body (status : Bool) (data : List Schedule)
  | failed
  deriving DecidableEq, Repr

/-- The function `fetchSchedules`, run to completion with the reply the backend gives. -/
def fetchSchedules (st : State) : FetchReply → State × List Toast
  | .body true data => ({ st with schedules := data }, [])
  | .body false _ => (st, [⟨.error, "Failed to fetch schedules"⟩])
  | .failed => (st, [⟨.error, "Error fetching schedules"⟩])

/-- What comes back from `DELETE /api/deleteSchedule/:id`: a response with `response.ok` and
the `error` and `message` fields of its body, or an exception. -/
inductive DeleteReply where
  | response (ok : Bool) (error message : Option String)
  | failed
  deriving DecidableEq, Repr

/-- The handler `handleDelete`, run to completion: `confirmed` is the answer to
`window.confirm`, `reply` the reply to the delete request and `refetch` the reply to the
`fetchSchedules()` that follows a successful delete. -/
def handleDelete (st : State) (confirmed : Bool) (reply : DeleteReply) (refetch : FetchReply) :
    State × List Toast :=
  if !confirmed then (st, [])
  else
    match reply with
    | .response true _ _ =>
      ((fetchSchedules st refetch).1,
        ⟨.success, "Schedule deleted"⟩ :: (fetchSchedules st refetch).2)
    | .response false error message =>
      (st, [⟨.error, jsOrElse (jsOr error message) "Failed to delete"⟩])
    | .failed => (st, [⟨.error, "Could not delete schedule"⟩])

/-- The rows shown: `schedules.slice(indexOfFirstAppointment, indexOfLastAppointment)`. -/
def currentAppointments (st : State) : List Schedule :=
  pageSlice st.schedules st.currentPage appointmentsPerPage

/-- The page count shown: `Math.ceil(schedules.length / appointmentsPerPage)`. -/
def pageCount (st : State) : Nat :=
  totalPages st.schedules.length appointmentsPerPage

/-- Whether the pagination controls are rendered:
`schedules.length > appointmentsPerPage`. -/
def paginationShown (st : State) : Bool :=
  decide (st.schedules.length > appointmentsPerPage)

/-- A click on Previous: `paginate(currentPage - 1)` unless the controls are not rendered or
the button is disabled by `currentPage === 1`. -/
def previousPage (st : State) : State :=
  if paginationShown st ∧ st.currentPage ≠ 1 then { st with currentPage := st.currentPage - 1 }
  else st

/-- A click on Next: `paginate(currentPage + 1)` unless the controls are not rendered or the
button is disabled by `currentPage * appointmentsPerPage >= schedules.length`. -/
def nextPage (st : State) : State :=
  if paginationShown st ∧ ¬ (st.currentPage * appointmentsPerPage ≥ st.schedules.length) then
    { st with currentPage := st.currentPage + 1 }
  else st

/-- A schedule row for the examples. -/
def scheduleOn (id date : String) : Schedule :=
  ⟨id, date, some "09:00:00", some "17:00:00", some "12:00:00", none⟩

/-- A stored schedule whose start time, 17:00:00, lies after its end time, 09:00:00. -/
def eveningToMorning : Schedule :=
  ⟨"8", "2024-01-01", some "17:00:00", some "09:00:00", none, none⟩

/-- Six schedule rows. -/
def sixSchedules : List Schedule :=
  [scheduleOn "1" "2024-01-01", scheduleOn "2" "2024-01-02", scheduleOn "3" "2024-01-03",
   scheduleOn "4" "2024-01-04", scheduleOn "5" "2024-01-05", scheduleOn "6" "2024-01-06"]

/-- The list page showing the second page of six schedules. -/
def secondPageOfSix : State where
  userId := "7"
  schedules := sixSchedules
  showForm := false
  editingSchedule := none
  submitting := false
  currentPage := 2
  formData := emptyForm

end DoctorAvailability

/-! ## DoctorAppointments.jsx: paging -/

namespace DoctorAppointments

/-- Whether the pagination controls are rendered:
`appointments.length > appointmentsPerPage`. -/
def paginationShown (st : State) : Bool :=
  decide (st.appointments.length > appointmentsPerPage)

/-- The page count shown: `Math.ceil(appointments.length / appointmentsPerPage)`. -/
def pageCount (st : State) : Nat :=
  totalPages st.appointments.length appointmentsPerPage

/-- A click on Previous: `paginate(currentPage - 1)` unless the controls are not rendered or
the button is disabled by `currentPage === 1`; the effect, which lists `currentPage` among
its dependencies, then runs `fetchAppointments`. -/
def previousPage (lower : String → String) (st : State) (reply : Reply) : State × List Toast :=
  if paginationShown st ∧ st.currentPage ≠ 1 then
    fetchAppointments lower { st with currentPage := st.currentPage - 1 } reply
  else (st, [])

/-- A click on Next: `paginate(currentPage + 1)` unless the controls are not rendered or the
button is disabled by `currentPage * appointmentsPerPage >= appointments.length`; then the
effect runs `fetchAppointments`. -/
def nextPage (lower : String → String) (st : State) (reply : Reply) : State × List Toast :=
  if paginationShown st ∧
      ¬ (st.currentPage * appointmentsPerPage ≥ st.appointments.length) then
    fetchAppointments lower { st with currentPage := st.currentPage + 1 } reply
  else (st, [])

end DoctorAppointments

/-! ## Records without searchable text -/

namespace DoctorPage

/-- Whether a doctor has a searchable field that is present and not empty, that is, whether
the list the search predicate builds with `.filter(Boolean)` has an element. -/
def hasSearchableField (doc : Doctor) : Bool :=
  [doc.full_name, doc.email, doc.specialization, doc.phone, doc.status].any
    fun field => (truthy field).isSome

/-- A doctor record without name, email, specialization, phone and status. -/
def blankDoctor : Doctor := ⟨"9", none, none, none, none, none⟩

end DoctorPage

namespace Enquiries

/-- Whether a contact has a searchable field that is present (it may be empty). -/
def hasSearchableField (c : Contact) : Bool :=
  c.name.isSome || c.email.isSome || c.subject.isSome || c.message.isSome

/-- A contact record without name, email, subject and message. -/
def blankContact : Contact := ⟨none, none, none, none⟩

/-- A contact record with a name only. -/
def namedContact : Contact := ⟨some "Asha", none, none, none⟩

end Enquiries

end Clinic

namespace Clinic

theorem DayFromYear_decomp (a b c e : Int) (hb0 : 0 ≤ b) (hb : b ≤ 3) (hc0 : 0 ≤ c) (hc : c ≤ 24)
    (he0 : 0 ≤ e) (he : e ≤ 3) :
    DayFromYear (1601 + 400 * a + 100 * b + 4 * c + e)
      = 146097 * a + 36524 * b + 1461 * c + 365 * e - 134774 := by
  unfold DayFromYear
  omega

theorem InLeapYear_decomp (a b c e : Int) (hb0 : 0 ≤ b) (hb : b ≤ 3) (hc0 : 0 ≤ c) (hc : c ≤ 24)
    (he0 : 0 ≤ e) (he : e ≤ 3) :
    InLeapYear (1601 + 400 * a + 100 * b + 4 * c + e)
      = (decide (e = 3) && (decide (c ≠ 24) || decide (b = 3))) := by
  unfold InLeapYear
  rw [Bool.eq_iff_iff]
  simp only [Bool.and_eq_true, Bool.or_eq_true, decide_eq_true_eq]
  omega

theorem capDiv_spec (r k : Int) (hk : 0 < k) (h0 : 0 ≤ r) (h1 : r < 4 * k + 1) :
    0 ≤ capDiv r k ∧ capDiv r k ≤ 3 ∧ 0 ≤ r - k * capDiv r k ∧ r - k * capDiv r k ≤ k ∧
      (capDiv r k < 3 → r - k * capDiv r k < k) := by
  unfold capDiv
  have h2 : 0 ≤ r / k := Int.ediv_nonneg h0 hk.le
  have h3 : r / k ≤ 4 := by
    have : r / k < 5 := Int.ediv_lt_of_lt_mul hk (by linarith)
    omega
  have h4 := Int.emod_add_ediv r k
  have h5 := Int.emod_nonneg r hk.ne'
  have h6 := Int.emod_lt_of_pos r hk
  split_ifs with h
  · rw [h] at h4
    refine ⟨by omega, by omega, by linarith, by linarith, by omega⟩
  · refine ⟨h2, by omega, by linarith, by linarith, fun _ => by linarith⟩

theorem yearAndDay_core (z a r b r2 c r3 e : Int)
    (hz : z = 146097 * a + r - 134774)
    (hb0 : 0 ≤ b) (hb3 : b ≤ 3) (hr2 : r2 = r - 36524 * b) (hr20 : 0 ≤ r2) (hr21 : r2 ≤ 36524)
    (hr22 : b < 3 → r2 < 36524) (hc : c = r2 / 1461) (hr3 : r3 = r2 % 1461)
    (he0 : 0 ≤ e) (he3 : e ≤ 3) (hd1 : r3 - 365 * e ≤ 365)
    (hd2 : e < 3 → r3 - 365 * e < 365) :
    DayFromYear (1601 + 400 * a + 100 * b + 4 * c + e) + (r3 - 365 * e) = z ∧
      r3 - 365 * e < DaysInYear (1601 + 400 * a + 100 * b + 4 * c + e) := by
  have hc0 : 0 ≤ c := by omega
  have hc1 : c ≤ 24 := by omega
  have hr30 : 0 ≤ r3 := by omega
  have hr31 : r3 < 1461 := by omega
  have hr32 : r2 = 1461 * c + r3 := by omega
  unfold DaysInYear
  rw [DayFromYear_decomp a b c e hb0 hb3 hc0 hc1 he0 he3,
    InLeapYear_decomp a b c e hb0 hb3 hc0 hc1 he0 he3]
  refine ⟨by omega, ?_⟩
  by_cases h3 : e = 3
  · by_cases h24 : c ≠ 24
    · simp [h3, h24]; omega
    · by_cases hb3' : b = 3
      · simp [h3, hb3']; omega
      · simp [h3, h24, hb3']
        have : c = 24 := by omega
        omega
  · simp [h3]; omega

theorem yearAndDay_spec (z : Int) :
    DayFromYear (yearAndDay z).1 + (yearAndDay z).2 = z ∧ 0 ≤ (yearAndDay z).2 ∧
      (yearAndDay z).2 < DaysInYear (yearAndDay z).1 := by
  have hr0 : 0 ≤ (z + 134774) % 146097 := by omega
  have hr1 : (z + 134774) % 146097 < 146097 := by omega
  obtain ⟨hb0, hb3, hr20, hr21, hr22⟩ :=
    capDiv_spec ((z + 134774) % 146097) 36524 (by norm_num) hr0 (by omega)
  have hr30 : 0 ≤ ((z + 134774) % 146097 - 36524 * capDiv ((z + 134774) % 146097) 36524) % 1461 :=
    Int.emod_nonneg _ (by norm_num)
  have hr31 : ((z + 134774) % 146097 - 36524 * capDiv ((z + 134774) % 146097) 36524) % 1461 < 1461 :=
    Int.emod_lt_of_pos _ (by norm_num)
  obtain ⟨he0, he3, hd0, hd1, hd2⟩ :=
    capDiv_spec (((z + 134774) % 146097 - 36524 * capDiv ((z + 134774) % 146097) 36524) % 1461) 365
      (by norm_num) hr30 (by omega)
  have h := yearAndDay_core z ((z + 134774) / 146097) ((z + 134774) % 146097)
    (capDiv ((z + 134774) % 146097) 36524) _ _ _ _ (by omega) hb0 hb3 rfl hr20 hr21 hr22 rfl rfl
    he0 he3 hd1 hd2
  exact ⟨h.1, hd0, h.2⟩

theorem DayFromYear_succ (y : Int) : DayFromYear (y + 1) = DayFromYear y + DaysInYear y := by
  unfold DayFromYear DaysInYear InLeapYear
  by_cases h4 : y % 4 = 0 <;> by_cases h100 : y % 100 = 0 <;> by_cases h400 : y % 400 = 0 <;>
    simp [h4, h100, h400] <;> omega

theorem DaysInYear_pos (y : Int) : 365 ≤ DaysInYear y := by
  unfold DaysInYear; split_ifs <;> omega

theorem DayFromYear_mono_nat (y : Int) (k : Nat) : DayFromYear y + 365 * k ≤ DayFromYear (y + k) := by
  induction k with
  | zero => simp
  | succ k ih =>
    have h1 := DayFromYear_succ (y + k)
    have h2 := DaysInYear_pos (y + k)
    have : y + ((k + 1 : Nat) : Int) = y + k + 1 := by push_cast; ring
    rw [this, h1]
    push_cast
    linarith

theorem DayFromYear_lt {y1 y2 : Int} (h : y1 < y2) : DayFromYear (y1 + 1) ≤ DayFromYear y2 := by
  obtain ⟨k, hk⟩ := Int.eq_ofNat_of_zero_le (show 0 ≤ y2 - (y1 + 1) by omega)
  have := DayFromYear_mono_nat (y1 + 1) k
  have e : y2 = y1 + 1 + k := by omega
  rw [e]
  have hk0 : (0 : Int) ≤ 365 * k := by positivity
  linarith

theorem yearAndDay_unique (y doy : Int) (h0 : 0 ≤ doy) (h1 : doy < DaysInYear y) :
    yearAndDay (DayFromYear y + doy) = (y, doy) := by
  obtain ⟨e, e0, e1⟩ := yearAndDay_spec (DayFromYear y + doy)
  generalize yearAndDay (DayFromYear y + doy) = p at *
  obtain ⟨y', doy'⟩ := p
  simp only at e e0 e1
  have hy : y' = y := by
    rcases lt_trichotomy y' y with h | h | h
    · have := DayFromYear_lt h
      rw [DayFromYear_succ] at this
      omega
    · exact h
    · have := DayFromYear_lt h
      rw [DayFromYear_succ] at this
      omega
  subst hy
  simp only [Prod.mk.injEq, true_and]
  omega

theorem leapDay_cases (leap : Bool) :
    (leap = false ∧ leapDay leap = 0) ∨ (leap = true ∧ leapDay leap = 1) := by
  cases leap <;> simp [leapDay]

theorem daysBeforeMonth_table (leap : Bool) :
    daysBeforeMonth leap 1 = 0 ∧ daysBeforeMonth leap 2 = 31 ∧
    daysBeforeMonth leap 3 = 59 + leapDay leap ∧ daysBeforeMonth leap 4 = 90 + leapDay leap ∧
    daysBeforeMonth leap 5 = 120 + leapDay leap ∧ daysBeforeMonth leap 6 = 151 + leapDay leap ∧
    daysBeforeMonth leap 7 = 181 + leapDay leap ∧ daysBeforeMonth leap 8 = 212 + leapDay leap ∧
    daysBeforeMonth leap 9 = 243 + leapDay leap ∧ daysBeforeMonth leap 10 = 273 + leapDay leap ∧
    daysBeforeMonth leap 11 = 304 + leapDay leap ∧ daysBeforeMonth leap 12 = 334 + leapDay leap := by
  refine ⟨?_, ?_, ?_, ?_, ?_, ?_, ?_, ?_, ?_, ?_, ?_, ?_⟩ <;> norm_num [daysBeforeMonth]

theorem monthOfDayFirstHalf_cases (leap : Bool) (doy : Int) (h : doy < 181 + leapDay leap) :
    1 ≤ monthOfDayFirstHalf leap doy ∧ monthOfDayFirstHalf leap doy ≤ 12 ∧
      (monthOfDayFirstHalf leap doy = 1 ∨
        daysBeforeMonth leap (monthOfDayFirstHalf leap doy) ≤ doy) ∧
      (monthOfDayFirstHalf leap doy = 12 ∨
        doy < daysBeforeMonth leap (monthOfDayFirstHalf leap doy + 1)) := by
  obtain ⟨t1, t2, t3, t4, t5, t6, t7, -⟩ := daysBeforeMonth_table leap
  generalize hm : monthOfDayFirstHalf leap doy = m
  unfold monthOfDayFirstHalf at hm
  split_ifs at hm <;> subst hm <;> norm_num [t1, t2, t3, t4, t5, t6, t7] <;> omega

theorem monthOfDaySecondHalf_cases (leap : Bool) (doy : Int) (h : ¬ doy < 181 + leapDay leap) :
    1 ≤ monthOfDaySecondHalf leap doy ∧ monthOfDaySecondHalf leap doy ≤ 12 ∧
      (monthOfDaySecondHalf leap doy = 1 ∨
        daysBeforeMonth leap (monthOfDaySecondHalf leap doy) ≤ doy) ∧
      (monthOfDaySecondHalf leap doy = 12 ∨
        doy < daysBeforeMonth leap (monthOfDaySecondHalf leap doy + 1)) := by
  obtain ⟨-, -, -, -, -, -, t7, t8, t9, t10, t11, t12⟩ := daysBeforeMonth_table leap
  generalize hm : monthOfDaySecondHalf leap doy = m
  unfold monthOfDaySecondHalf at hm
  split_ifs at hm <;> subst hm <;> norm_num [t7, t8, t9, t10, t11, t12] <;> omega

/-- The month of a day of the year is the one whose first day is not after it and whose
successor's first day is. -/
theorem monthOfDay_cases (leap : Bool) (doy : Int) :
    1 ≤ monthOfDay leap doy ∧ monthOfDay leap doy ≤ 12 ∧
      (monthOfDay leap doy = 1 ∨ daysBeforeMonth leap (monthOfDay leap doy) ≤ doy) ∧
      (monthOfDay leap doy = 12 ∨ doy < daysBeforeMonth leap (monthOfDay leap doy + 1)) := by
  unfold monthOfDay
  by_cases h : doy < 181 + leapDay leap
  · rw [if_pos h]; exact monthOfDayFirstHalf_cases leap doy h
  · rw [if_neg h]; exact monthOfDaySecondHalf_cases leap doy h

theorem monthAndDate_cases (leap : Bool) (doy : Int) :
    ∃ m : Int, 1 ≤ m ∧ m ≤ 12 ∧
      monthAndDate leap doy = (m, doy - daysBeforeMonth leap m + 1) ∧
      (m = 1 ∨ daysBeforeMonth leap m ≤ doy) ∧
      (m = 12 ∨ doy < daysBeforeMonth leap (m + 1)) := by
  obtain ⟨h1, h2, h3, h4⟩ := monthOfDay_cases leap doy
  exact ⟨monthOfDay leap doy, h1, h2, rfl, h3, h4⟩

theorem daysBeforeMonth_step (leap : Bool) (m : Int) (hm1 : 1 ≤ m) (hm2 : m < 12) :
    daysBeforeMonth leap m + 28 ≤ daysBeforeMonth leap (m + 1) := by
  obtain ⟨t1, t2, t3, t4, t5, t6, t7, t8, t9, t10, t11, t12⟩ := daysBeforeMonth_table leap
  have hl := leapDay_cases leap
  have hm : m = 1 ∨ m = 2 ∨ m = 3 ∨ m = 4 ∨ m = 5 ∨ m = 6 ∨ m = 7 ∨ m = 8 ∨ m = 9 ∨ m = 10 ∨
      m = 11 := by omega
  rcases hm with h | h | h | h | h | h | h | h | h | h | h <;> subst h <;> norm_num <;> omega

theorem daysBeforeMonth_mono_nat (leap : Bool) (m : Int) (k : Nat) (hm1 : 1 ≤ m)
    (hm2 : m + k ≤ 12) : daysBeforeMonth leap m ≤ daysBeforeMonth leap (m + k) := by
  induction k with
  | zero => simp
  | succ k ih =>
    have h1 := ih (by push_cast at hm2; omega)
    have h2 := daysBeforeMonth_step leap (m + k) (by omega) (by push_cast at hm2; omega)
    have e : m + ((k + 1 : Nat) : Int) = m + k + 1 := by push_cast; ring
    rw [e]
    omega

theorem daysBeforeMonth_mono (leap : Bool) (a b : Int) (ha : 1 ≤ a) (hab : a ≤ b) (hb : b ≤ 12) :
    daysBeforeMonth leap a ≤ daysBeforeMonth leap b := by
  obtain ⟨k, hk⟩ := Int.eq_ofNat_of_zero_le (show 0 ≤ b - a by omega)
  have e : b = a + k := by omega
  rw [e]
  exact daysBeforeMonth_mono_nat leap a k ha (by omega)

theorem monthAndDate_spec (leap : Bool) (doy : Int) (h0 : 0 ≤ doy) :
    1 ≤ (monthAndDate leap doy).1 ∧ (monthAndDate leap doy).1 ≤ 12 ∧
      1 ≤ (monthAndDate leap doy).2 ∧
      daysBeforeMonth leap (monthAndDate leap doy).1 + (monthAndDate leap doy).2 - 1 = doy := by
  obtain ⟨t1, -⟩ := daysBeforeMonth_table leap
  obtain ⟨m, hm1, hm2, he, hlo, hhi⟩ := monthAndDate_cases leap doy
  rw [he]
  simp only
  refine ⟨hm1, hm2, ?_, by omega⟩
  rcases hlo with h | h
  · subst h; omega
  · omega

theorem daysInMonth_eq (y m : Int) (hm1 : 1 ≤ m) (hm2 : m ≤ 12) :
    (m = 12 ∧ daysInMonth y m = 31) ∨
    (m < 12 ∧ daysBeforeMonth (InLeapYear y) (m + 1) =
      daysBeforeMonth (InLeapYear y) m + daysInMonth y m) := by
  unfold daysInMonth
  generalize InLeapYear y = leap
  obtain ⟨t1, t2, t3, t4, t5, t6, t7, t8, t9, t10, t11, t12⟩ := daysBeforeMonth_table leap
  have hm : m = 1 ∨ m = 2 ∨ m = 3 ∨ m = 4 ∨ m = 5 ∨ m = 6 ∨ m = 7 ∨ m = 8 ∨ m = 9 ∨ m = 10 ∨
      m = 11 ∨ m = 12 := by omega
  rcases leapDay_cases leap with ⟨hl, hl'⟩ | ⟨hl, hl'⟩ <;> subst hl <;>
    rcases hm with h | h | h | h | h | h | h | h | h | h | h | h <;> subst h <;>
    norm_num <;> omega

theorem monthAndDate_inv (y m d : Int) (hm1 : 1 ≤ m) (hm2 : m ≤ 12) (hd1 : 1 ≤ d)
    (hd2 : d ≤ daysInMonth y m) :
    monthAndDate (InLeapYear y) (daysBeforeMonth (InLeapYear y) m + d - 1) = (m, d) ∧
      0 ≤ daysBeforeMonth (InLeapYear y) m + d - 1 ∧
      daysBeforeMonth (InLeapYear y) m + d - 1 < DaysInYear y := by
  obtain ⟨t1, t2, t3, t4, t5, t6, t7, t8, t9, t10, t11, t12⟩ :=
    daysBeforeMonth_table (InLeapYear y)
  have hdim := daysInMonth_eq y m hm1 hm2
  obtain ⟨m', hm1', hm2', he, hlo, hhi⟩ :=
    monthAndDate_cases (InLeapYear y) (daysBeforeMonth (InLeapYear y) m + d - 1)
  have hY : DaysInYear y = 365 + leapDay (InLeapYear y) := by
    unfold DaysInYear leapDay
    split_ifs <;> rfl
  have h1m := daysBeforeMonth_mono (InLeapYear y) 1 m (le_refl _) hm1 hm2
  have hmm : m' = m := by
    rcases lt_trichotomy m' m with h | h | h
    · have := daysBeforeMonth_mono (InLeapYear y) (m' + 1) m (by omega) (by omega) hm2
      omega
    · exact h
    · have := daysBeforeMonth_mono (InLeapYear y) (m + 1) m' (by omega) (by omega) hm2'
      omega
  subst hmm
  refine ⟨?_, by omega, ?_⟩
  · rw [he]
    simp only [Prod.mk.injEq, true_and]
    omega
  · rw [hY]
    rcases hdim with ⟨h12, hd⟩ | ⟨h12, hd⟩
    · subst h12; omega
    · have := daysBeforeMonth_mono (InLeapYear y) (m' + 1) 12 (by omega) (by omega) (le_refl _)
      omega

/-- Day number of the date of a day number with the day of the month replaced. -/
theorem dayFromCivil_civilFromDay (z dt : Int) :
    dayFromCivil (civilFromDay z).1 (civilFromDay z).2.1 dt = z - (civilFromDay z).2.2 + dt := by
  obtain ⟨e, e0, e1⟩ := yearAndDay_spec z
  unfold civilFromDay dayFromCivil
  simp only
  have := monthAndDate_spec (InLeapYear (yearAndDay z).1) (yearAndDay z).2 e0
  omega

/-- The date of the day number of a date that exists is that date. -/
theorem civilFromDay_dayFromCivil (y m d : Int) (hm1 : 1 ≤ m) (hm2 : m ≤ 12) (hd1 : 1 ≤ d)
    (hd2 : d ≤ daysInMonth y m) : civilFromDay (dayFromCivil y m d) = (y, m, d) := by
  obtain ⟨h1, h2, h3⟩ := monthAndDate_inv y m d hm1 hm2 hd1 hd2
  unfold civilFromDay dayFromCivil
  have e : DayFromYear y + daysBeforeMonth (InLeapYear y) m + d - 1
      = DayFromYear y + (daysBeforeMonth (InLeapYear y) m + d - 1) := by ring
  rw [e, yearAndDay_unique y _ h2 h3]
  simp only [h1]

end Clinic

namespace Clinic

theorem digitVal_digitChar (n : Nat) (h : n < 10) : digitVal (digitChar n) = some n := by
  interval_cases n <;> decide

theorem digitsVal_pad2 (n : Nat) (h : n < 100) : digitsVal (pad2 n) = some n := by
  have h1 : n / 10 % 10 < 10 := Nat.mod_lt _ (by norm_num)
  have h2 : n % 10 < 10 := Nat.mod_lt _ (by norm_num)
  simp only [pad2, digitsVal, List.foldl, digitVal_digitChar _ h1, digitVal_digitChar _ h2]
  congr 1
  omega

theorem digitsVal_pad4 (n : Nat) (h : n < 10000) : digitsVal (pad4 n) = some n := by
  have h1 : n / 1000 % 10 < 10 := Nat.mod_lt _ (by norm_num)
  have h2 : n / 100 % 10 < 10 := Nat.mod_lt _ (by norm_num)
  have h3 : n / 10 % 10 < 10 := Nat.mod_lt _ (by norm_num)
  have h4 : n % 10 < 10 := Nat.mod_lt _ (by norm_num)
  simp only [pad4, digitsVal, List.foldl, digitVal_digitChar _ h1, digitVal_digitChar _ h2,
    digitVal_digitChar _ h3, digitVal_digitChar _ h4]
  congr 1
  omega

theorem Day_mul_add (d r : Int) (h0 : 0 ≤ r) (h1 : r < msPerDay) :
    Day (d * msPerDay + r) = d ∧ TimeWithinDay (d * msPerDay + r) = r := by
  unfold Day TimeWithinDay msPerDay at *
  omega

theorem Day_add_TimeWithinDay (t : Int) : Day t * msPerDay + TimeWithinDay t = t := by
  unfold Day TimeWithinDay msPerDay
  omega

/-- Setting the day of the month to the next one moves the local wall clock on by one day. -/
theorem setDate_getDate_succ (tz : TimeZone) (t : Int) :
    setDate tz t (getDate tz t + 1) = UTC tz (LocalTime tz t + msPerDay) := by
  unfold setDate getDate
  simp only
  rw [dayFromCivil_civilFromDay]
  have := Day_add_TimeWithinDay (LocalTime tz t)
  congr 1
  linarith

theorem setDate_getDate_succ_fixed (c t : Int) :
    setDate (fixedZone c) t (getDate (fixedZone c) t + 1) = t + msPerDay := by
  rw [setDate_getDate_succ]
  simp only [UTC, LocalTime, fixedZone]
  ring

end Clinic

namespace Clinic

theorem daysInMonth_le (y m : Int) : daysInMonth y m ≤ 31 := by
  unfold daysInMonth
  split_ifs <;> omega

theorem parseDateChars_isoDate (y m d : Nat) (h : ValidDate y m d) :
    parseDateChars (isoDate y m d).data = some (dayFromCivil y m d) := by
  obtain ⟨hy, hm1, hm2, hd1, hd2⟩ := h
  have hd3 := daysInMonth_le y m
  simp only [isoDate, pad4, pad2, List.cons_append, List.nil_append, parseDateChars, and_self,
    if_true]
  have e4 := digitsVal_pad4 y (by omega)
  have em := digitsVal_pad2 m (by omega)
  have ed := digitsVal_pad2 d (by omega)
  simp only [pad4, pad2] at e4 em ed
  rw [e4, em, ed]
  simp only
  rw [if_pos ⟨hm1, hm2, hd1, hd2⟩]

theorem newDate_isoDate (tz : TimeZone) (y m d : Nat) (h : ValidDate y m d) :
    newDate tz (isoDate y m d) = some (dayFromCivil y m d * msPerDay) := by
  have e := parseDateChars_isoDate y m d h
  unfold newDate
  have h1 : (isoDate y m d).data.take 10 = (isoDate y m d).data := by
    simp [isoDate, pad4, pad2]
  have h2 : (isoDate y m d).data.drop 10 = [] := by
    simp [isoDate, pad4, pad2]
  rw [h1, h2, e]

theorem isoDatePart_dayFromCivil (y m d : Nat) (h : ValidDate y m d) :
    isoDatePart (dayFromCivil y m d * msPerDay) = isoDate y m d := by
  obtain ⟨hy, hm1, hm2, hd1, hd2⟩ := h
  have hD : Day (dayFromCivil y m d * msPerDay) = dayFromCivil y m d := by
    have := (Day_mul_add (dayFromCivil y m d) 0 (le_refl _) (by decide)).1
    simpa using this
  unfold isoDatePart
  simp only [hD]
  rw [civilFromDay_dayFromCivil y m d (by omega) (by omega) (by omega) hd2]
  simp only [isoYear, isoDate]
  rw [if_pos ⟨by omega, by omega⟩]
  simp

end Clinic

namespace Clinic

open DoctorAvailability

/-- In a zone with one offset the date loop emits one entry per day, `n + 1` of them when the
end lies `n` whole days after the start, provided the fuel covers the `n + 2` loop tests. -/
theorem getDatesLoop_fixedZone (c s : Int) (n fuel : Nat) (hf : n + 2 ≤ fuel) :
    getDatesLoop (fixedZone c) (s + n * msPerDay) fuel s =
      some ((List.range (n + 1)).map fun (i : Nat) => isoDatePart (s + (i : Int) * msPerDay)) := by
  induction n generalizing s fuel with
  | zero =>
    obtain ⟨f, rfl⟩ : ∃ f, fuel = f + 2 := ⟨fuel - 2, by omega⟩
    simp [getDatesLoop, setDate_getDate_succ_fixed, msPerDay, List.range_succ]
  | succ n ih =>
    obtain ⟨f, rfl⟩ : ∃ f, fuel = f + 1 := ⟨fuel - 1, by omega⟩
    have hle : s ≤ s + ((n + 1 : Nat) : Int) * msPerDay := by
      have : (0 : Int) ≤ ((n + 1 : Nat) : Int) * msPerDay := by
        unfold msPerDay; positivity
      omega
    have he : s + ((n + 1 : Nat) : Int) * msPerDay = (s + msPerDay) + (n : Int) * msPerDay := by
      push_cast; ring
    rw [getDatesLoop, if_pos hle, setDate_getDate_succ_fixed, he, ih (s + msPerDay) f (by omega)]
    rw [List.range_succ_eq_map (n + 1)]
    simp only [Option.map_some', List.map_cons, List.map_map, Nat.cast_zero, zero_mul, add_zero]
    congr 2
    apply List.map_congr_left
    intro i _
    simp only [Function.comp, Nat.cast_succ]
    congr 1
    ring

/-- On valid dates in a zone with one offset, `getDatesInRange` returns the UTC calendar date
of every day from the start day to the end day, once each and in order. -/
theorem getDatesInRange_fixedZone (c : Int) (y1 m1 d1 y2 m2 d2 : Nat) (n fuel : Nat)
    (h1 : ValidDate y1 m1 d1) (h2 : ValidDate y2 m2 d2)
    (hn : dayFromCivil y2 m2 d2 = dayFromCivil y1 m1 d1 + n) (hf : n + 2 ≤ fuel) :
    getDatesInRange (fixedZone c) fuel (isoDate y1 m1 d1) (isoDate y2 m2 d2) =
      some ((List.range (n + 1)).map fun (i : Nat) =>
        isoDatePart ((dayFromCivil y1 m1 d1 + (i : Int)) * msPerDay)) := by
  unfold getDatesInRange
  rw [newDate_isoDate _ _ _ _ h1, newDate_isoDate _ _ _ _ h2]
  simp only
  have e : dayFromCivil y2 m2 d2 * msPerDay
      = dayFromCivil y1 m1 d1 * msPerDay + n * msPerDay := by rw [hn]; ring
  rw [e, getDatesLoop_fixedZone c _ n fuel hf]
  congr 1
  apply List.map_congr_left
  intro i _
  congr 1
  ring

/-- The example of the specification, in a zone with one offset (here UTC+5:30). -/
theorem getDatesInRange_example :
    getDatesInRange (fixedZone 19800000) 5 "2024-01-01" "2024-01-03" =
      some ["2024-01-01", "2024-01-02", "2024-01-03"] := by
  decide

/-- C1 (failing input): with the browser in Central European Time, the range from 30 March
to 1 April 2024 comes back as 30 March, 31 March and 31 March again: the loop steps the local
day with `setDate` while `toISOString` prints the UTC day, and the night the clocks go forward
is an hour short, so 31 March is repeated and 1 April is never reached. -/
theorem C1_getDatesInRange_repeats_a_date_across_dst :
    getDatesInRange centralEurope2024 10 "2024-03-30" "2024-04-01" =
      some ["2024-03-30", "2024-03-31", "2024-03-31"] := by
  decide

end Clinic

namespace Clinic

open DoctorAvailability

/-- The day number respects the calendar order of dates. -/
theorem dayFromCivil_lt_of_before (y m d y' m' d' : Nat) (h : ValidDate y m d)
    (h' : ValidDate y' m' d') (hb : CalendarBefore y m d y' m' d') :
    dayFromCivil y m d < dayFromCivil y' m' d' := by
  obtain ⟨-, hm1, hm2, hd1, hd2⟩ := h
  obtain ⟨-, hm1', hm2', hd1', hd2'⟩ := h'
  obtain ⟨-, a0, a1⟩ := monthAndDate_inv y m d (by omega) (by omega) (by omega) hd2
  obtain ⟨-, b0, b1⟩ := monthAndDate_inv y' m' d' (by omega) (by omega) (by omega) hd2'
  unfold dayFromCivil
  rcases hb with hy | ⟨hy, hm | ⟨hm, hd⟩⟩
  · have h1 := DayFromYear_lt (show (y : Int) < y' by exact_mod_cast hy)
    rw [DayFromYear_succ] at h1
    omega
  · subst hy
    have h1 := daysInMonth_eq y m (by omega) (by omega)
    have h2 := daysBeforeMonth_mono (InLeapYear y) (m + 1) m' (by omega)
      (by exact_mod_cast hm) (by omega)
    omega
  · subst hy; subst hm
    omega

theorem newDate_empty (tz : TimeZone) : newDate tz "" = none := by
  rfl

/-- The date test of the create branch on valid dates compares their day numbers. -/
theorem endBeforeStart_isoDate (tz : TimeZone) (y1 m1 d1 y2 m2 d2 : Nat)
    (h1 : ValidDate y1 m1 d1) (h2 : ValidDate y2 m2 d2) :
    endBeforeStart tz (isoDate y1 m1 d1) (isoDate y2 m2 d2) =
      decide (dayFromCivil y2 m2 d2 < dayFromCivil y1 m1 d1) := by
  unfold endBeforeStart
  rw [newDate_isoDate _ _ _ _ h1, newDate_isoDate _ _ _ _ h2]
  simp only [decide_eq_decide]
  unfold msPerDay
  omega

/-- A range of one day: when the next local day is a later instant, the loop runs once. -/
theorem getDatesLoop_single (tz : TimeZone) (t : Int) (fuel : Nat) (hf : 2 ≤ fuel)
    (hz : NextDayLater tz t) : getDatesLoop tz t fuel t = some [isoDatePart t] := by
  obtain ⟨f, rfl⟩ : ∃ f, fuel = f + 2 := ⟨fuel - 2, by omega⟩
  unfold NextDayLater at hz
  rw [getDatesLoop, if_pos (le_refl _), setDate_getDate_succ, getDatesLoop,
    if_neg (by omega)]
  rfl

theorem getDatesInRange_single (tz : TimeZone) (y m d : Nat) (fuel : Nat) (hf : 2 ≤ fuel)
    (h : ValidDate y m d) (hz : NextDayLater tz (dayFromCivil y m d * msPerDay)) :
    getDatesInRange tz fuel (isoDate y m d) (isoDate y m d) = some [isoDate y m d] := by
  unfold getDatesInRange
  rw [newDate_isoDate _ _ _ _ h]
  simp only
  rw [getDatesLoop_single tz _ fuel hf hz, isoDatePart_dayFromCivil _ _ _ h]

end Clinic

namespace Clinic

open DoctorAvailability

theorem isoDate_ne_empty (y m d : Nat) : isoDate y m d ≠ "" := by
  intro h
  have := congrArg String.data h
  simp [isoDate, pad4] at this

theorem isTimeRangeValid_nonempty (tz : TimeZone) (s e : String)
    (h : isTimeRangeValid tz (some s) (some e) = true) : s ≠ "" ∧ e ≠ "" := by
  unfold isTimeRangeValid at h
  simp only at h
  by_contra hc
  rw [not_and_or, not_not, not_not] at hc
  rw [if_pos hc] at h
  exact Bool.false_ne_true h

theorem dropWhile_eq_nil_of_all {α : Type} (p : α → Bool) (l : List α)
    (h : ∀ x ∈ l, p x = true) : l.dropWhile p = [] := by
  induction l with
  | nil => rfl
  | cons a l ih =>
    rw [List.dropWhile_cons, if_pos (h a (List.mem_cons_self a l))]
    exact ih fun x hx => h x (List.mem_cons_of_mem a hx)

/-- A string of white space only trims to the empty string. -/
theorem jsTrim_blank (s : String) (h : ∀ c ∈ s.data, isJsWhitespace c = true) :
    jsTrim s = "" := by
  unfold jsTrim
  rw [dropWhile_eq_nil_of_all _ _ h]
  rfl

/-- C2 (counterexample): a create-mode form with start 2024-01-03 and end 2024-01-01 whose
times are not chosen yet is turned down by the time check, with the message
'Please select start and end time', before the date check is reached. -/
theorem C2_counterexample_times_checked_first :
    reversedDatesNoTimes.editingSchedule = none ∧
    reversedDatesNoTimes.submitting = false ∧
    endBeforeStart (fixedZone 0) reversedDatesNoTimes.formData.available_date
      (effectiveEndDate reversedDatesNoTimes.formData) = true ∧
    handleSubmit (fixedZone 0) 10 .ok (fun _ => .ok) reversedDatesNoTimes =
      some (reject reversedDatesNoTimes "Please select start and end time") ∧
    handleSubmit (fixedZone 0) 10 .ok (fun _ => .ok) reversedDatesNoTimes ≠
      some (reject reversedDatesNoTimes "End date cannot be before start date") := by
  decide

/-- C2 (amended): in create mode, a form that is not being submitted already and passes the
time check, and whose effective end date is a calendar day before its start date, is turned
down with 'End date cannot be before start date': no request is issued, the schedule list is
not fetched again, and the state (the form data, the open form, `submitting = false`) is as
before, for every time zone and every answer of the backend. -/
theorem C2_end_before_start_rejected (tz : TimeZone) (fuel : Nat) (update : UpdateReply)
    (create : Nat → CreateReply) (st : State) (y1 m1 d1 y2 m2 d2 : Nat)
    (hsub : st.submitting = false) (hcreate : st.editingSchedule = none)
    (htime : isTimeRangeValid tz (some st.formData.start_time) (some st.formData.end_time) = true)
    (h1 : st.formData.available_date = isoDate y1 m1 d1) (v1 : ValidDate y1 m1 d1)
    (h2 : effectiveEndDate st.formData = isoDate y2 m2 d2) (v2 : ValidDate y2 m2 d2)
    (hb : CalendarBefore y2 m2 d2 y1 m1 d1) :
    handleSubmit tz fuel update create st =
      some ⟨st, [⟨.error, "End date cannot be before start date"⟩], [], false⟩ := by
  obtain ⟨hs, he⟩ := isTimeRangeValid_nonempty tz _ _ htime
  have hlt := dayFromCivil_lt_of_before y2 m2 d2 y1 m1 d1 v2 v1 hb
  have hdate : endBeforeStart tz st.formData.available_date (effectiveEndDate st.formData)
      = true := by
    rw [h1, h2, endBeforeStart_isoDate tz y1 m1 d1 y2 m2 d2 v1 v2]
    exact decide_eq_true hlt
  have hne : st.formData.available_date ≠ "" := by rw [h1]; exact isoDate_ne_empty _ _ _
  have hst : { st with submitting := false } = st := by
    cases st
    simp only at hsub
    subst hsub
    rfl
  unfold handleSubmit
  rw [if_neg (by simp [hsub]), if_neg hne, if_neg (by simp [hs, he]),
    if_neg (by simp [htime]), hcreate]
  simp only
  unfold submitCreate
  rw [if_pos hdate, hst]

/-- C2 (witness): start 2024-01-03, end 2024-01-01, working hours 09:00 to 17:00. -/
theorem C2_end_before_start_rejected_witness :
    handleSubmit (fixedZone 0) 10 .ok (fun _ => .ok) reversedDates =
      some ⟨reversedDates, [⟨.error, "End date cannot be before start date"⟩], [], false⟩ :=
  C2_end_before_start_rejected (fixedZone 0) 10 .ok (fun _ => .ok) reversedDates 2024 1 3 2024 1 1
    (by decide) (by decide) (by decide) (by decide) (by decide) (by decide) (by decide)
    (by decide)

/-- C3 (counterexample): a create-mode form with start 2024-01-01 and no end date whose times
are not chosen yet issues no request at all: the time check turns it down. -/
theorem C3_counterexample_no_request_without_times :
    singleDateNoTimes.editingSchedule = none ∧
    singleDateNoTimes.formData.end_date = "" ∧
    (handleSubmit (fixedZone 0) 10 .ok (fun _ => .ok) singleDateNoTimes).map (·.requests) =
      some [] := by
  decide

/-- C3 (amended): in create mode, for a form that is not being submitted already and passes
the time check, whose start date is a valid date and whose end date is empty or white space
only, the effective end date is the start date, the expanded date list is the one-element list
of the start date, and exactly one create request is issued, for the start date; this in every
time zone in which the next local day is a later instant, given fuel for two loop tests. -/
theorem C3_absent_end_date_single_request (tz : TimeZone) (fuel : Nat) (update : UpdateReply)
    (create : Nat → CreateReply) (st : State) (y m d : Nat) (hf : 2 ≤ fuel)
    (hsub : st.submitting = false) (hcreate : st.editingSchedule = none)
    (htime : isTimeRangeValid tz (some st.formData.start_time) (some st.formData.end_time) = true)
    (h1 : st.formData.available_date = isoDate y m d) (v1 : ValidDate y m d)
    (hblank : ∀ c ∈ st.formData.end_date.data, isJsWhitespace c = true)
    (hz : NextDayLater tz (dayFromCivil y m d * msPerDay)) :
    effectiveEndDate st.formData = st.formData.available_date ∧
    getDatesInRange tz fuel st.formData.available_date (effectiveEndDate st.formData) =
      some [st.formData.available_date] ∧
    (handleSubmit tz fuel update create st).map (·.requests) =
      some [Request.createNewSchedule (payloadFor st st.formData.available_date)] := by
  obtain ⟨hs, he⟩ := isTimeRangeValid_nonempty tz _ _ htime
  have heff : effectiveEndDate st.formData = st.formData.available_date := by
    unfold effectiveEndDate
    rw [if_neg]
    rw [jsTrim_blank _ hblank]
    simp
  have hdates : getDatesInRange tz fuel st.formData.available_date
      (effectiveEndDate st.formData) = some [st.formData.available_date] := by
    rw [heff, h1]
    exact getDatesInRange_single tz y m d fuel hf v1 hz
  have hdate : endBeforeStart tz st.formData.available_date (effectiveEndDate st.formData)
      = false := by
    rw [heff, h1, endBeforeStart_isoDate tz y m d y m d v1 v1]
    simp
  have hne : st.formData.available_date ≠ "" := by rw [h1]; exact isoDate_ne_empty _ _ _
  refine ⟨heff, hdates, ?_⟩
  unfold handleSubmit
  rw [if_neg (by simp [hsub]), if_neg hne, if_neg (by simp [hs, he]),
    if_neg (by simp [htime]), hcreate]
  simp only
  unfold submitCreate
  rw [if_neg (by simp [hdate]), hdates]
  rfl

/-- C3 (witness): start 2024-01-01, a blank end date, working hours 09:00 to 17:00, UTC+5:30. -/
theorem C3_absent_end_date_single_request_witness :
    effectiveEndDate singleDate.formData = singleDate.formData.available_date ∧
    getDatesInRange (fixedZone 19800000) 2 singleDate.formData.available_date
      (effectiveEndDate singleDate.formData) = some [singleDate.formData.available_date] ∧
    (handleSubmit (fixedZone 19800000) 2 .ok (fun _ => .ok) singleDate).map (·.requests) =
      some [Request.createNewSchedule (payloadFor singleDate singleDate.formData.available_date)] :=
  C3_absent_end_date_single_request (fixedZone 19800000) 2 .ok (fun _ => .ok) singleDate 2024 1 1
    (by decide) (by decide) (by decide) (by decide) (by decide) (by decide) (by decide)
    (by decide)

end Clinic

namespace Clinic

open DoctorAvailability

theorem hhmm_ne_empty (h m : Nat) : hhmm h m ≠ "" := by
  intro e
  have := congrArg String.data e
  simp [hhmm, pad2] at this

theorem parseTimeChars_hhmm (h m : Nat) (hh : h ≤ 23) (hm : m ≤ 59) :
    parseTimeChars (hhmm h m).data = some (((h * 60 + m) * 60000 : Nat) : Int) := by
  have eh := digitsVal_pad2 h (by omega)
  have em := digitsVal_pad2 m (by omega)
  simp only [pad2] at eh em
  simp only [hhmm, pad2, List.cons_append, List.nil_append, parseTimeChars, if_true]
  rw [eh, em]
  simp only
  rw [if_pos (Or.inl ⟨hh, hm⟩)]

/-- The date `isTimeRangeValid` builds from a time `HH:MM`: that time of 1 January 2000 on the
local wall clock. -/
theorem newDate_y2k_hhmm (tz : TimeZone) (h m : Nat) (hh : h ≤ 23) (hm : m ≤ 59) :
    newDate tz ("2000-01-01T" ++ hhmm h m) =
      some (UTC tz (946684800000 + (((h * 60 + m) * 60000 : Nat) : Int))) := by
  have e : ("2000-01-01T" ++ hhmm h m).data =
      ['2', '0', '0', '0', '-', '0', '1', '-', '0', '1', 'T'] ++ (hhmm h m).data := by
    rw [String.data_append]
  have hd : parseDateChars ['2', '0', '0', '0', '-', '0', '1', '-', '0', '1'] = some 10957 := by
    decide
  unfold newDate
  rw [e]
  simp only [List.cons_append, List.nil_append, List.take_succ_cons, List.take_zero,
    List.drop_succ_cons, List.drop_zero, hd, parseTimeChars_hhmm h m hh hm]
  rfl

/-- C4: in a zone that keeps one offset throughout 1 January 2000, for times of day `HH:MM`
(hours 00 to 23, minutes 00 to 59) `isTimeRangeValid(start, end)` is true exactly when start
is strictly earlier than end as a time of day, hence false for equal times and for a later
start; and it is false whenever an argument is missing or the empty string. -/
theorem C4_isTimeRangeValid_iff_strictly_earlier (tz : TimeZone) (h1 m1 h2 m2 : Nat)
    (hz : SingleOffsetOnY2K tz) (hh1 : h1 ≤ 23) (hm1 : m1 ≤ 59) (hh2 : h2 ≤ 23) (hm2 : m2 ≤ 59) :
    (isTimeRangeValid tz (some (hhmm h1 m1)) (some (hhmm h2 m2)) = true ↔
      h1 * 60 + m1 < h2 * 60 + m2) ∧
    (∀ stop, isTimeRangeValid tz none stop = false) ∧
    (∀ start, isTimeRangeValid tz start none = false) ∧
    (∀ stop, isTimeRangeValid tz (some "") stop = false) ∧
    (∀ start, isTimeRangeValid tz start (some "") = false) := by
  refine ⟨?_, ?_, ?_, ?_, ?_⟩
  · have o1 := hz (((h1 * 60 + m1) * 60000 : Nat) : Int) (by positivity)
      (by unfold msPerDay; omega)
    have o2 := hz (((h2 * 60 + m2) * 60000 : Nat) : Int) (by positivity)
      (by unfold msPerDay; omega)
    unfold isTimeRangeValid
    simp only
    rw [if_neg (by simp [hhmm_ne_empty]), newDate_y2k_hhmm tz h1 m1 hh1 hm1,
      newDate_y2k_hhmm tz h2 m2 hh2 hm2]
    simp only [decide_eq_true_eq, UTC, o1, o2]
    omega
  · intro stop; rfl
  · intro start; cases start <;> rfl
  · intro stop
    cases stop with
    | none => rfl
    | some e => simp [isTimeRangeValid]
  · intro start
    cases start with
    | none => rfl
    | some s => simp [isTimeRangeValid]

theorem singleOffsetOnY2K_fixedZone (c : Int) : SingleOffsetOnY2K (fixedZone c) :=
  fun _ _ _ => rfl

/-- C4 (witness): 09:00 and 17:00 in the zone UTC+5:30. -/
theorem C4_isTimeRangeValid_iff_strictly_earlier_witness :
    (isTimeRangeValid (fixedZone 19800000) (some (hhmm 9 0)) (some (hhmm 17 0)) = true ↔
      9 * 60 + 0 < 17 * 60 + 0) ∧
    (∀ stop, isTimeRangeValid (fixedZone 19800000) none stop = false) ∧
    (∀ start, isTimeRangeValid (fixedZone 19800000) start none = false) ∧
    (∀ stop, isTimeRangeValid (fixedZone 19800000) (some "") stop = false) ∧
    (∀ start, isTimeRangeValid (fixedZone 19800000) start (some "") = false) :=
  C4_isTimeRangeValid_iff_strictly_earlier (fixedZone 19800000) 9 0 17 0
    (singleOffsetOnY2K_fixedZone 19800000) (by decide) (by decide) (by decide) (by decide)

end Clinic

namespace Clinic

open BookAppointment

/-- The form checks pass exactly when the seven form fields are present. -/
theorem fieldError_eq_none_iff (f : FormData) :
    fieldError f = none ↔
      jsTrim f.patient_name ≠ "" ∧ f.patient_age ≠ "" ∧ jsTrim f.patient_phone ≠ "" ∧
      jsTrim f.patient_email ≠ "" ∧ f.appointment_date ≠ "" ∧ f.appointment_time ≠ "" ∧
      jsTrim f.reason ≠ "" := by
  unfold fieldError
  split_ifs <;> simp [*]

/-- The message for the reason field is reported only when the six checks before it pass and
the reason is blank. -/
theorem fieldError_eq_reason_iff (f : FormData) :
    fieldError f = some "Please enter message" ↔
      jsTrim f.patient_name ≠ "" ∧ f.patient_age ≠ "" ∧ jsTrim f.patient_phone ≠ "" ∧
      jsTrim f.patient_email ≠ "" ∧ f.appointment_date ≠ "" ∧ f.appointment_time ≠ "" ∧
      jsTrim f.reason = "" := by
  unfold fieldError
  split_ifs <;> simp [*]

theorem requests_book (doctor : Doctor) (st : State) (reply : Reply) :
    (book doctor st reply).requests = [payloadFor doctor st.formData] := by
  unfold book
  split <;> rfl

/-- C5: for every form and every answer of the backend, `handleSubmit` issues the booking
request exactly when a doctor is selected and the seven fields are present (name, phone, email
and reason after trimming); it is then the one request built from the form.  Whenever one of
the eight is missing it raises one error notification, sends nothing and leaves the state,
the form data included, as it was. -/
theorem C5_booking_request_iff_all_required_present (reply : Reply) (st : State) :
    ((handleSubmit reply st).requests ≠ [] ↔ AllRequiredPresent st) ∧
    (AllRequiredPresent st → ∃ doctor, st.selectedDoctor = some doctor ∧
      (handleSubmit reply st).requests = [payloadFor doctor st.formData]) ∧
    (¬ AllRequiredPresent st → ∃ message,
      handleSubmit reply st = ⟨st, [⟨.error, message⟩], [], none⟩) := by
  unfold AllRequiredPresent handleSubmit
  cases hd : st.selectedDoctor with
  | none => simp [reject]
  | some doctor =>
    cases hf : fieldError st.formData with
    | none =>
      have h := (fieldError_eq_none_iff st.formData).1 hf
      simp [requests_book, h]
    | some message =>
      have h : ¬ (jsTrim st.formData.patient_name ≠ "" ∧ st.formData.patient_age ≠ "" ∧
          jsTrim st.formData.patient_phone ≠ "" ∧ jsTrim st.formData.patient_email ≠ "" ∧
          st.formData.appointment_date ≠ "" ∧ st.formData.appointment_time ≠ "" ∧
          jsTrim st.formData.reason ≠ "") := by
        intro hc
        rw [(fieldError_eq_none_iff st.formData).2 hc] at hf
        exact Option.noConfusion hf
      simp only [ne_eq, reduceCtorEq, not_false_eq_true, true_and, h, iff_false, not_not,
        false_imp_iff, not_true_eq_false, imp_self, reject, and_true]
      exact fun _ => ⟨message, rfl⟩

/-- C6: a form with a doctor selected and every field but the reason present, whose reason is
empty or white space only, is turned down with the message 'Please enter message' and nothing
is sent.  The message belongs to the reason field alone: whenever `handleSubmit` turns a form
down with it, the doctor and the six other fields of that form are present and its reason is
blank, so none of the seven other inputs is ever reported with this message. -/
theorem C6_missing_reason_has_its_own_message (reply : Reply) (st : State) (doctor : Doctor)
    (hdoc : st.selectedDoctor = some doctor)
    (hname : jsTrim st.formData.patient_name ≠ "") (hage : st.formData.patient_age ≠ "")
    (hphone : jsTrim st.formData.patient_phone ≠ "")
    (hemail : jsTrim st.formData.patient_email ≠ "")
    (hdate : st.formData.appointment_date ≠ "") (htime : st.formData.appointment_time ≠ "")
    (hreason : jsTrim st.formData.reason = "") :
    handleSubmit reply st = ⟨st, [⟨.error, "Please enter message"⟩], [], none⟩ ∧
    ∀ (reply' : Reply) (st' : State),
      (handleSubmit reply' st').requests = [] →
      (handleSubmit reply' st').toasts = [⟨.error, "Please enter message"⟩] →
      st'.selectedDoctor ≠ none ∧ jsTrim st'.formData.patient_name ≠ "" ∧
      st'.formData.patient_age ≠ "" ∧ jsTrim st'.formData.patient_phone ≠ "" ∧
      jsTrim st'.formData.patient_email ≠ "" ∧ st'.formData.appointment_date ≠ "" ∧
      st'.formData.appointment_time ≠ "" ∧ jsTrim st'.formData.reason = "" := by
  constructor
  · have hf := (fieldError_eq_reason_iff st.formData).2
      ⟨hname, hage, hphone, hemail, hdate, htime, hreason⟩
    unfold handleSubmit
    rw [hdoc]
    simp only [hf, reject]
  · intro reply' st' hreq htoast
    unfold handleSubmit at hreq htoast
    cases hd : st'.selectedDoctor with
    | none =>
      rw [hd] at htoast
      simp only [reject] at htoast
      exact absurd htoast (by decide)
    | some doctor' =>
      rw [hd] at hreq htoast
      cases hf : fieldError st'.formData with
      | none =>
        rw [hf] at hreq
        simp only [requests_book] at hreq
        exact absurd hreq (by simp)
      | some message =>
        rw [hf] at htoast
        simp only [reject, List.cons.injEq, Toast.mk.injEq, true_and, and_true] at htoast
        subst htoast
        exact ⟨by simp, (fieldError_eq_reason_iff st'.formData).1 hf⟩

/-- C6 (witness): a complete form whose reason is two spaces. -/
theorem C6_missing_reason_has_its_own_message_witness :
    handleSubmit .failed missingReason =
      ⟨missingReason, [⟨.error, "Please enter message"⟩], [], none⟩ ∧
    ∀ (reply' : Reply) (st' : State),
      (handleSubmit reply' st').requests = [] →
      (handleSubmit reply' st').toasts = [⟨.error, "Please enter message"⟩] →
      st'.selectedDoctor ≠ none ∧ jsTrim st'.formData.patient_name ≠ "" ∧
      st'.formData.patient_age ≠ "" ∧ jsTrim st'.formData.patient_phone ≠ "" ∧
      jsTrim st'.formData.patient_email ≠ "" ∧ st'.formData.appointment_date ≠ "" ∧
      st'.formData.appointment_time ≠ "" ∧ jsTrim st'.formData.reason = "" :=
  C6_missing_reason_has_its_own_message .failed missingReason doctorRao rfl (by decide)
    (by decide) (by decide) (by decide) (by decide) (by decide) (by decide)

end Clinic

namespace Clinic

open AdminAppointments

/-- The filter cascade is one filter by the conjunction of the active predicates. -/
theorem filterAppointments_eq_filter (lower : String → String) (st : State)
    (data : List Appointment) :
    filterAppointments lower st data = data.filter (satisfiesActiveFilters lower st) := by
  unfold filterAppointments satisfiesActiveFilters
  by_cases h1 : st.filter = "all" <;> by_cases h2 : st.doctorFilter = "" <;>
    by_cases h3 : st.dateFilter = "" <;> by_cases h4 : st.searchTerm = "" <;>
    simp [h1, h2, h3, h4, List.filter_filter, Bool.and_comm, Bool.and_left_comm]

/-- The search predicate of the code, spelled out: name and email are compared in lower
case, the phone as typed. -/
theorem matchesSearch_iff (lower : String → String) (term : String) (apt : Appointment) :
    matchesSearch lower term apt = true ↔
      jsIncludes (lower apt.patient_name) (lower term) = true ∨
      (∃ email, apt.patient_email = some email ∧
        jsIncludes (lower email) (lower term) = true) ∨
      (∃ phone, apt.patient_phone = some phone ∧ jsIncludes phone term = true) := by
  unfold matchesSearch
  cases he : apt.patient_email <;> cases hp : apt.patient_phone <;> simp [or_assoc]

/-- The conjunction of the active stage predicates, spelled out. -/
theorem satisfiesActiveFilters_iff (lower : String → String) (st : State) (apt : Appointment) :
    satisfiesActiveFilters lower st apt = true ↔
      (st.filter = "all" ∨ apt.status = some st.filter) ∧
      (st.doctorFilter = "" ∨ apt.doctor_id = st.doctorFilter) ∧
      (st.dateFilter = "" ∨ apt.appointment_date = some st.dateFilter) ∧
      (st.searchTerm = "" ∨
        jsIncludes (lower apt.patient_name) (lower st.searchTerm) = true ∨
        (∃ email, apt.patient_email = some email ∧
          jsIncludes (lower email) (lower st.searchTerm) = true) ∨
        (∃ phone, apt.patient_phone = some phone ∧
          jsIncludes phone st.searchTerm = true)) := by
  unfold satisfiesActiveFilters
  simp only [Bool.and_eq_true, Bool.or_eq_true, decide_eq_true_eq, matchesSearch_iff, and_assoc]

/-- C7 (counterexample): with the search term 'call' as the only active filter, the
appointment with phone 555-CALL satisfies every active predicate of the specification, whose
search is case-insensitive across name, email and phone, yet `fetchAppointments` does not
keep it. -/
theorem C7_counterexample_phone_match_is_not_kept :
    [aptVanityPhone].filter (satisfiesSpecifiedFilters asciiLower searchingCall) =
      [aptVanityPhone] ∧
    filterAppointments asciiLower searchingCall [aptVanityPhone] = [] ∧
    (fetchAppointments asciiLower searchingCall (.body true [aptVanityPhone])).1.appointments =
      [] := by
  decide

/-- C7 (amended): for every collection and every setting of the four filters, the cascade of
`fetchAppointments` keeps exactly the appointments that satisfy every active predicate, in the
order of the collection, and a successful fetch stores that list.  The predicates are: status
equal to the status filter unless it is 'all'; doctor equal to the doctor filter when set;
date equal to the date filter when set; and, when a search term is set, the term in lower
case is a substring of the name in lower case or of the email in lower case, or the term as
typed is a substring of the phone as stored.  When only the status filter is active and
exactly three of ten items carry the status, exactly those three are kept. -/
theorem C7_fetchAppointments_keeps_active_matches (lower : String → String) (st : State)
    (data : List Appointment) :
    filterAppointments lower st data = data.filter (satisfiesActiveFilters lower st) ∧
    (fetchAppointments lower st (.body true data)).1.appointments =
      data.filter (satisfiesActiveFilters lower st) ∧
    (filterAppointments lower st data).Sublist data ∧
    (∀ apt, satisfiesActiveFilters lower st apt = true ↔
      (st.filter = "all" ∨ apt.status = some st.filter) ∧
      (st.doctorFilter = "" ∨ apt.doctor_id = st.doctorFilter) ∧
      (st.dateFilter = "" ∨ apt.appointment_date = some st.dateFilter) ∧
      (st.searchTerm = "" ∨
        jsIncludes (lower apt.patient_name) (lower st.searchTerm) = true ∨
        (∃ email, apt.patient_email = some email ∧
          jsIncludes (lower email) (lower st.searchTerm) = true) ∨
        (∃ phone, apt.patient_phone = some phone ∧
          jsIncludes phone st.searchTerm = true))) ∧
    (∀ apt, apt ∈ filterAppointments lower st data ↔
      apt ∈ data ∧
      (st.filter = "all" ∨ apt.status = some st.filter) ∧
      (st.doctorFilter = "" ∨ apt.doctor_id = st.doctorFilter) ∧
      (st.dateFilter = "" ∨ apt.appointment_date = some st.dateFilter) ∧
      (st.searchTerm = "" ∨
        jsIncludes (lower apt.patient_name) (lower st.searchTerm) = true ∨
        (∃ email, apt.patient_email = some email ∧
          jsIncludes (lower email) (lower st.searchTerm) = true) ∨
        (∃ phone, apt.patient_phone = some phone ∧
          jsIncludes phone st.searchTerm = true))) ∧
    (st.filter ≠ "all" → st.doctorFilter = "" → st.dateFilter = "" → st.searchTerm = "" →
      data.length = 10 → data.countP (fun apt => apt.status = some st.filter) = 3 →
      filterAppointments lower st data = data.filter (fun apt => apt.status = some st.filter) ∧
      (filterAppointments lower st data).length = 3) := by
  have h := filterAppointments_eq_filter lower st data
  refine ⟨h, ?_, ?_, satisfiesActiveFilters_iff lower st, ?_, ?_⟩
  · simp only [fetchAppointments, h]
  · rw [h]
    exact List.filter_sublist data
  · intro apt
    rw [h, List.mem_filter, satisfiesActiveFilters_iff]
  · intro h1 h2 h3 h4 _ hc
    have e : filterAppointments lower st data
        = data.filter (fun apt => apt.status = some st.filter) := by
      rw [h]
      apply List.filter_congr
      intro apt _
      simp [satisfiesActiveFilters, h1, h2, h3, h4]
    refine ⟨e, ?_⟩
    rw [e, ← List.countP_eq_length_filter]
    exact hc

/-- C7 (witness): the ten example appointments filtered by the status Pending. -/
theorem C7_fetchAppointments_keeps_active_matches_witness :
    filterAppointments asciiLower pendingOnly tenAppointments = [apt2, apt5, apt9] ∧
    (filterAppointments asciiLower pendingOnly tenAppointments).length = 3 := by
  have h := (C7_fetchAppointments_keeps_active_matches asciiLower pendingOnly
    tenAppointments).2.2.2.2.2 (by decide) rfl rfl rfl (by decide) (by decide)
  exact ⟨by rw [h.1]; decide, h.2⟩

end Clinic

namespace Clinic

/-- The page window for a page number from one on: the items from index `(p - 1) * s` up to
but excluding `min (p * s) n`. -/
theorem pageSlice_eq (α : Type) (xs : List α) (p s : Nat) (hp : 1 ≤ p) :
    pageSlice xs p s = (xs.take (min (p * s) xs.length)).drop ((p - 1) * s) := by
  obtain ⟨q, rfl⟩ : ∃ q, p = q + 1 := ⟨p - 1, by omega⟩
  have e1 : (((q + 1 : Nat) : Int) * (s : Int) - (s : Int)) = ((q * s : Nat) : Int) := by
    push_cast; ring
  have e2 : (((q + 1 : Nat) : Int) * (s : Int)) = (((q + 1) * s : Nat) : Int) := by
    push_cast; ring
  unfold pageSlice jsSlice relIndex
  rw [e1, e2, if_neg (by omega), if_neg (by omega)]
  have hle : q * s ≤ (q + 1) * s := Nat.mul_le_mul_right s (Nat.le_succ q)
  have h1 : (min ((q * s : Nat) : Int) (xs.length : Int)).toNat = min (q * s) xs.length := by
    omega
  have h2 : (min (((q + 1) * s : Nat) : Int) (xs.length : Int)
      - min ((q * s : Nat) : Int) (xs.length : Int)).toNat
      = min ((q + 1) * s) xs.length - min (q * s) xs.length := by
    omega
  rw [h1, h2, Nat.add_sub_cancel, List.drop_take]
  by_cases hlen : q * s ≤ xs.length
  · rw [Nat.min_eq_left hlen]
  · have hlen' : xs.length ≤ q * s := by omega
    rw [Nat.min_eq_right hlen', List.drop_eq_nil_of_le hlen', List.drop_eq_nil_of_le (le_refl _)]
    simp

/-- The page count is the ceiling of the quotient of length and page size. -/
theorem totalPages_eq_ceil (n s : Nat) (hs : 0 < s) :
    totalPages n s = ⌈(n : ℚ) / (s : ℚ)⌉₊ := by
  unfold totalPages
  have hsq : (0 : ℚ) < s := by exact_mod_cast hs
  symm
  rcases Nat.eq_zero_or_pos n with rfl | hn
  · have : (s - 1) / s = 0 := Nat.div_eq_of_lt (by omega)
    simp [this]
  · rw [Nat.ceil_eq_iff]
    · have hk : 1 ≤ (n + s - 1) / s := by
        rw [Nat.le_div_iff_mul_le hs]
        omega
      have hlo : ((n + s - 1) / s - 1) * s < n := by
        have := Nat.div_mul_le_self (n + s - 1) s
        have e : ((n + s - 1) / s - 1) * s = (n + s - 1) / s * s - s := by
          rw [Nat.sub_mul, Nat.one_mul]
        omega
      have hhi : n ≤ (n + s - 1) / s * s := by
        have := Nat.lt_div_mul_add hs (a := n + s - 1)
        omega
      constructor
      · rw [lt_div_iff₀ hsq]
        exact_mod_cast hlo
      · rw [div_le_iff₀ hsq]
        exact_mod_cast hhi
    · have : 1 ≤ (n + s - 1) / s := by
        rw [Nat.le_div_iff_mul_le hs]
        omega
      omega

/-- C8: for every list, page size `s > 0` and page number `p ≥ 1`, the page shown is the
sub-slice from index `(p - 1) * s` up to but excluding `min (p * s) n`, and the page count is
the ceiling of `n / s`; so it is on AdminAppointments (page size 5) and on Enquiries (page
size 10).  With page size 5 a list of 12 has 3 pages and page 3 holds 2 items. -/
theorem C8_page_is_subslice_and_count_is_ceiling (α : Type) (xs : List α) (p s : Nat)
    (hs : 0 < s) (hp : 1 ≤ p) :
    pageSlice xs p s = (xs.take (min (p * s) xs.length)).drop ((p - 1) * s) ∧
    jsSlice xs (((p : Int) - 1) * s) ((p : Int) * s) =
      (xs.take (min (p * s) xs.length)).drop ((p - 1) * s) ∧
    totalPages xs.length s = ⌈(xs.length : ℚ) / (s : ℚ)⌉₊ ∧
    (∀ st : AdminAppointments.State, st.currentPage = p →
      AdminAppointments.currentAppointments st =
        (st.appointments.take (min (p * 5) st.appointments.length)).drop ((p - 1) * 5) ∧
      AdminAppointments.totalPages st = ⌈(st.appointments.length : ℚ) / 5⌉₊) ∧
    (∀ (lower : String → String) (st : Enquiries.State), st.currentPage = p →
      Enquiries.paginatedContacts lower st =
        ((Enquiries.filteredContacts lower st).take
          (min (p * 10) (Enquiries.filteredContacts lower st).length)).drop ((p - 1) * 10) ∧
      Enquiries.totalPages lower st =
        ⌈((Enquiries.filteredContacts lower st).length : ℚ) / 10⌉₊) ∧
    (xs.length = 12 → totalPages xs.length 5 = 3 ∧ (pageSlice xs 3 5).length = 2) := by
  have hslice : ∀ (β : Type) (ys : List β) (t : Nat), jsSlice ys (((p : Int) - 1) * t)
      ((p : Int) * t) = (ys.take (min (p * t) ys.length)).drop ((p - 1) * t) := by
    intro β ys t
    rw [← pageSlice_eq β ys p t hp]
    unfold pageSlice
    congr 1
    ring
  refine ⟨pageSlice_eq α xs p s hp, hslice α xs s, totalPages_eq_ceil _ _ hs, ?_, ?_, ?_⟩
  · intro st hst
    constructor
    · unfold AdminAppointments.currentAppointments AdminAppointments.appointmentsPerPage
      rw [hst]
      exact pageSlice_eq _ _ p 5 hp
    · unfold AdminAppointments.totalPages AdminAppointments.appointmentsPerPage
      rw [totalPages_eq_ceil _ 5 (by norm_num)]
      norm_num
  · intro lower st hst
    constructor
    · unfold Enquiries.paginatedContacts Enquiries.pageSize
      rw [hst]
      exact hslice _ _ 10
    · unfold Enquiries.totalPages Enquiries.pageSize
      rw [totalPages_eq_ceil _ 10 (by norm_num)]
      norm_num
  · intro h12
    constructor
    · rw [h12]; rfl
    · have := pageSlice_eq α xs 3 5 (by norm_num)
      norm_num at this
      rw [this, List.length_drop, List.length_take, h12]
      rfl

/-- C8 (witness): page 3 of twelve items at five per page. -/
theorem C8_page_is_subslice_and_count_is_ceiling_witness :
    pageSlice (List.range 12) 3 5 = [10, 11] ∧ totalPages (List.range 12).length 5 = 3 := by
  have h := C8_page_is_subslice_and_count_is_ceiling Nat (List.range 12) 3 5 (by decide)
    (by decide)
  exact ⟨h.1.trans (by decide), (h.2.2.2.2.2 (by decide)).1⟩

end Clinic

namespace Clinic

/-- Where the reset is wired: on AdminAppointments a change of the status, doctor or date
filter answered by a successful fetch puts the page back to 1, and so does every change of
the search box on DoctorPage and on Enquiries. -/
theorem page_reset_where_wired (lower : String → String) :
    (∀ (st : AdminAppointments.State) (value : String) (data : List Appointment),
      (value ≠ st.filter →
        (AdminAppointments.changeFilter lower st value (.body true data)).1.currentPage = 1) ∧
      (value ≠ st.doctorFilter →
        (AdminAppointments.changeDoctorFilter lower st value (.body true data)).1.currentPage
          = 1) ∧
      (value ≠ st.dateFilter →
        (AdminAppointments.changeDateFilter lower st value (.body true data)).1.currentPage
          = 1)) ∧
    (∀ (st : DoctorPage.State) (value : String),
      (DoctorPage.changeSearchTerm st value).currentPage = 1) ∧
    (∀ (st : Enquiries.State) (value : String),
      (Enquiries.handleSearch st value).currentPage = 1) := by
  refine ⟨fun st value data => ⟨fun h => ?_, fun h => ?_, fun h => ?_⟩, fun _ _ => rfl,
    fun _ _ => rfl⟩
  · simp [AdminAppointments.changeFilter, AdminAppointments.fetchAppointments, h]
  · simp [AdminAppointments.changeDoctorFilter, AdminAppointments.fetchAppointments, h]
  · simp [AdminAppointments.changeDateFilter, AdminAppointments.fetchAppointments, h]

/-- C9 (failing inputs): on AdminAppointments typing into the search box changes nothing but
`searchTerm`, so the page number stays what it was; on DoctorAppointments a change of the
status or date filter fetches and filters again but never touches the page number, whatever
the backend answers.  From page 2 both pages stay on page 2. -/
theorem C9_page_number_survives_filter_change :
    (∀ (st : AdminAppointments.State) (value : String),
      (AdminAppointments.changeSearchTerm st value).currentPage = st.currentPage ∧
      (AdminAppointments.changeSearchTerm st value).appointments = st.appointments) ∧
    (∀ (lower : String → String) (st : DoctorAppointments.State) (value : String)
      (reply : DoctorAppointments.Reply),
      (DoctorAppointments.changeFilter lower st value reply).1.currentPage = st.currentPage ∧
      (DoctorAppointments.changeDateFilter lower st value reply).1.currentPage
        = st.currentPage) ∧
    (AdminAppointments.changeSearchTerm AdminAppointments.pendingOnly "asha").currentPage = 2 ∧
    (DoctorAppointments.changeFilter asciiLower DoctorAppointments.onPageTwo "Pending"
      (.body true none (some AdminAppointments.tenAppointments))).1.currentPage = 2 := by
  refine ⟨fun _ _ => ⟨rfl, rfl⟩, fun lower st value reply => ⟨?_, ?_⟩, rfl, by decide⟩
  · unfold DoctorAppointments.changeFilter
    split_ifs
    · rfl
    · unfold DoctorAppointments.fetchAppointments
      split <;> rfl
  · unfold DoctorAppointments.changeDateFilter
    split_ifs
    · rfl
    · unfold DoctorAppointments.fetchAppointments
      split <;> rfl

/-- The DoctorPage search filter applied to its own output returns that output. -/
theorem filteredDoctors_idem (lower : String → String) (st : DoctorPage.State) :
    DoctorPage.filteredDoctors lower { st with doctors := DoctorPage.filteredDoctors lower st } =
      DoctorPage.filteredDoctors lower st := by
  simp [DoctorPage.filteredDoctors, List.filter_filter]

/-- C10: filtering is idempotent.  For every collection and every setting of the filters the
AdminAppointments filter applied to its own output returns that output, and so does the
DoctorPage search filter; a fetch answered twice with the same reply leaves the state and the
notifications of a single fetch.  The filters are functions of their arguments: they cannot
change the collection they read, and equal inputs give equal outputs. -/
theorem C10_filtering_is_idempotent (lower : String → String) :
    (∀ (st : AdminAppointments.State) (data : List Appointment),
      AdminAppointments.filterAppointments lower st
          (AdminAppointments.filterAppointments lower st data) =
        AdminAppointments.filterAppointments lower st data) ∧
    (∀ st : DoctorPage.State,
      DoctorPage.filteredDoctors lower
          { st with doctors := DoctorPage.filteredDoctors lower st } =
        DoctorPage.filteredDoctors lower st) ∧
    (∀ (st : AdminAppointments.State) (reply : AdminAppointments.Reply),
      AdminAppointments.fetchAppointments lower
          (AdminAppointments.fetchAppointments lower st reply).1 reply =
        AdminAppointments.fetchAppointments lower st reply) := by
  refine ⟨fun st data => ?_, filteredDoctors_idem lower, fun st reply => ?_⟩
  · rw [filterAppointments_eq_filter, filterAppointments_eq_filter, List.filter_filter]
    simp
  · cases reply with
    | failed => rfl
    | body status data =>
      cases status with
      | false => rfl
      | true =>
        simp only [AdminAppointments.fetchAppointments, filterAppointments_eq_filter]
        rfl

end Clinic

namespace Clinic

open AdminAppointments

/-- C11 (counterexample): the phone 555-CALL contains the term 'call' when both are compared
without regard to case, yet the search predicate rejects the appointment, and it accepts it
for the term 'CALL', which differs from 'call' in letter case only. -/
theorem C11_counterexample_phone_is_compared_exactly :
    matchesIgnoringCase asciiLower "call" aptVanityPhone = true ∧
    matchesSearch asciiLower "call" aptVanityPhone = false ∧
    asciiLower "CALL" = asciiLower "call" ∧
    matchesSearch asciiLower "CALL" aptVanityPhone = true := by
  decide

/-- C11 (amended): for every appointment and every search term, the search predicate holds
exactly when the term in lower case is a substring of the patient name in lower case or of
the patient email in lower case, or the term as typed is a substring of the patient phone as
stored.  So the outcome does not change when the letter case of the name or of the email is
changed, nor, for an appointment without phone, when the letter case of the term is changed. -/
theorem C11_search_ignores_case_of_name_and_email (lower : String → String) (term : String)
    (apt : Appointment) :
    (matchesSearch lower term apt = true ↔
      jsIncludes (lower apt.patient_name) (lower term) = true ∨
      (∃ email, apt.patient_email = some email ∧
        jsIncludes (lower email) (lower term) = true) ∨
      (∃ phone, apt.patient_phone = some phone ∧ jsIncludes phone term = true)) ∧
    (∀ name, lower name = lower apt.patient_name →
      matchesSearch lower term { apt with patient_name := name } =
        matchesSearch lower term apt) ∧
    (∀ email email', apt.patient_email = some email → lower email' = lower email →
      matchesSearch lower term { apt with patient_email := some email' } =
        matchesSearch lower term apt) ∧
    (∀ term', lower term' = lower term → apt.patient_phone = none →
      matchesSearch lower term' apt = matchesSearch lower term apt) := by
  refine ⟨?_, ?_, ?_, ?_⟩
  · unfold matchesSearch
    cases he : apt.patient_email <;> cases hp : apt.patient_phone <;> simp [or_assoc]
  · intro name hname
    simp only [matchesSearch, hname]
  · intro email email' he hl
    simp only [matchesSearch, he, hl]
  · intro term' hl hp
    simp only [matchesSearch, hl, hp]

/-- C11 (witness): the appointment without phone, and the terms 'ASHA' and 'asha'. -/
theorem C11_search_ignores_case_of_name_and_email_witness :
    matchesSearch asciiLower "ASHA" aptNoPhone = matchesSearch asciiLower "asha" aptNoPhone ∧
    matchesSearch asciiLower "asha" aptNoPhone = true :=
  ⟨(C11_search_ignores_case_of_name_and_email asciiLower "asha" aptNoPhone).2.2.2 "ASHA"
    (by decide) rfl, by decide⟩

end Clinic

namespace Clinic

theorem jsSlice_nil (α : Type) (start stop : Int) : jsSlice ([] : List α) start stop = [] := by
  simp [jsSlice]

theorem pageSlice_nil (α : Type) (page perPage : Int) :
    pageSlice ([] : List α) page perPage = [] := by
  unfold pageSlice
  exact jsSlice_nil α _ _

theorem totalPages_zero (perPage : Nat) (h : 0 < perPage) : totalPages 0 perPage = 0 := by
  unfold totalPages
  exact Nat.div_eq_of_lt (by omega)

/-- C12: when the collection is empty or the filters match none of its items, the page
sub-slice is empty for every page number and the page count is 0: on AdminAppointments after a
successful fetch, and on DoctorPage. -/
theorem C12_nothing_matches_gives_empty_page_and_zero_pages (lower : String → String) :
    (∀ (st : AdminAppointments.State) (data : List Appointment) (page : Int),
      (∀ apt ∈ data, AdminAppointments.satisfiesActiveFilters lower st apt = false) →
      (AdminAppointments.fetchAppointments lower st (.body true data)).1.appointments = [] ∧
      AdminAppointments.currentAppointments
        { (AdminAppointments.fetchAppointments lower st (.body true data)).1 with
          currentPage := page } = [] ∧
      AdminAppointments.totalPages
        (AdminAppointments.fetchAppointments lower st (.body true data)).1 = 0) ∧
    (∀ (st : DoctorPage.State) (page : Int),
      (∀ doc ∈ st.doctors, DoctorPage.matchesSearch lower st.searchTerm doc = false) →
      DoctorPage.filteredDoctors lower st = [] ∧
      DoctorPage.currentDoctors lower { st with currentPage := page } = [] ∧
      DoctorPage.totalPages lower st = 0) := by
  constructor
  · intro st data page hnone
    have he : AdminAppointments.filterAppointments lower st data = [] := by
      rw [filterAppointments_eq_filter, List.filter_eq_nil_iff]
      intro apt hapt
      simp [hnone apt hapt]
    refine ⟨by simp [AdminAppointments.fetchAppointments, he], ?_, ?_⟩
    · simp only [AdminAppointments.currentAppointments, AdminAppointments.fetchAppointments, he]
      exact pageSlice_nil _ _ _
    · simp only [AdminAppointments.totalPages, AdminAppointments.fetchAppointments, he,
        List.length_nil]
      exact totalPages_zero _ (by decide)
  · intro st page hnone
    have he : DoctorPage.filteredDoctors lower st = [] := by
      unfold DoctorPage.filteredDoctors
      rw [List.filter_eq_nil_iff]
      intro doc hdoc
      simp [hnone doc hdoc]
    have he' : DoctorPage.filteredDoctors lower { st with currentPage := page } = [] := he
    refine ⟨he, ?_, ?_⟩
    · simp only [DoctorPage.currentDoctors, he']
      exact pageSlice_nil _ _ _
    · simp only [DoctorPage.totalPages, he, List.length_nil]
      exact totalPages_zero _ (by decide)

/-- C12 (witness): the ten example appointments filtered by a status none of them carries,
seen from page 3. -/
theorem C12_nothing_matches_gives_empty_page_and_zero_pages_witness :
    (AdminAppointments.fetchAppointments asciiLower AdminAppointments.noShowOnly
      (.body true AdminAppointments.tenAppointments)).1.appointments = [] ∧
    AdminAppointments.currentAppointments
      { (AdminAppointments.fetchAppointments asciiLower AdminAppointments.noShowOnly
          (.body true AdminAppointments.tenAppointments)).1 with currentPage := 3 } = [] ∧
    AdminAppointments.totalPages
      (AdminAppointments.fetchAppointments asciiLower AdminAppointments.noShowOnly
        (.body true AdminAppointments.tenAppointments)).1 = 0 :=
  (C12_nothing_matches_gives_empty_page_and_zero_pages asciiLower).1
    AdminAppointments.noShowOnly AdminAppointments.tenAppointments 3 (by decide)

end Clinic

namespace Clinic

/-- The status updates the four button groups offer for an appointment: confirm and reject of
that appointment when its status is Pending, none otherwise. -/
theorem offeredUpdates_eq (apt : Appointment) :
    offeredUpdates (AdminAppointments.rowButtons apt) =
      (if apt.status = some "Pending" then
        [⟨apt.id, "Confirmed"⟩, ⟨apt.id, "Rejected"⟩] else []) ∧
    offeredUpdates (AdminAppointments.modalButtons apt) =
      (if apt.status = some "Pending" then
        [⟨apt.id, "Confirmed"⟩, ⟨apt.id, "Rejected"⟩] else []) ∧
    offeredUpdates (DoctorAppointments.rowButtons apt) =
      (if apt.status = some "Pending" then
        [⟨apt.id, "Confirmed"⟩, ⟨apt.id, "Rejected"⟩] else []) ∧
    offeredUpdates (DoctorAppointments.modalButtons apt) =
      (if apt.status = some "Pending" then
        [⟨apt.id, "Confirmed"⟩, ⟨apt.id, "Rejected"⟩] else []) := by
  unfold offeredUpdates AdminAppointments.rowButtons AdminAppointments.modalButtons
    DoctorAppointments.rowButtons DoctorAppointments.modalButtons
  by_cases h : apt.status = some "Pending" <;> simp [h]

/-- C13: on AdminAppointments and DoctorAppointments, in the table row and in the details
modal alike, a status update is offered for an appointment exactly when its status is
"Pending"; the updates offered then are the confirmation and the rejection of that very
appointment, so every update the buttons can issue starts from Pending and has target status
"Confirmed" or "Rejected", and none is offered for an appointment shown as Confirmed,
Cancelled or Rejected. -/
theorem C13_status_updates_offered_only_from_pending (apt : Appointment)
    (buttons : List Button)
    (hb : buttons = AdminAppointments.rowButtons apt ∨
      buttons = AdminAppointments.modalButtons apt ∨
      buttons = DoctorAppointments.rowButtons apt ∨
      buttons = DoctorAppointments.modalButtons apt) :
    (offeredUpdates buttons ≠ [] ↔ apt.status = some "Pending") ∧
    (apt.status = some "Pending" →
      offeredUpdates buttons = [⟨apt.id, "Confirmed"⟩, ⟨apt.id, "Rejected"⟩]) ∧
    (∀ u ∈ offeredUpdates buttons, apt.status = some "Pending" ∧ u.appointmentId = apt.id ∧
      (u.status = "Confirmed" ∨ u.status = "Rejected")) ∧
    (apt.status = some "Confirmed" ∨ apt.status = some "Cancelled" ∨
      apt.status = some "Rejected" → offeredUpdates buttons = []) := by
  obtain ⟨h1, h2, h3, h4⟩ := offeredUpdates_eq apt
  have h : offeredUpdates buttons = (if apt.status = some "Pending" then
      [⟨apt.id, "Confirmed"⟩, ⟨apt.id, "Rejected"⟩] else []) := by
    rcases hb with hb | hb | hb | hb <;> subst hb <;> assumption
  rw [h]
  by_cases hp : apt.status = some "Pending"
  · simp [hp]
  · simp only [hp, if_false, ne_eq, not_true_eq_false, List.not_mem_nil, false_imp_iff,
      implies_true, true_and, and_true, iff_self]

/-- C13 (witness): the row of the first Pending example appointment on AdminAppointments. -/
theorem C13_status_updates_offered_only_from_pending_witness :
    offeredUpdates (AdminAppointments.rowButtons AdminAppointments.apt2) =
      [⟨"2", "Confirmed"⟩, ⟨"2", "Rejected"⟩] :=
  (C13_status_updates_offered_only_from_pending AdminAppointments.apt2
    (AdminAppointments.rowButtons AdminAppointments.apt2) (Or.inl rfl)).2.1 (by decide)

end Clinic

namespace Clinic

open DoctorAvailability

/-- The batch loop from request number `i` on: the successes are the dates whose request was
answered `ok`, the failures are the others, both in the order of the dates. -/
theorem runBatch_spec (reply : Nat → CreateReply) (dates : List String) (i : Nat) :
    (runBatch reply i dates).1 =
      ((List.enumFrom i dates).filter fun p => decide (reply p.1 = .ok)).map Prod.snd ∧
    (runBatch reply i dates).2 =
      ((List.enumFrom i dates).filter fun p => !decide (reply p.1 = .ok)).map
        fun p => ⟨p.2, failureMessage (reply p.1)⟩ := by
  induction dates generalizing i with
  | nil => exact ⟨rfl, rfl⟩
  | cons date rest ih =>
    obtain ⟨ih1, ih2⟩ := ih (i + 1)
    cases hr : reply i with
    | ok => simp [runBatch, hr, List.enumFrom, ih1, ih2]
    | rejected e m t s => simp [runBatch, hr, List.enumFrom, ih1, ih2]
    | failed m => simp [runBatch, hr, List.enumFrom, ih1, ih2]

theorem runBatch_length (reply : Nat → CreateReply) (dates : List String) (i : Nat) :
    (runBatch reply i dates).1.length + (runBatch reply i dates).2.length = dates.length := by
  induction dates generalizing i with
  | nil => rfl
  | cons date rest ih =>
    have := ih (i + 1)
    cases hr : reply i <;> simp [runBatch, hr] <;> omega

theorem runBatch_perm (reply : Nat → CreateReply) (dates : List String) (i : Nat) :
    ((runBatch reply i dates).1 ++ (runBatch reply i dates).2.map (·.date)).Perm dates := by
  induction dates generalizing i with
  | nil => exact List.Perm.refl _
  | cons date rest ih =>
    have := ih (i + 1)
    cases hr : reply i with
    | ok =>
      simp only [runBatch, hr, List.cons_append]
      exact List.Perm.cons _ this
    | rejected e m t s =>
      simp only [runBatch, hr, List.map_cons]
      exact List.perm_middle.trans (List.Perm.cons _ this)
    | failed m =>
      simp only [runBatch, hr, List.map_cons]
      exact List.perm_middle.trans (List.Perm.cons _ this)

theorem runBatch_sublist (reply : Nat → CreateReply) (dates : List String) (i : Nat) :
    (runBatch reply i dates).1.Sublist dates ∧
    ((runBatch reply i dates).2.map (·.date)).Sublist dates := by
  induction dates generalizing i with
  | nil => exact ⟨List.Sublist.refl _, List.Sublist.refl _⟩
  | cons date rest ih =>
    obtain ⟨h1, h2⟩ := ih (i + 1)
    cases hr : reply i with
    | ok =>
      simp only [runBatch, hr]
      exact ⟨h1.cons₂ _, h2.cons _⟩
    | rejected e m t s =>
      simp only [runBatch, hr, List.map_cons]
      exact ⟨h1.cons _, h2.cons₂ _⟩
    | failed m =>
      simp only [runBatch, hr, List.map_cons]
      exact ⟨h1.cons _, h2.cons₂ _⟩

/-- The requests of the create branch once the date check has passed: one per expanded date,
in the order of the dates, whatever the backend answers. -/
theorem submitCreate_of_dates (tz : TimeZone) (fuel : Nat) (reply : Nat → CreateReply)
    (st : State) (dates : List String)
    (hcheck : endBeforeStart tz st.formData.available_date (effectiveEndDate st.formData)
      = false)
    (hdates : getDatesInRange tz fuel st.formData.available_date
      (effectiveEndDate st.formData) = some dates) :
    submitCreate tz fuel reply st =
      some (summarize st (dates.map fun date => Request.createNewSchedule (payloadFor st date))
        (runBatch reply 0 dates).1 (runBatch reply 0 dates).2) := by
  unfold submitCreate
  rw [if_neg (by simp [hcheck]), hdates]

/-- C14: for every list of dates and every behaviour of the backend, answer by answer, the
batch loop records each date, position by position, in exactly one of `successes` (its request
was answered ok) and `failures` (any other answer); both keep the order of the dates, their
lengths add up to the number of dates, and the create branch issues one request per date
whatever the answers are, so a failure never stops the dates after it. -/
theorem C14_batch_records_every_date_once (reply : Nat → CreateReply) (dates : List String) :
    (runBatch reply 0 dates).1 =
      ((List.enumFrom 0 dates).filter fun p => decide (reply p.1 = .ok)).map Prod.snd ∧
    (runBatch reply 0 dates).2.map (·.date) =
      ((List.enumFrom 0 dates).filter fun p => !decide (reply p.1 = .ok)).map Prod.snd ∧
    ((runBatch reply 0 dates).1 ++ (runBatch reply 0 dates).2.map (·.date)).Perm dates ∧
    (runBatch reply 0 dates).1.Sublist dates ∧
    ((runBatch reply 0 dates).2.map (·.date)).Sublist dates ∧
    (runBatch reply 0 dates).1.length + (runBatch reply 0 dates).2.length = dates.length ∧
    (∀ (tz : TimeZone) (fuel : Nat) (st : State),
      endBeforeStart tz st.formData.available_date (effectiveEndDate st.formData) = false →
      getDatesInRange tz fuel st.formData.available_date (effectiveEndDate st.formData)
        = some dates →
      (submitCreate tz fuel reply st).map (·.requests) =
        some (dates.map fun date => Request.createNewSchedule (payloadFor st date))) := by
  obtain ⟨h1, h2⟩ := runBatch_spec reply dates 0
  refine ⟨h1, ?_, runBatch_perm reply dates 0, (runBatch_sublist reply dates 0).1,
    (runBatch_sublist reply dates 0).2, runBatch_length reply dates 0, ?_⟩
  · rw [h2, List.map_map]
    rfl
  · intro tz fuel st hcheck hdates
    rw [submitCreate_of_dates tz fuel reply st dates hcheck hdates]
    rfl

/-- C14 (witness): three dates of which the backend accepts the first only. -/
theorem C14_batch_records_every_date_once_witness :
    (runBatch firstOnly 0 ["2024-01-01", "2024-01-02", "2024-01-03"]).1 = ["2024-01-01"] ∧
    (runBatch firstOnly 0 ["2024-01-01", "2024-01-02", "2024-01-03"]).2.map (·.date) =
      ["2024-01-02", "2024-01-03"] ∧
    (submitCreate (fixedZone 19800000) 5 firstOnly threeDays).map (·.requests.length) =
      some 3 := by
  have h := C14_batch_records_every_date_once firstOnly
    ["2024-01-01", "2024-01-02", "2024-01-03"]
  refine ⟨h.1.trans (by decide), h.2.1.trans (by decide), ?_⟩
  have hr := h.2.2.2.2.2.2 (fixedZone 19800000) 5 threeDays (by decide) (by decide)
  rw [Option.map_eq_some'] at hr ⊢
  obtain ⟨o, ho, hreq⟩ := hr
  exact ⟨o, ho, by rw [hreq]; rfl⟩

end Clinic

namespace Clinic

open DoctorAvailability

/-- Every create request of a submission carries its date and otherwise the same fields: the
doctor and the times of the form. -/
theorem payloadFor_fields (st : State) (date : String) :
    (payloadFor st date).available_date = date ∧
    (payloadFor st date).doctor_id = st.userId ∧
    (payloadFor st date).start_time = formatTimeForAPI (some st.formData.start_time) ∧
    (payloadFor st date).end_time = formatTimeForAPI (some st.formData.end_time) ∧
    (payloadFor st date).break_start = breakFieldFor st.formData.break_start ∧
    (payloadFor st date).break_end = breakFieldFor st.formData.break_end :=
  ⟨rfl, rfl, rfl, rfl, rfl, rfl⟩

/-- In a zone with one offset the create requests of a form for 1 to 3 January 2024 are one
per day, in ascending order. -/
theorem create_requests_example :
    (handleSubmit (fixedZone 19800000) 5 .ok (fun _ => .ok) threeDays).map
      (fun o => o.requests.map fun r => r.body.available_date) =
      some ["2024-01-01", "2024-01-02", "2024-01-03"] := by
  decide

/-- C15 (failing input): with the browser in Central European Time, a create-mode form for
30 March to 1 April 2024 issues three create requests, for 30 March, 31 March and 31 March
again: 31 March is requested twice and 1 April is skipped. -/
theorem C15_clock_change_requests_a_date_twice :
    (handleSubmit centralEurope2024 10 .ok (fun _ => .ok) acrossClockChange).map
      (fun o => o.requests.map fun r => r.body.available_date) =
      some ["2024-03-30", "2024-03-31", "2024-03-31"] := by
  decide

end Clinic

namespace Clinic

open DoctorAvailability

/-- C16: after a create-mode batch over the expanded dates, with the form open: the form is
closed exactly when at least one date succeeded, and so is the schedule list fetched again;
in that case the form is reset and the one success notification reads 'Created n schedule(s)'
with n the number of dates that succeeded.  When every date failed the state is the one
before the submission (form open, form data unchanged, `submitting = false`), the list is not
fetched again and no success notification is shown. -/
theorem C16_form_closes_iff_a_date_succeeded (tz : TimeZone) (fuel : Nat)
    (reply : Nat → CreateReply) (st : State) (dates : List String)
    (hopen : st.showForm = true)
    (hcheck : endBeforeStart tz st.formData.available_date (effectiveEndDate st.formData)
      = false)
    (hdates : getDatesInRange tz fuel st.formData.available_date
      (effectiveEndDate st.formData) = some dates) :
    ∃ o, submitCreate tz fuel reply st = some o ∧
      (o.state.showForm = false ↔ (runBatch reply 0 dates).1 ≠ []) ∧
      (o.refetched = true ↔ (runBatch reply 0 dates).1 ≠ []) ∧
      ((runBatch reply 0 dates).1 ≠ [] →
        o.state.formData = emptyForm ∧ o.state.submitting = false ∧
        o.toasts.filter (fun t => decide (t.kind = .success)) =
          [⟨.success, "Created " ++ toString (runBatch reply 0 dates).1.length ++
            " schedule(s)"⟩]) ∧
      ((runBatch reply 0 dates).1 = [] →
        o.state = { st with submitting := false } ∧ o.state.formData = st.formData ∧
        o.state.showForm = true ∧
        o.toasts.filter (fun t => decide (t.kind = .success)) = []) := by
  refine ⟨_, submitCreate_of_dates tz fuel reply st dates hcheck hdates, ?_⟩
  unfold summarize
  by_cases hs : (runBatch reply 0 dates).1 = []
  · simp [hs, hopen]
  · have hpos : (runBatch reply 0 dates).1.length > 0 := List.length_pos.2 hs
    simp only [hpos, if_true, hs, ne_eq, not_false_eq_true, decide_True, true_and, false_imp_iff,
      and_true, iff_true, true_imp_iff]
    split_ifs <;> simp

/-- C16 (witness): three dates of which the backend accepts the first only. -/
theorem C16_form_closes_iff_a_date_succeeded_witness :
    ∃ o, submitCreate (fixedZone 19800000) 5 firstOnly threeDays = some o ∧
      o.state.showForm = false ∧ o.refetched = true ∧ o.state.formData = emptyForm ∧
      o.toasts.filter (fun t => decide (t.kind = .success)) =
        [⟨.success, "Created 1 schedule(s)"⟩] := by
  obtain ⟨o, ho, h1, h2, h3, -⟩ := C16_form_closes_iff_a_date_succeeded (fixedZone 19800000) 5
    firstOnly threeDays ["2024-01-01", "2024-01-02", "2024-01-03"] (by decide) (by decide)
    (by decide)
  have hne : (runBatch firstOnly 0 ["2024-01-01", "2024-01-02", "2024-01-03"]).1 ≠ [] := by
    decide
  exact ⟨o, ho, h1.2 hne, h2.2 hne, (h3 hne).1, (h3 hne).2.2.trans (by decide)⟩

end Clinic

namespace Clinic

open DoctorAvailability

theorem take_min_length {α : Type} (l : List α) (k : Nat) :
    l.take (min k l.length) = l.take k := by
  rcases Nat.le_total k l.length with h | h
  · rw [Nat.min_eq_left h]
  · rw [Nat.min_eq_right h, List.take_length, List.take_of_length_le h]

theorem errorToasts_summarize (st : State) (requests : List Request) (successes : List String)
    (failures : List Failure) :
    (summarize st requests successes failures).toasts.filter
        (fun t => decide (t.kind = .error)) =
      if failures.length > 0 then [⟨.error, failureSummary failures⟩] else [] := by
  unfold summarize
  by_cases hs : successes.length > 0 <;> by_cases hf : failures.length > 0 <;>
    simp [hs, hf, List.filter]

/-- C17: the summary of a create-mode batch shows one failure notification when the failures
list is non-empty and none when it is empty.  Its text is 'Failed for n date(s): ' with n the
number of failures, then the first min(3, n) failures in order, each as its date, a colon and
its reason, joined by '; ', then ' (+k more)' with k = n - 3 when n > 3 and nothing when
n is at most 3. -/
theorem C17_failure_notification_lists_first_three (st : State) (requests : List Request)
    (successes : List String) (failures : List Failure) :
    (failures ≠ [] →
      ∃ suffix,
        (summarize st requests successes failures).toasts.filter
            (fun t => decide (t.kind = .error)) =
          [⟨.error, "Failed for " ++ toString failures.length ++ " date(s): " ++
            "; ".intercalate (((failures.take (min 3 failures.length))).map
              fun f => f.date ++ ": " ++ f.message) ++ suffix⟩] ∧
        (failures.length > 3 →
          suffix = " (+" ++ toString (failures.length - 3) ++ " more)") ∧
        (failures.length ≤ 3 → suffix = "")) ∧
    (failures = [] →
      (summarize st requests successes failures).toasts.filter
        (fun t => decide (t.kind = .error)) = []) := by
  rw [errorToasts_summarize]
  constructor
  · intro hne
    have hpos : failures.length > 0 := List.length_pos.2 hne
    refine ⟨if failures.length > 3 then " (+" ++ toString (failures.length - 3) ++ " more)"
      else "", ?_, ?_, ?_⟩
    · rw [if_pos hpos, take_min_length]
      rfl
    · intro h
      rw [if_pos h]
    · intro h
      rw [if_neg (by omega)]
  · intro h
    simp [h]

/-- C17 (witness): five failures give the count 5, the first three entries and '(+2 more)'. -/
theorem C17_failure_notification_lists_first_three_witness :
    fiveFailures ≠ [] ∧
    (summarize threeDays [] [] fiveFailures).toasts.filter
        (fun t => decide (t.kind = .error)) =
      [⟨.error, "Failed for 5 date(s): 2024-01-01: a; 2024-01-02: b; 2024-01-03: c (+2 more)"⟩] := by
  refine ⟨by decide, ?_⟩
  obtain ⟨suffix, h1, h2, -⟩ :=
    (C17_failure_notification_lists_first_three threeDays [] [] fiveFailures).1 (by decide)
  rw [h1, h2 (by decide)]
  decide

end Clinic

namespace Clinic

open DoctorAvailability

theorem jsLength_append (a b : String) : jsLength (a ++ b) = jsLength a + jsLength b := by
  unfold jsLength
  rw [String.data_append, List.map_append, List.sum_append]

theorem ne_empty_of_jsLength {t : String} {n : Nat} (h : jsLength t = n) (hn : n ≠ 0) :
    t ≠ "" := by
  intro e
  subst e
  exact hn (h.symm.trans (by decide))

theorem formatTimeForAPI_five (t : String) (h : jsLength t = 5) :
    formatTimeForAPI (some t) = some (t ++ ":00") := by
  show (if t ≠ "" ∧ jsLength t = 5 then some (t ++ ":00")
    else if t ≠ "" then some t else none) = _
  rw [if_pos ⟨ne_empty_of_jsLength h (by decide), h⟩]

theorem formatTimeForAPI_other (t : String) (hne : t ≠ "") (h : jsLength t ≠ 5) :
    formatTimeForAPI (some t) = some t := by
  show (if t ≠ "" ∧ jsLength t = 5 then some (t ++ ":00")
    else if t ≠ "" then some t else none) = _
  rw [if_neg (fun hc => h hc.2), if_pos hne]

theorem timeSlots_eq :
    timeSlots = (List.range 49).map fun i => hhmm (8 + i / 4) (15 * (i % 4)) := by
  decide

theorem jsLength_hhmm (h m : Nat) : jsLength (hhmm h m) = 5 := by
  have key : ∀ n : Nat, (digitChar n).toNat < 0x10000 := by
    intro n
    unfold digitChar
    split <;> decide
  simp [jsLength, hhmm, pad2, key]

/-- C20: for every string t of length 5, `formatTimeForAPI(t)` is t followed by ':00', a
string of length 8; every entry of `timeSlots` is a time `HH:MM` of length 5 and is therefore
sent as `HH:MM:00`; a missing value and the empty string give null; every other string is
returned unchanged; and applying `formatTimeForAPI` twice to a string of length 5 gives the
same as applying it once. -/
theorem C20_formatTimeForAPI_appends_seconds :
    (∀ t : String, jsLength t = 5 →
      formatTimeForAPI (some t) = some (t ++ ":00") ∧ jsLength (t ++ ":00") = 8) ∧
    (∀ t ∈ timeSlots, formatTimeForAPI (some t) = some (t ++ ":00") ∧
      ∃ h m, h ≤ 23 ∧ m ≤ 59 ∧ t = hhmm h m) ∧
    formatTimeForAPI none = none ∧ formatTimeForAPI (some "") = none ∧
    (∀ t : String, t ≠ "" → jsLength t ≠ 5 → formatTimeForAPI (some t) = some t) ∧
    (∀ t : String, jsLength t = 5 →
      formatTimeForAPI (formatTimeForAPI (some t)) = formatTimeForAPI (some t)) := by
  have len8 : ∀ t : String, jsLength t = 5 → jsLength (t ++ ":00") = 8 := by
    intro t h
    rw [jsLength_append, h]
    decide
  refine ⟨fun t h => ⟨formatTimeForAPI_five t h, len8 t h⟩, ?_, rfl, by decide,
    formatTimeForAPI_other, ?_⟩
  · intro t ht
    rw [timeSlots_eq, List.mem_map] at ht
    obtain ⟨i, hi, rfl⟩ := ht
    rw [List.mem_range] at hi
    refine ⟨formatTimeForAPI_five _ (jsLength_hhmm _ _), 8 + i / 4, 15 * (i % 4), ?_, ?_, rfl⟩
    · omega
    · omega
  · intro t h
    rw [formatTimeForAPI_five t h]
    exact formatTimeForAPI_other _ (ne_empty_of_jsLength (len8 t h) (by decide))
      (by rw [len8 t h]; decide)

/-- C20 (witness): the slot 09:30 is sent as 09:30:00, and formatting that again changes
nothing. -/
theorem C20_formatTimeForAPI_appends_seconds_witness :
    jsLength "09:30" = 5 ∧ formatTimeForAPI (some "09:30") = some "09:30:00" ∧
    formatTimeForAPI (formatTimeForAPI (some "09:30")) = formatTimeForAPI (some "09:30") :=
  ⟨by decide, (C20_formatTimeForAPI_appends_seconds.1 "09:30" (by decide)).1,
    C20_formatTimeForAPI_appends_seconds.2.2.2.2.2 "09:30" (by decide)⟩

end Clinic

namespace Clinic

open DoctorAvailability

theorem digitVal_bmp (c : Char) (d : Nat) (h : digitVal c = some d) : c.toNat < 0x10000 := by
  by_contra hc
  have key : ∀ k : Char, k.toNat < 0x10000 → c ≠ k := fun k hk e => hc (e ▸ hk)
  simp [digitVal, key '0' (by decide), key '1' (by decide), key '2' (by decide),
    key '3' (by decide), key '4' (by decide), key '5' (by decide), key '6' (by decide),
    key '7' (by decide), key '8' (by decide), key '9' (by decide)] at h

theorem digitsVal_two (c1 c2 : Char) (n : Nat) (h : digitsVal [c1, c2] = some n) :
    c1.toNat < 0x10000 ∧ c2.toNat < 0x10000 := by
  simp only [digitsVal, List.foldl] at h
  cases h1 : digitVal c1 with
  | none => simp [h1] at h
  | some d1 =>
    cases h2 : digitVal c2 with
    | none => simp [h1, h2] at h
    | some d2 => exact ⟨digitVal_bmp c1 d1 h1, digitVal_bmp c2 d2 h2⟩

/-- The two shapes `parseTimeChars` accepts. -/
theorem parseTimeChars_some (l : List Char) (a : Int) (h : parseTimeChars l = some a) :
    (∃ h1 h2 m1 m2 hh mm, l = [h1, h2, ':', m1, m2] ∧ digitsVal [h1, h2] = some hh ∧
      digitsVal [m1, m2] = some mm ∧ ((hh ≤ 23 ∧ mm ≤ 59) ∨ (hh = 24 ∧ mm = 0)) ∧
      a = (((hh * 60 + mm) * 60000 : Nat) : Int)) ∨
    (∃ h1 h2 m1 m2 s1 s2 hh mm ss, l = [h1, h2, ':', m1, m2, ':', s1, s2] ∧
      digitsVal [h1, h2] = some hh ∧ digitsVal [m1, m2] = some mm ∧
      digitsVal [s1, s2] = some ss ∧
      ((hh ≤ 23 ∧ mm ≤ 59 ∧ ss ≤ 59) ∨ (hh = 24 ∧ mm = 0 ∧ ss = 0)) ∧
      a = ((((hh * 60 + mm) * 60 + ss) * 1000 : Nat) : Int)) := by
  unfold parseTimeChars at h
  split at h
  · rename_i h1 h2 c1 m1 m2
    left
    by_cases hc : c1 = ':'
    · subst hc
      rw [if_pos rfl] at h
      cases e1 : digitsVal [h1, h2] with
      | none => simp [e1] at h
      | some hh =>
        cases e2 : digitsVal [m1, m2] with
        | none => simp [e1, e2] at h
        | some mm =>
          simp only [e1, e2] at h
          by_cases hr : (hh ≤ 23 ∧ mm ≤ 59) ∨ (hh = 24 ∧ mm = 0)
          · rw [if_pos hr] at h
            exact ⟨h1, h2, m1, m2, hh, mm, rfl, e1, e2, hr, (Option.some.inj h).symm⟩
          · rw [if_neg hr] at h
            exact absurd h (by simp)
    · rw [if_neg hc] at h
      exact absurd h (by simp)
  · rename_i h1 h2 c1 m1 m2 c2 s1 s2
    right
    by_cases hc : c1 = ':' ∧ c2 = ':'
    · obtain ⟨hc1, hc2⟩ := hc
      subst hc1
      subst hc2
      rw [if_pos ⟨rfl, rfl⟩] at h
      cases e1 : digitsVal [h1, h2] with
      | none => simp [e1] at h
      | some hh =>
        cases e2 : digitsVal [m1, m2] with
        | none => simp [e1, e2] at h
        | some mm =>
          cases e3 : digitsVal [s1, s2] with
          | none => simp [e1, e2, e3] at h
          | some ss =>
            simp only [e1, e2, e3] at h
            by_cases hr : (hh ≤ 23 ∧ mm ≤ 59 ∧ ss ≤ 59) ∨ (hh = 24 ∧ mm = 0 ∧ ss = 0)
            · rw [if_pos hr] at h
              exact ⟨h1, h2, m1, m2, s1, s2, hh, mm, ss, rfl, e1, e2, e3, hr,
                (Option.some.inj h).symm⟩
            · rw [if_neg hr] at h
              exact absurd h (by simp)
    · rw [if_neg hc] at h
      exact absurd h (by simp)
  · exact absurd h (by simp)

/-- A time of day lies between 0 and 24 hours. -/
theorem parseTimeChars_bounds (l : List Char) (a : Int) (h : parseTimeChars l = some a) :
    0 ≤ a ∧ a ≤ msPerDay := by
  unfold msPerDay
  rcases parseTimeChars_some l a h with
    ⟨_, _, _, _, hh, mm, -, -, -, hr, rfl⟩ | ⟨_, _, _, _, _, _, hh, mm, ss, -, -, -, -, hr, rfl⟩
  · omega
  · omega

end Clinic

namespace Clinic

open DoctorAvailability

/-- The date `isTimeRangeValid` builds from a time string: that time of 1 January 2000 on the
local wall clock, and an invalid date when the string is no time of day. -/
theorem newDate_y2k (tz : TimeZone) (s : String) :
    newDate tz ("2000-01-01T" ++ s) =
      (parseTimeChars s.data).map fun ms => UTC tz (946684800000 + ms) := by
  have e : ("2000-01-01T" ++ s).data =
      ['2', '0', '0', '0', '-', '0', '1', '-', '0', '1', 'T'] ++ s.data := by
    rw [String.data_append]
  have hd : parseDateChars ['2', '0', '0', '0', '-', '0', '1', '-', '0', '1'] = some 10957 := by
    decide
  unfold newDate
  rw [e]
  simp only [List.cons_append, List.nil_append, List.take_succ_cons, List.take_zero,
    List.drop_succ_cons, List.drop_zero, hd]
  cases parseTimeChars s.data with
  | none => rfl
  | some ms => rfl

/-- In a zone with one offset on 1 January 2000, `isTimeRangeValid` holds exactly when both
strings are times of day and the first is strictly earlier. -/
theorem isTimeRangeValid_iff (tz : TimeZone) (hz : SingleOffsetOnY2K tz) (s e : String) :
    isTimeRangeValid tz (some s) (some e) = true ↔
      ∃ a b, parseTimeChars s.data = some a ∧ parseTimeChars e.data = some b ∧ a < b := by
  have hempty : parseTimeChars ("" : String).data = none := by decide
  unfold isTimeRangeValid
  simp only
  by_cases hc : s = "" ∨ e = ""
  · rw [if_pos hc]
    constructor
    · intro h
      exact absurd h (by simp)
    · rintro ⟨a, b, ha, hb, -⟩
      rcases hc with rfl | rfl
      · rw [hempty] at ha
        exact absurd ha (by simp)
      · rw [hempty] at hb
        exact absurd hb (by simp)
  · rw [if_neg hc, newDate_y2k, newDate_y2k]
    cases ha : parseTimeChars s.data with
    | none => simp
    | some a =>
      cases hb : parseTimeChars e.data with
      | none => simp
      | some b =>
        have ba := parseTimeChars_bounds _ _ ha
        have bb := parseTimeChars_bounds _ _ hb
        have o1 := hz a ba.1 ba.2
        have o2 := hz b bb.1 bb.2
        simp only [Option.map_some', decide_eq_true_eq, UTC, o1, o2, Option.some.injEq,
          exists_and_left, exists_eq_left']
        omega

theorem jsLength_mk_bmp (l : List Char) (h : ∀ c ∈ l, c.toNat < 0x10000) :
    jsLength (String.mk l) = l.length := by
  unfold jsLength
  induction l with
  | nil => rfl
  | cons c cs ih =>
    have hc := h c (List.mem_cons_self _ _)
    have := ih fun x hx => h x (List.mem_cons_of_mem _ hx)
    simp only [List.map_cons, List.sum_cons, List.length_cons, if_pos hc] at this ⊢
    omega

theorem length_le_jsLength (s : String) : s.data.length ≤ jsLength s := by
  unfold jsLength
  induction s.data with
  | nil => simp
  | cons c cs ih =>
    simp only [List.map_cons, List.sum_cons, List.length_cons]
    split_ifs <;> omega

/-- The helper `formatTimeForAPI` keeps the time of day of a time string: `HH:mm` gains the
seconds `00`, `HH:mm:ss` is returned as it is. -/
theorem timeOfDay_formatTimeForAPI (s : String) (a : Int)
    (h : parseTimeChars s.data = some a) :
    timeOfDay (formatTimeForAPI (some s)) = some a := by
  rcases parseTimeChars_some _ _ h with
    ⟨h1, h2, m1, m2, hh, mm, hl, e1, e2, hr, rfl⟩ |
    ⟨h1, h2, m1, m2, s1, s2, hh, mm, ss, hl, e1, e2, e3, hr, rfl⟩
  · have hs : s = String.mk [h1, h2, ':', m1, m2] := by
      rw [← hl]
    have b1 := digitsVal_two _ _ _ e1
    have b2 := digitsVal_two _ _ _ e2
    have h5 : jsLength s = 5 := by
      rw [hs, jsLength_mk_bmp]
      · rfl
      · intro c hc
        simp only [List.mem_cons, List.mem_singleton, List.not_mem_nil, or_false] at hc
        rcases hc with rfl | rfl | rfl | rfl | rfl
        · exact b1.1
        · exact b1.2
        · decide
        · exact b2.1
        · exact b2.2
    rw [formatTimeForAPI_five s h5]
    have hd : (s ++ ":00").data = [h1, h2, ':', m1, m2, ':', '0', '0'] := by
      rw [String.data_append, hl]
      rfl
    have e0 : digitsVal ['0', '0'] = some 0 := by decide
    simp only [timeOfDay, hd, parseTimeChars, and_self, if_true, e1, e2, e0]
    have hc : hh ≤ 23 ∧ mm ≤ 59 ∧ 0 ≤ 59 ∨ hh = 24 ∧ mm = 0 ∧ True := by
      rcases hr with ⟨x, y⟩ | ⟨x, y⟩
      · exact Or.inl ⟨x, y, by decide⟩
      · exact Or.inr ⟨x, y, trivial⟩
    have hv : ((hh * 60 + mm) * 60 + 0) * 1000 = (hh * 60 + mm) * 60000 := by omega
    rw [if_pos hc, hv]
  · have hne : s ≠ "" := by
      intro e
      rw [e] at hl
      simp at hl
    have h8 : jsLength s ≠ 5 := by
      have := length_le_jsLength s
      rw [hl] at this
      simp only [List.length_cons, List.length_nil] at this
      omega
    rw [formatTimeForAPI_other s hne h8]
    exact h

/-- Every write request `handleSubmit` issues was built by `payloadFor` from the form, after
`isTimeRangeValid` accepted its start and end time. -/
theorem handleSubmit_requests (tz : TimeZone) (fuel : Nat) (update : UpdateReply)
    (create : Nat → CreateReply) (st : State) (o : Outcome)
    (h : handleSubmit tz fuel update create st = some o) (r : Request) (hr : r ∈ o.requests) :
    isTimeRangeValid tz (some st.formData.start_time) (some st.formData.end_time) = true ∧
    ∃ date, r.body = payloadFor st date := by
  unfold handleSubmit at h
  split_ifs at h with h1 h2 h3 h4
  · cases Option.some.inj h
    exact absurd hr (by simp)
  · cases Option.some.inj h
    exact absurd hr (by simp [reject])
  · cases Option.some.inj h
    exact absurd hr (by simp [reject])
  · refine ⟨h4, ?_⟩
    cases hsch : st.editingSchedule with
    | some sch =>
      rw [hsch] at h
      cases Option.some.inj h
      refine ⟨st.formData.available_date, ?_⟩
      cases update <;> simp only [submitEdit, List.mem_singleton] at hr <;> rw [hr] <;> rfl
    | none =>
      rw [hsch] at h
      simp only at h
      unfold submitCreate at h
      split_ifs at h with h5
      · cases Option.some.inj h
        exact absurd hr (by simp)
      · cases hd : getDatesInRange tz fuel st.formData.available_date
            (effectiveEndDate st.formData) with
        | none => rw [hd] at h; exact absurd h (by simp)
        | some dates =>
          rw [hd] at h
          cases Option.some.inj h
          simp only [summarize, List.mem_map] at hr
          obtain ⟨date, -, rfl⟩ := hr
          exact ⟨date, rfl⟩
  · cases Option.some.inj h
    exact absurd hr (by simp [reject])

end Clinic

namespace Clinic

open DoctorAvailability

/-- C18: in a zone that keeps one offset throughout 1 January 2000, every write request of
`handleSubmit`, from the edit branch and from the create branch alike, carries a `start_time`
and an `end_time` that are times of day with the start strictly earlier than the end; and a
form whose start time is not a time of day strictly before its end time makes `handleSubmit`
return without any request. -/
theorem C18_requests_carry_start_before_end (tz : TimeZone) (hz : SingleOffsetOnY2K tz)
    (fuel : Nat) (update : UpdateReply) (create : Nat → CreateReply) (st : State) :
    (∀ o, handleSubmit tz fuel update create st = some o → ∀ r ∈ o.requests,
      ∃ a b, timeOfDay r.body.start_time = some a ∧ timeOfDay r.body.end_time = some b ∧
        a < b) ∧
    ((¬ ∃ a b, timeOfDay (some st.formData.start_time) = some a ∧
        timeOfDay (some st.formData.end_time) = some b ∧ a < b) →
      ∃ o, handleSubmit tz fuel update create st = some o ∧ o.requests = []) := by
  constructor
  · intro o h r hr
    obtain ⟨hv, date, hbody⟩ := handleSubmit_requests tz fuel update create st o h r hr
    obtain ⟨a, b, ha, hb, hab⟩ := (isTimeRangeValid_iff tz hz _ _).1 hv
    refine ⟨a, b, ?_, ?_, hab⟩
    · rw [hbody]
      exact timeOfDay_formatTimeForAPI _ _ ha
    · rw [hbody]
      exact timeOfDay_formatTimeForAPI _ _ hb
  · intro hn
    have hv : ¬ isTimeRangeValid tz (some st.formData.start_time)
        (some st.formData.end_time) = true :=
      fun hv => hn ((isTimeRangeValid_iff tz hz _ _).1 hv)
    unfold handleSubmit
    split_ifs
    · exact ⟨_, rfl, rfl⟩
    · exact ⟨_, rfl, rfl⟩
    · exact ⟨_, rfl, rfl⟩
    · exact ⟨_, rfl, rfl⟩

/-- C18 (witness): the three create requests of a form 09:00 to 17:00 carry a start before
their end, and a form 17:00 to 09:00 issues no request. -/
theorem C18_requests_carry_start_before_end_witness :
    (∃ o, handleSubmit (fixedZone 19800000) 5 .ok (fun _ => .ok) threeDays = some o ∧
      o.requests.length = 3 ∧
      ∀ r ∈ o.requests, ∃ a b, timeOfDay r.body.start_time = some a ∧
        timeOfDay r.body.end_time = some b ∧ a < b) ∧
    (∃ o, handleSubmit (fixedZone 19800000) 5 .ok (fun _ => .ok) lateStart = some o ∧
      o.requests = []) := by
  constructor
  · have hlen : (handleSubmit (fixedZone 19800000) 5 .ok (fun _ => .ok) threeDays).map
        (fun o => o.requests.length) = some 3 := by decide
    cases h : handleSubmit (fixedZone 19800000) 5 .ok (fun _ => .ok) threeDays with
    | none =>
      rw [h] at hlen
      exact absurd hlen (by simp)
    | some o =>
      rw [h] at hlen
      exact ⟨o, rfl, Option.some.inj hlen,
        (C18_requests_carry_start_before_end (fixedZone 19800000)
          (singleOffsetOnY2K_fixedZone 19800000) 5 .ok (fun _ => .ok) threeDays).1 o h⟩
  · refine (C18_requests_carry_start_before_end (fixedZone 19800000)
      (singleOffsetOnY2K_fixedZone 19800000) 5 .ok (fun _ => .ok) lateStart).2 ?_
    rintro ⟨a, b, ha, hb, hab⟩
    have ea : timeOfDay (some lateStart.formData.start_time) = some 61200000 := by decide
    have eb : timeOfDay (some lateStart.formData.end_time) = some 32400000 := by decide
    rw [ea] at ha
    rw [eb] at hb
    cases Option.some.inj ha
    cases Option.some.inj hb
    exact absurd hab (by decide)

end Clinic

namespace Clinic

open DoctorAvailability

theorem breakFieldFor_eq_none_iff (field : String) : breakFieldFor field = none ↔ field = "" := by
  unfold breakFieldFor
  by_cases h : field = ""
  · simp [h]
  · rw [if_pos h]
    simp only [h, iff_false]
    by_cases h5 : jsLength field = 5
    · rw [formatTimeForAPI_five field h5]
      simp
    · rw [formatTimeForAPI_other field h h5]
      simp

/-- C19 (counterexample): a form with working hours 09:00 to 17:00, break start 18:00 and no
break end issues a create request that carries the break start 18:00:00, after the end of the
working hours, and a null break end. -/
theorem C19_counterexample_break_outside_hours_is_sent :
    (handleSubmit (fixedZone 19800000) 5 .ok (fun _ => .ok) breakOutsideHours).map
      (fun o => o.requests.map fun r =>
        (r.body.start_time, r.body.end_time, r.body.break_start, r.body.break_end)) =
      some [(some "09:00:00", some "17:00:00", some "18:00:00", none)] := by
  decide

/-- C19: every write request of `handleSubmit` carries the two break fields of the form, each
taken on its own: `break_start` is null exactly when the form field `break_start` is empty
and is `formatTimeForAPI` of the form field otherwise, and the same holds for `break_end`. -/
theorem C19_break_fields_follow_the_form (tz : TimeZone) (fuel : Nat) (update : UpdateReply)
    (create : Nat → CreateReply) (st : State) (o : Outcome)
    (h : handleSubmit tz fuel update create st = some o) (r : Request) (hr : r ∈ o.requests) :
    r.body.break_start = breakFieldFor st.formData.break_start ∧
    r.body.break_end = breakFieldFor st.formData.break_end ∧
    (r.body.break_start = none ↔ st.formData.break_start = "") ∧
    (r.body.break_end = none ↔ st.formData.break_end = "") ∧
    (st.formData.break_start ≠ "" →
      r.body.break_start = formatTimeForAPI (some st.formData.break_start)) ∧
    (st.formData.break_end ≠ "" →
      r.body.break_end = formatTimeForAPI (some st.formData.break_end)) := by
  obtain ⟨-, date, hbody⟩ := handleSubmit_requests tz fuel update create st o h r hr
  have h1 : r.body.break_start = breakFieldFor st.formData.break_start := by rw [hbody]; rfl
  have h2 : r.body.break_end = breakFieldFor st.formData.break_end := by rw [hbody]; rfl
  refine ⟨h1, h2, ?_, ?_, ?_, ?_⟩
  · rw [h1]
    exact breakFieldFor_eq_none_iff _
  · rw [h2]
    exact breakFieldFor_eq_none_iff _
  · intro hne
    rw [h1, breakFieldFor, if_pos hne]
  · intro hne
    rw [h2, breakFieldFor, if_pos hne]

/-- C19 (witness): the one request of the form with break start 18:00 and no break end. -/
theorem C19_break_fields_follow_the_form_witness :
    ∃ o r, handleSubmit (fixedZone 19800000) 5 .ok (fun _ => .ok) breakOutsideHours = some o ∧
      r ∈ o.requests ∧ r.body.break_start = some "18:00:00" ∧ r.body.break_end = none := by
  have hreq : (handleSubmit (fixedZone 19800000) 5 .ok (fun _ => .ok) breakOutsideHours).map
      (fun o => o.requests) =
      some [Request.createNewSchedule (payloadFor breakOutsideHours "2024-01-01")] := by
    decide
  cases h : handleSubmit (fixedZone 19800000) 5 .ok (fun _ => .ok) breakOutsideHours with
  | none =>
    rw [h] at hreq
    exact absurd hreq (by simp)
  | some o =>
    rw [h] at hreq
    have hmem : Request.createNewSchedule (payloadFor breakOutsideHours "2024-01-01") ∈
        o.requests := by
      have e : o.requests =
          [Request.createNewSchedule (payloadFor breakOutsideHours "2024-01-01")] :=
        Option.some.inj hreq
      rw [e]
      exact List.mem_singleton.2 rfl
    obtain ⟨h1, h2, -⟩ := C19_break_fields_follow_the_form (fixedZone 19800000) 5 .ok
      (fun _ => .ok) breakOutsideHours o h _ hmem
    exact ⟨o, _, rfl, hmem, h1.trans (by decide), h2.trans (by decide)⟩

end Clinic

namespace Clinic

open BookAppointment

theorem recognisedSlots_of_no_array (data : JsValue) (hn : data.isNullish = false)
    (hplaces : ∀ v ∈ slotArrayPlaces data, v.items = []) :
    recognisedSlots data = some [] := by
  have h1 : (data.prop "allSlots").items = [] := hplaces _ (by simp [slotArrayPlaces])
  have h2 : ((data.prop "data").prop "allSlots").items = [] :=
    hplaces _ (by simp [slotArrayPlaces])
  have h3 : (data.prop "data").items = [] := hplaces _ (by simp [slotArrayPlaces])
  have h4 : data.items = [] := hplaces _ (by simp [slotArrayPlaces])
  unfold recognisedSlots
  rw [hn, h1, h2, h3, h4]
  simp

/-- C21 (counterexample): the response body `null` carries no slot array, and for it
`fetchAvailableSlots` raises the error notification 'Error fetching available time slots'
and not the notification that there are no available slots. -/
theorem C21_counterexample_null_body_is_reported_as_error :
    (slotArrayPlaces .null).all (fun v => !v.isArray) = true ∧
    (fetchAvailableSlots (.body .null)).availableSlots.length = 0 ∧
    (fetchAvailableSlots (.body .null)).toasts =
      [⟨.error, "Error fetching available time slots"⟩] := by
  decide

/-- C21 (amended): for a response body that holds no array, or an empty one, at each of the
four places the slot array is looked for: when the body is not `null`, `fetchAvailableSlots`
sets the available slots to the empty list and raises only the notification
'No available slots for this date'; when the body is `null`, reading `data.allSlots` throws
and the catch block sets the available slots to the empty list and raises the error
notification.  Either way the slot panel of a form with a date and a doctor then reads
'No available slots for this date'. -/
theorem C21_no_slot_array_gives_empty_slots (data : JsValue)
    (hplaces : ∀ v ∈ slotArrayPlaces data, v.items = []) :
    (fetchAvailableSlots (.body data)).availableSlots = [] ∧
    (fetchAvailableSlots (.body data)).slotsLoading = false ∧
    (data.isNullish = false →
      (fetchAvailableSlots (.body data)).toasts =
        [⟨.info, "No available slots for this date"⟩]) ∧
    (data.isNullish = true →
      (fetchAvailableSlots (.body data)).toasts =
        [⟨.error, "Error fetching available time slots"⟩]) ∧
    (∀ (date : String) (doctor : Doctor), date ≠ "" →
      slotPanel date (some doctor) (fetchAvailableSlots (.body data)).slotsLoading
        (fetchAvailableSlots (.body data)).availableSlots =
        .message "No available slots for this date") := by
  have key : (fetchAvailableSlots (.body data)).availableSlots = [] ∧
      (fetchAvailableSlots (.body data)).slotsLoading = false ∧
      (data.isNullish = false →
        (fetchAvailableSlots (.body data)).toasts =
          [⟨.info, "No available slots for this date"⟩]) ∧
      (data.isNullish = true →
        (fetchAvailableSlots (.body data)).toasts =
          [⟨.error, "Error fetching available time slots"⟩]) := by
    cases hn : data.isNullish with
    | false =>
      simp only [fetchAvailableSlots, recognisedSlots_of_no_array data hn hplaces]
      simp
    | true =>
      have hr : recognisedSlots data = none := by
        unfold recognisedSlots
        rw [hn]
        rfl
      simp only [fetchAvailableSlots, hr]
      simp
  refine ⟨key.1, key.2.1, key.2.2.1, key.2.2.2, ?_⟩
  intro date doctor hdate
  rw [key.1, key.2.1]
  simp [slotPanel, hdate]

/-- C21 (witness): the body `{ success: true, data: { allSlots: [] } }`. -/
theorem C21_no_slot_array_gives_empty_slots_witness :
    (fetchAvailableSlots (.body noSlotsBody)).availableSlots = [] ∧
    (fetchAvailableSlots (.body noSlotsBody)).toasts =
      [⟨.info, "No available slots for this date"⟩] :=
  have h := C21_no_slot_array_gives_empty_slots noSlotsBody
    (by simp [slotArrayPlaces, noSlotsBody, JsValue.prop, fieldOf, JsValue.items])
  ⟨h.1, h.2.2.1 rfl⟩

end Clinic

namespace Clinic

open SlotCalculator

/-- The loop of the calculator in closed form: with fuel for every round it yields the times
`t`, `t + 15`, ... below `end_time`. -/
theorem slotTimes_eq (fuel : Nat) : ∀ (t end_time : Nat), end_time - t ≤ fuel →
    slotTimes fuel t end_time =
      (List.range ((end_time - t + 14) / 15)).map fun i => t + 15 * i := by
  induction fuel with
  | zero =>
    intro t e hf
    have h0 : (e - t + 14) / 15 = 0 := by omega
    rw [h0]
    rfl
  | succ fuel ih =>
    intro t e hf
    unfold slotTimes
    by_cases hlt : t < e
    · rw [if_pos hlt, ih (t + granularity) e (by unfold granularity; omega)]
      have hn : (e - t + 14) / 15 = (e - (t + granularity) + 14) / 15 + 1 := by
        unfold granularity; omega
      rw [hn, List.range_succ_eq_map, List.map_cons, List.map_map]
      congr 1
      apply List.map_congr_left
      intro i _
      simp only [Function.comp, granularity]
      omega
    · rw [if_neg hlt]
      have h0 : (e - t + 14) / 15 = 0 := by omega
      rw [h0]
      rfl

theorem slots_eq (s : Schedule) (booked : List Nat) :
    slots (some s) booked =
      (List.range ((s.end_time - s.start_time + 14) / 15)).map fun i =>
        ⟨s.start_time + 15 * i, statusOf s booked (s.start_time + 15 * i)⟩ := by
  unfold slots
  simp only
  rw [slotTimes_eq _ _ _ (le_refl _), List.map_map]
  rfl

theorem mem_slots (s : Schedule) (booked : List Nat) (slot : Slot) :
    slot ∈ slots (some s) booked ↔
      ∃ i, s.start_time + 15 * i < s.end_time ∧
        slot = ⟨s.start_time + 15 * i, statusOf s booked (s.start_time + 15 * i)⟩ := by
  rw [slots_eq, List.mem_map]
  constructor
  · rintro ⟨i, hi, rfl⟩
    rw [List.mem_range] at hi
    exact ⟨i, by omega, rfl⟩
  · rintro ⟨i, hi, rfl⟩
    exact ⟨i, List.mem_range.2 (by omega), rfl⟩

/-- C22: for a schedule with `start_time < end_time` and no break (no `break_start`, hence
no break window), the calculator returns
the slots at `start_time`, `start_time + 15`, ... for every such time before `end_time` and
no other, in ascending order, beginning with `start_time`; each is marked "booked" when an
existing appointment occupies it and "available" otherwise. -/
theorem C22_slots_span_the_working_hours (s : Schedule) (booked : List Nat)
    (hlt : s.start_time < s.end_time) (hbs : s.break_start = none) :
    slots (some s) booked =
      (List.range ((s.end_time - s.start_time + 14) / 15)).map (fun i =>
        ⟨s.start_time + 15 * i,
          if occupied booked (s.start_time + 15 * i) then "booked" else "available"⟩) ∧
    (∀ t, (∃ slot ∈ slots (some s) booked, slot.time = t) ↔
      ∃ i, t = s.start_time + granularity * i ∧ t < s.end_time) ∧
    ((slots (some s) booked).map (·.time)).Pairwise (· < ·) ∧
    (slots (some s) booked).head? =
      some ⟨s.start_time, if occupied booked s.start_time then "booked" else "available"⟩ ∧
    (∀ slot ∈ slots (some s) booked,
      slot.status = if occupied booked slot.time then "booked" else "available") := by
  have hstatus : ∀ t, statusOf s booked t =
      if occupied booked t then "booked" else "available" := by
    intro t
    simp [statusOf, inBreak, hbs]
  refine ⟨?_, ?_, ?_, ?_, ?_⟩
  · rw [slots_eq]
    apply List.map_congr_left
    intro i _
    rw [hstatus]
  · intro t
    constructor
    · rintro ⟨slot, hslot, rfl⟩
      obtain ⟨i, hi, rfl⟩ := (mem_slots s booked slot).1 hslot
      exact ⟨i, rfl, hi⟩
    · rintro ⟨i, rfl, hi⟩
      exact ⟨_, (mem_slots s booked _).2 ⟨i, hi, rfl⟩, rfl⟩
  · rw [slots_eq, List.map_map, List.pairwise_map]
    refine List.Pairwise.imp ?_ (List.pairwise_lt_range _)
    intro i j hij
    simp only [Function.comp]
    omega
  · rw [slots_eq]
    obtain ⟨n, hn⟩ : ∃ n, (s.end_time - s.start_time + 14) / 15 = n + 1 :=
      ⟨(s.end_time - s.start_time + 14) / 15 - 1, by omega⟩
    rw [hn, List.range_succ_eq_map, List.map_cons, List.head?_cons, hstatus]
    rfl
  · intro slot hslot
    obtain ⟨i, -, rfl⟩ := (mem_slots s booked slot).1 hslot
    exact hstatus _

/-- C22 (witness): 09:00 to 10:00 with an appointment at 09:15. -/
theorem C22_slots_span_the_working_hours_witness :
    slots (some morning) [555] =
      [⟨540, "available"⟩, ⟨555, "booked"⟩, ⟨570, "available"⟩, ⟨585, "available"⟩] :=
  (C22_slots_span_the_working_hours morning [555] (by decide) rfl).1.trans (by decide)

/-- C23: for a schedule with a break window, a generated slot is marked "break" exactly when
its time falls within [break_start, break_end); this holds for every window, in particular
for one that lies inside the working hours. -/
theorem C23_break_slots_are_those_in_the_window (s : Schedule) (booked : List Nat)
    (a b : Nat) (hbs : s.break_start = some a) (hbe : s.break_end = some b) :
    ∀ slot ∈ slots (some s) booked, (slot.status = "break" ↔ a ≤ slot.time ∧ slot.time < b) := by
  intro slot hslot
  obtain ⟨i, -, rfl⟩ := (mem_slots s booked slot).1 hslot
  simp only [statusOf, inBreak, hbs, hbe]
  by_cases hw : a ≤ s.start_time + 15 * i ∧ s.start_time + 15 * i < b
  · simp [hw]
  · simp only [hw, decide_False, Bool.false_eq_true, if_false, iff_false]
    split_ifs <;> decide

/-- C23 (witness): 09:00 to 11:00 with a break from 09:30 to 10:00 and an appointment at
10:30. -/
theorem C23_break_slots_are_those_in_the_window_witness :
    slots (some withBreak) [630] =
      [⟨540, "available"⟩, ⟨555, "available"⟩, ⟨570, "break"⟩, ⟨585, "break"⟩,
       ⟨600, "available"⟩, ⟨615, "available"⟩, ⟨630, "booked"⟩, ⟨645, "available"⟩] ∧
    ∀ slot ∈ slots (some withBreak) [630],
      (slot.status = "break" ↔ 570 ≤ slot.time ∧ slot.time < 600) :=
  ⟨by decide, C23_break_slots_are_those_in_the_window withBreak [630] 570 600 rfl rfl⟩

end Clinic

namespace Clinic

open DoctorAppointments

/-- The code units of one character. -/
theorem utf16_cons (c : Char) (cs : List Char) :
    utf16 (String.mk (c :: cs)) =
      (if c.toNat < 0x10000 then [c.toNat]
        else [0xD800 + (c.toNat - 0x10000) / 0x400, 0xDC00 + (c.toNat - 0x10000) % 0x400]) ++
      utf16 (String.mk cs) := by
  simp [utf16, List.flatMap_cons]

theorem utf16_append (a b : String) : utf16 (a ++ b) = utf16 a ++ utf16 b := by
  unfold utf16
  rw [String.data_append, List.flatMap_append]

theorem utf16_length (s : String) : (utf16 s).length = jsLength s := by
  unfold utf16 jsLength
  induction s.data with
  | nil => rfl
  | cons c cs ih =>
    rw [List.flatMap_cons, List.length_append, ih, List.map_cons, List.sum_cons]
    split_ifs <;> rfl

theorem char_eq_of_toNat_eq (c d : Char) (h : c.toNat = d.toNat) : c = d := by
  apply Char.ext
  apply UInt32.ext
  exact h

/-- Two strings with the same code units are the same string: the comparison `===` of
strings is equality. -/
theorem utf16_injective_chars : ∀ (a b : List Char),
    utf16 (String.mk a) = utf16 (String.mk b) → a = b := by
  intro a
  induction a with
  | nil =>
    intro b h
    cases b with
    | nil => rfl
    | cons d ds =>
      rw [utf16_cons] at h
      have hl := congrArg List.length h
      have h0 : (utf16 (String.mk [])).length = 0 := rfl
      rw [List.length_append, h0] at hl
      split_ifs at hl <;>
        (simp only [List.length_cons, List.length_nil, List.length_singleton] at hl; omega)
  | cons c cs ih =>
    intro b h
    cases b with
    | nil =>
      rw [utf16_cons] at h
      have hl := congrArg List.length h
      have h0 : (utf16 (String.mk [])).length = 0 := rfl
      rw [List.length_append, h0] at hl
      split_ifs at hl <;>
        (simp only [List.length_cons, List.length_nil, List.length_singleton] at hl; omega)
    | cons d ds =>
      have hc := c.valid
      have hd := d.valid
      have hcn : c.val.toNat = c.toNat := rfl
      have hdn : d.val.toNat = d.toNat := rfl
      simp only [UInt32.isValidChar, Nat.isValidChar, hcn, hdn] at hc hd
      rw [utf16_cons, utf16_cons] at h
      by_cases h1 : c.toNat < 0x10000 <;> by_cases h2 : d.toNat < 0x10000
      · rw [if_pos h1, if_pos h2] at h
        simp only [List.singleton_append, List.cons.injEq] at h
        rw [char_eq_of_toNat_eq c d h.1, ih ds h.2]
      · rw [if_pos h1, if_neg h2] at h
        simp only [List.singleton_append, List.cons_append, List.nil_append,
          List.cons.injEq] at h
        omega
      · rw [if_neg h1, if_pos h2] at h
        simp only [List.singleton_append, List.cons_append, List.nil_append,
          List.cons.injEq] at h
        omega
      · rw [if_neg h1, if_neg h2] at h
        simp only [List.cons_append, List.nil_append, List.cons.injEq] at h
        have e : c.toNat = d.toNat := by omega
        rw [char_eq_of_toNat_eq c d e, ih ds h.2.2]

theorem utf16_injective (a b : String) (h : utf16 a = utf16 b) : a = b := by
  have := utf16_injective_chars a.data b.data h
  exact String.ext this

/-- The slice of the date predicate on a stored date that starts with ten code units `d`:
whatever follows them is cut off. -/
theorem take_utf16_append (d suffix : String) (hd : jsLength d = 10) :
    (utf16 (d ++ suffix)).take 10 = utf16 d := by
  rw [utf16_append, List.take_append_of_le_length (by rw [utf16_length, hd]),
    List.take_of_length_le (by rw [utf16_length, hd])]

theorem matchesDate_iff (dateFilter : String) (hf : dateFilter ≠ "") (apt : Appointment) :
    matchesDate dateFilter apt = true ↔
      ∃ date, apt.appointment_date = some date ∧ (utf16 date).take 10 = utf16 dateFilter := by
  unfold matchesDate
  cases hd : apt.appointment_date with
  | none => simp [truthy]
  | some date =>
    by_cases he : date = ""
    · subst he
      have hne : ¬ (utf16 "").take 10 = utf16 dateFilter := by
        intro h
        have h0 : (utf16 "").take 10 = utf16 "" := rfl
        rw [h0] at h
        exact hf (utf16_injective _ _ h).symm
      simp [truthy, hne]
    · simp [truthy, he]

/-- C24: with a non-empty date filter, `fetchAppointments` keeps, of the appointments that
passed the status filter (all of them when the status filter is 'all'), exactly those whose
`appointment_date` is present and has the filter date as its first ten characters (UTF-16
code units), in their original order; an appointment without `appointment_date` is dropped;
and for a stored date that begins with ten characters `d` the outcome is whether `d` is the
filter date, whatever time or zone suffix follows. -/
theorem C24_date_filter_compares_first_ten_characters (lower : String → String)
    (st : State) (data : List Appointment) (hf : st.dateFilter ≠ "") :
    filterAppointments lower st data =
      (if st.filter ≠ "all" then data.filter (matchesStatus lower st.filter) else data).filter
        (matchesDate st.dateFilter) ∧
    (st.filter = "all" →
      filterAppointments lower st data = data.filter (matchesDate st.dateFilter) ∧
      (filterAppointments lower st data).Sublist data) ∧
    (∀ apt, matchesDate st.dateFilter apt = true ↔
      ∃ date, apt.appointment_date = some date ∧
        (utf16 date).take 10 = utf16 st.dateFilter) ∧
    (∀ apt ∈ filterAppointments lower st data, apt.appointment_date ≠ none) ∧
    (∀ (apt : Appointment) (d suffix : String), jsLength d = 10 →
      matchesDate st.dateFilter { apt with appointment_date := some (d ++ suffix) } =
        decide (d = st.dateFilter)) := by
  have hmain : filterAppointments lower st data =
      (if st.filter ≠ "all" then data.filter (matchesStatus lower st.filter) else data).filter
        (matchesDate st.dateFilter) := by
    unfold filterAppointments
    simp only
    rw [if_pos hf]
  refine ⟨hmain, ?_, matchesDate_iff st.dateFilter hf, ?_, ?_⟩
  · intro hall
    have e : filterAppointments lower st data = data.filter (matchesDate st.dateFilter) := by
      rw [hmain, if_neg (by simp [hall])]
    exact ⟨e, e ▸ List.filter_sublist data⟩
  · intro apt hapt
    rw [hmain] at hapt
    obtain ⟨date, hd, -⟩ := (matchesDate_iff st.dateFilter hf apt).1 (List.mem_filter.1 hapt).2
    rw [hd]
    simp
  · intro apt d suffix hd
    have hne : d ++ suffix ≠ "" := by
      intro h
      have hl := congrArg jsLength h
      rw [jsLength_append, hd] at hl
      have h0 : jsLength "" = 0 := rfl
      omega
    unfold matchesDate
    simp only [truthy, if_neg hne, take_utf16_append d suffix hd]
    by_cases he : d = st.dateFilter
    · simp [he]
    · have hne2 : ¬ utf16 d = utf16 st.dateFilter := fun h => he (utf16_injective _ _ h)
      simp [he, hne2]

/-- C24 (witness): the date filter 2024-05-06 on a stored date with a time and zone suffix
and on the stored date of the next day. -/
theorem C24_date_filter_compares_first_ten_characters_witness :
    matchesDate "2024-05-06"
      { AdminAppointments.apt1 with appointment_date := some "2024-05-06T18:30:00.000Z" } = true ∧
    matchesDate "2024-05-06"
      { AdminAppointments.apt1 with appointment_date := some "2024-05-07T00:30:00+05:30" } =
        false :=
  have h := (C24_date_filter_compares_first_ten_characters asciiLower
    { onPageTwo with dateFilter := "2024-05-06" } [] (by decide)).2.2.2.2
  ⟨(h AdminAppointments.apt1 "2024-05-06" "T18:30:00.000Z" (by decide)).trans (by decide),
    (h AdminAppointments.apt1 "2024-05-07" "T00:30:00+05:30" (by decide)).trans (by decide)⟩

end Clinic

namespace Clinic

open BookAppointment

theorem fieldOf_setField_same (name : String) (value : JsValue) (fields : Fields) :
    fieldOf name (setField name value fields) = value := by
  induction fields with
  | nil => simp [setField, fieldOf]
  | cons kv rest ih =>
    obtain ⟨key, old⟩ := kv
    by_cases h : key = name
    · simp [setField, fieldOf, h]
    · simp [setField, fieldOf, h, ih]

theorem fieldOf_setField_other (name other : String) (value : JsValue) (fields : Fields)
    (h : other ≠ name) : fieldOf other (setField name value fields) = fieldOf other fields := by
  induction fields with
  | nil => simp [setField, fieldOf, h.symm]
  | cons kv rest ih =>
    obtain ⟨key, old⟩ := kv
    by_cases hk : key = name
    · subst hk
      simp [setField, fieldOf, h.symm]
    · by_cases ho : key = other
      · subst ho
        simp [setField, fieldOf, h]
      · simp [setField, fieldOf, hk, ho, ih]

/-- The status test of a slot button: a falsy status counts as 'available'. -/
theorem isAvailable_iff (slot : JsValue) :
    isAvailable slot = true ↔
      (slot.prop "status").isStr "available" = true ∨ (slot.prop "status").toBoolean = false := by
  unfold isAvailable slotStatus JsValue.or
  cases h : (slot.prop "status").toBoolean with
  | true => simp
  | false => simp [JsValue.isStr]

/-- C25 (counterexample): a slot whose status is the boolean `false` is neither 'available'
nor without status, yet a click on it stores its time as `appointment_time`. -/
theorem C25_counterexample_false_status_is_selectable :
    (slotStatusFalse.prop "status").isNullish = false ∧
    (slotStatusFalse.prop "status").isStr "available" = false ∧
    (fieldOf "appointment_time" (formObject emptyForm)).isStr "" = true ∧
    ((slotClick (formObject emptyForm) slotStatusFalse).map fun form =>
      (fieldOf "appointment_time" form).isStr "09:00:00") = some true := by
  decide

/-- C25 (amended): a click on the button of a slot stores the slot's time value as
`appointment_time`, leaving every other field of the form as it was, exactly when the slot's
status is 'available' or falsy (missing, `null`, `false`, `0` or the empty string: all of
these default to 'available'); for every other status, 'booked', 'break', 'unavailable' or
whatever else, the click leaves the whole form data unchanged. -/
theorem C25_click_selects_only_available_slots (formData : Fields) (slot : JsValue)
    (hslot : slot.isNullish = false) :
    ((slot.prop "status").isStr "available" = true ∨ (slot.prop "status").toBoolean = false →
      slotClick formData slot = some (setField "appointment_time" (timeValue slot) formData) ∧
      fieldOf "appointment_time" (setField "appointment_time" (timeValue slot) formData) =
        timeValue slot ∧
      ∀ name, name ≠ "appointment_time" →
        fieldOf name (setField "appointment_time" (timeValue slot) formData) =
          fieldOf name formData) ∧
    (¬ ((slot.prop "status").isStr "available" = true ∨
        (slot.prop "status").toBoolean = false) →
      slotClick formData slot = some formData) := by
  constructor
  · intro h
    refine ⟨?_, fieldOf_setField_same _ _ _, fun name hn => fieldOf_setField_other _ _ _ _ hn⟩
    unfold slotClick
    rw [hslot, (isAvailable_iff slot).2 h]
    rfl
  · intro h
    have hna : isAvailable slot = false := by
      cases ha : isAvailable slot with
      | false => rfl
      | true => exact absurd ((isAvailable_iff slot).1 ha) h
    unfold slotClick
    rw [hslot, hna]
    rfl

/-- C25 (witness): a click on a booked slot changes nothing, a click on a slot without status
selects it. -/
theorem C25_click_selects_only_available_slots_witness :
    slotClick (formObject emptyForm) slotBooked = some (formObject emptyForm) ∧
    slotClick (formObject emptyForm) slotNoStatus =
      some (setField "appointment_time" (.str "09:30:00") (formObject emptyForm)) :=
  ⟨(C25_click_selects_only_available_slots (formObject emptyForm) slotBooked rfl).2 (by decide),
    ((C25_click_selects_only_available_slots (formObject emptyForm) slotNoStatus rfl).1
      (by decide)).1⟩

end Clinic

namespace Clinic

open Profile

theorem hasField_deleteField (name : String) (fields : Fields) :
    hasField name (deleteField name fields) = false := by
  unfold hasField deleteField
  rw [List.any_eq_false]
  intro kv hkv
  have := (List.mem_filter.1 hkv).2
  simpa using this

theorem hasField_of_fieldOf_str (name s : String) (fields : Fields)
    (h : fieldOf name fields = .str s) : hasField name fields = true := by
  induction fields with
  | nil => simp [fieldOf] at h
  | cons kv rest ih =>
    obtain ⟨key, value⟩ := kv
    by_cases hk : key = name
    · simp [hasField, hk]
    · simp only [fieldOf, if_neg hk] at h
      have := ih h
      simp only [hasField, List.any_cons] at this ⊢
      rw [this]
      simp

/-- When the payload of a profile update keeps the password: password editing is enabled
and the password of the form is a string that is not blank. -/
theorem payloadFor_cases (enablePassword : Bool) (formData : Fields) :
    (enablePassword = true ∧ (∃ s, fieldOf "password" formData = .str s ∧ jsTrim s ≠ "") ∧
      payloadFor enablePassword formData = some formData) ∨
    (¬ (enablePassword = true ∧ ∃ s, fieldOf "password" formData = .str s ∧ jsTrim s ≠ "") ∧
      (payloadFor enablePassword formData = some (deleteField "password" formData) ∨
        payloadFor enablePassword formData = none)) := by
  unfold payloadFor
  cases enablePassword with
  | false => right; simp
  | true =>
    cases hp : fieldOf "password" formData with
    | str s =>
      by_cases hs : jsTrim s = ""
      · right; simp [hs]
      · left; simp [hs]
    | undefined => right; simp
    | null => right; simp
    | bool b => right; simp
    | num n => right; simp
    | arr xs => right; simp
    | obj fs => right; simp

theorem requests_submitWith (caught : Option String → String) (st : State) (reply : Reply) :
    (submitWith caught st reply).requests =
      (payloadFor st.enablePassword st.formData).toList := by
  unfold submitWith
  cases payloadFor st.enablePassword st.formData with
  | none => rfl
  | some payload =>
    cases reply with
    | response success message => cases success <;> rfl
    | failed message => rfl

theorem storedUser_submitWith (caught : Option String → String) (st : State) (reply : Reply)
    (user : Fields) (h : (submitWith caught st reply).storedUser = some user) :
    fieldOf "password" user = .str "" := by
  unfold submitWith at h
  cases hp : payloadFor st.enablePassword st.formData with
  | none => simp [hp] at h
  | some payload =>
    cases reply with
    | response success message =>
      cases success with
      | false => simp [hp] at h
      | true =>
        simp only [hp, Option.some.injEq] at h
        rw [← h]
        exact fieldOf_setField_same _ _ _
    | failed message => simp [hp] at h

theorem password_in_requests (caught : Option String → String) (st : State) (reply : Reply)
    (payload : Fields) (h : payload ∈ (submitWith caught st reply).requests) :
    hasField "password" payload = true ↔
      st.enablePassword = true ∧
        ∃ s, fieldOf "password" st.formData = .str s ∧ jsTrim s ≠ "" := by
  rw [requests_submitWith] at h
  rcases payloadFor_cases st.enablePassword st.formData with ⟨he, ⟨s, hs, hne⟩, hp⟩ | ⟨hn, hp | hp⟩
  · rw [hp] at h
    simp only [Option.toList_some, List.mem_singleton] at h
    subst h
    exact ⟨fun _ => ⟨he, s, hs, hne⟩, fun _ => hasField_of_fieldOf_str _ _ _ hs⟩
  · rw [hp] at h
    simp only [Option.toList_some, List.mem_singleton] at h
    subst h
    rw [hasField_deleteField]
    exact ⟨fun hc => absurd hc (by simp), fun hc => absurd hc hn⟩
  · rw [hp] at h
    simp at h

theorem requests_not_enabled (caught : Option String → String) (st : State) (reply : Reply)
    (h : st.enablePassword = false) :
    (submitWith caught st reply).requests = [deleteField "password" st.formData] := by
  rw [requests_submitWith, h]
  rfl

/-- C26: in `handleSubmit` of DoctorProfile and of AdminProfile the payload of the update
request has a `password` field exactly when password editing is enabled and the password of
the form is a string that is not blank after trimming; while password editing is not enabled
the one request carries the form data without `password`, so two form states that differ in
the password field only produce identical payloads; and the record stored as the current
user after a successful update has `password` equal to the empty string. -/
theorem C26_password_sent_only_when_enabled_and_not_blank (st : State) (reply : Reply) :
    (∀ payload, (payload ∈ (DoctorProfile.handleSubmit st reply).requests ∨
        payload ∈ (AdminProfile.handleSubmit st reply).requests) →
      (hasField "password" payload = true ↔
        st.enablePassword = true ∧
          ∃ s, fieldOf "password" st.formData = .str s ∧ jsTrim s ≠ "")) ∧
    (st.enablePassword = false →
      (DoctorProfile.handleSubmit st reply).requests = [deleteField "password" st.formData] ∧
      (AdminProfile.handleSubmit st reply).requests = [deleteField "password" st.formData] ∧
      ∀ st' : State, st'.enablePassword = false →
        deleteField "password" st'.formData = deleteField "password" st.formData →
        (DoctorProfile.handleSubmit st' reply).requests =
          (DoctorProfile.handleSubmit st reply).requests ∧
        (AdminProfile.handleSubmit st' reply).requests =
          (AdminProfile.handleSubmit st reply).requests) ∧
    (∀ user, ((DoctorProfile.handleSubmit st reply).storedUser = some user ∨
        (AdminProfile.handleSubmit st reply).storedUser = some user) →
      fieldOf "password" user = .str "") ∧
    (∀ message, ((DoctorProfile.handleSubmit st (.response true message)).storedUser).isSome =
        ((DoctorProfile.handleSubmit st (.response true message)).requests.length == 1) ∧
      ((AdminProfile.handleSubmit st (.response true message)).storedUser).isSome =
        ((AdminProfile.handleSubmit st (.response true message)).requests.length == 1)) := by
  refine ⟨?_, ?_, ?_, ?_⟩
  · rintro payload (h | h)
    · exact password_in_requests _ st reply payload h
    · exact password_in_requests _ st reply payload h
  · intro h
    refine ⟨requests_not_enabled _ st reply h, requests_not_enabled _ st reply h, ?_⟩
    intro st' h' heq
    unfold DoctorProfile.handleSubmit AdminProfile.handleSubmit
    rw [requests_not_enabled _ st' reply h', requests_not_enabled _ st reply h,
      requests_not_enabled _ st' reply h', requests_not_enabled _ st reply h, heq]
    exact ⟨rfl, rfl⟩
  · rintro user (h | h)
    · exact storedUser_submitWith _ st reply user h
    · exact storedUser_submitWith _ st reply user h
  · intro message
    unfold DoctorProfile.handleSubmit AdminProfile.handleSubmit submitWith
    cases payloadFor st.enablePassword st.formData with
    | none => exact ⟨rfl, rfl⟩
    | some payload => exact ⟨rfl, rfl⟩

/-- C26 (witness): with password editing off the typed password is not sent, with password
editing on it is, and the stored record of a successful update has an empty password. -/
theorem C26_password_sent_only_when_enabled_and_not_blank_witness :
    (DoctorProfile.handleSubmit typedPassword (.response true none)).requests =
      [[("id", .num 7), ("name", .str "Rao")]] ∧
    (∀ payload ∈ (AdminProfile.handleSubmit enabledPassword (.response true none)).requests,
      hasField "password" payload = true) ∧
    (∀ user, (DoctorProfile.handleSubmit typedPassword (.response true none)).storedUser =
      some user → fieldOf "password" user = .str "") :=
  have h1 := C26_password_sent_only_when_enabled_and_not_blank typedPassword (.response true none)
  have h2 := C26_password_sent_only_when_enabled_and_not_blank enabledPassword
    (.response true none)
  ⟨(h1.2.1 rfl).1, fun payload hp => (h2.1 payload (Or.inr hp)).2 ⟨rfl, "secret", rfl, by decide⟩,
    fun user hu => h1.2.2.1 user (Or.inl hu)⟩

end Clinic

namespace Clinic

/-- The page number is in range: `1 <= p <= max(1, page count)`. -/
theorem previousPage_in_range (st : DoctorAvailability.State)
    (h : 1 ≤ st.currentPage ∧
      st.currentPage ≤ max 1 (DoctorAvailability.pageCount st : Int)) :
    1 ≤ (DoctorAvailability.previousPage st).currentPage ∧
    (DoctorAvailability.previousPage st).currentPage ≤
      max 1 (DoctorAvailability.pageCount (DoctorAvailability.previousPage st) : Int) := by
  unfold DoctorAvailability.previousPage
  split_ifs with hc
  · simp only [DoctorAvailability.pageCount] at h ⊢
    omega
  · exact h

theorem nextPage_in_range (st : DoctorAvailability.State)
    (h : 1 ≤ st.currentPage ∧
      st.currentPage ≤ max 1 (DoctorAvailability.pageCount st : Int)) :
    1 ≤ (DoctorAvailability.nextPage st).currentPage ∧
    (DoctorAvailability.nextPage st).currentPage ≤
      max 1 (DoctorAvailability.pageCount (DoctorAvailability.nextPage st) : Int) := by
  unfold DoctorAvailability.nextPage
  split_ifs with hc
  · simp only [DoctorAvailability.pageCount, totalPages,
      DoctorAvailability.appointmentsPerPage] at h hc ⊢
    obtain ⟨-, hlt⟩ := hc
    push_cast at hlt ⊢
    omega
  · exact h

/-- C27 (failing input): on DoctorAvailability, with six schedules and the second page
shown, deleting the sixth schedule and fetching the remaining five leaves the page number
at 2 while the page count is 1: the page shown is empty although five schedules exist, and
the pagination controls are no longer rendered, so neither Previous nor Next leads back.  On
DoctorAppointments, choosing the status filter 'Confirmed' on the second page of ten
appointments leaves the page number at 2 with a shorter list of one page. -/
theorem C27_page_number_exceeds_page_count_after_delete :
    (DoctorAvailability.handleDelete DoctorAvailability.secondPageOfSix true
      (.response true none none)
      (.body true (DoctorAvailability.sixSchedules.take 5))).1.currentPage = 2 ∧
    DoctorAvailability.pageCount
      (DoctorAvailability.handleDelete DoctorAvailability.secondPageOfSix true
        (.response true none none)
        (.body true (DoctorAvailability.sixSchedules.take 5))).1 = 1 ∧
    (DoctorAvailability.handleDelete DoctorAvailability.secondPageOfSix true
      (.response true none none)
      (.body true (DoctorAvailability.sixSchedules.take 5))).1.schedules.length = 5 ∧
    DoctorAvailability.currentAppointments
      (DoctorAvailability.handleDelete DoctorAvailability.secondPageOfSix true
        (.response true none none)
        (.body true (DoctorAvailability.sixSchedules.take 5))).1 = [] ∧
    DoctorAvailability.paginationShown
      (DoctorAvailability.handleDelete DoctorAvailability.secondPageOfSix true
        (.response true none none)
        (.body true (DoctorAvailability.sixSchedules.take 5))).1 = false ∧
    (DoctorAppointments.changeFilter asciiLower DoctorAppointments.onPageTwo "Confirmed"
      (.body true none (some AdminAppointments.tenAppointments))).1.currentPage = 2 ∧
    DoctorAppointments.pageCount
      (DoctorAppointments.changeFilter asciiLower DoctorAppointments.onPageTwo "Confirmed"
        (.body true none (some AdminAppointments.tenAppointments))).1 = 1 := by
  decide

end Clinic

namespace Clinic

theorem jsIncludes_empty (s t : String) (ht : t = "") : jsIncludes s t = true := by
  subst ht
  simp [jsIncludes]

theorem doctor_matches_empty_term (lower : String → String) (hl : lower "" = "")
    (doc : Doctor) :
    DoctorPage.matchesSearch lower "" doc = DoctorPage.hasSearchableField doc := by
  unfold DoctorPage.matchesSearch DoctorPage.hasSearchableField
  rw [Bool.eq_iff_iff]
  simp only [List.any_eq_true, List.mem_filterMap]
  constructor
  · rintro ⟨field, ⟨x, hx, hfx⟩, -⟩
    exact ⟨x, hx, by rw [hfx]; rfl⟩
  · rintro ⟨x, hx, hsome⟩
    obtain ⟨field, hfield⟩ := Option.isSome_iff_exists.1 hsome
    exact ⟨field, ⟨x, hx, hfield⟩, jsIncludes_empty _ _ hl⟩

theorem contact_matches_empty_query (lower : String → String) (hl : lower "" = "")
    (c : Enquiries.Contact) :
    Enquiries.matchesSearch lower "" c = Enquiries.hasSearchableField c := by
  have key : ∀ field : Option String, Enquiries.fieldMatches lower "" field = field.isSome := by
    intro field
    cases field with
    | none => rfl
    | some f => exact jsIncludes_empty _ _ hl
  unfold Enquiries.matchesSearch Enquiries.hasSearchableField
  rw [key, key, key, key]

/-- C28 (counterexample): with an empty search term the DoctorPage filter drops a doctor
whose searchable fields are all missing, and the Enquiries filter drops a contact whose
searchable fields are all missing. -/
theorem C28_counterexample_blank_records_are_dropped :
    DoctorPage.filteredDoctors asciiLower ⟨[DoctorPage.blankDoctor], "", 1⟩ = [] ∧
    Enquiries.filteredContacts asciiLower
      ⟨[Enquiries.namedContact, Enquiries.blankContact], "", 1⟩ = [Enquiries.namedContact] := by
  decide

/-- C28 (amended): with an empty search term (whose lower case is empty) the DoctorPage
filter keeps, in original order, exactly the doctors that have a searchable field that is
present and not empty, and the Enquiries filter exactly the contacts that have a searchable
field that is present; so each returns the whole collection unchanged when every record has
such a field. -/
theorem C28_empty_term_keeps_records_with_a_searchable_field (lower : String → String)
    (hl : lower "" = "") :
    (∀ st : DoctorPage.State, st.searchTerm = "" →
      DoctorPage.filteredDoctors lower st =
        st.doctors.filter DoctorPage.hasSearchableField ∧
      ((∀ doc ∈ st.doctors, DoctorPage.hasSearchableField doc = true) →
        DoctorPage.filteredDoctors lower st = st.doctors)) ∧
    (∀ st : Enquiries.State, st.searchQuery = "" →
      Enquiries.filteredContacts lower st =
        st.contacts.filter Enquiries.hasSearchableField ∧
      ((∀ c ∈ st.contacts, Enquiries.hasSearchableField c = true) →
        Enquiries.filteredContacts lower st = st.contacts)) := by
  constructor
  · intro st hterm
    have e : DoctorPage.filteredDoctors lower st =
        st.doctors.filter DoctorPage.hasSearchableField := by
      unfold DoctorPage.filteredDoctors
      rw [hterm]
      exact List.filter_congr fun doc _ => doctor_matches_empty_term lower hl doc
    exact ⟨e, fun hall => e.trans (List.filter_eq_self.2 hall)⟩
  · intro st hterm
    have e : Enquiries.filteredContacts lower st =
        st.contacts.filter Enquiries.hasSearchableField := by
      unfold Enquiries.filteredContacts
      rw [hterm]
      exact List.filter_congr fun c _ => contact_matches_empty_query lower hl c
    exact ⟨e, fun hall => e.trans (List.filter_eq_self.2 hall)⟩

/-- C28 (witness): a list of one doctor with all fields and a list of one contact with a name
are returned whole. -/
theorem C28_empty_term_keeps_records_with_a_searchable_field_witness :
    DoctorPage.filteredDoctors asciiLower ⟨[BookAppointment.doctorRao], "", 1⟩ =
      [BookAppointment.doctorRao] ∧
    Enquiries.filteredContacts asciiLower ⟨[Enquiries.namedContact], "", 1⟩ =
      [Enquiries.namedContact] :=
  have h := C28_empty_term_keeps_records_with_a_searchable_field asciiLower (by decide)
  ⟨(h.1 ⟨[BookAppointment.doctorRao], "", 1⟩ rfl).2 (by decide),
    (h.2 ⟨[Enquiries.namedContact], "", 1⟩ rfl).2 (by decide)⟩

end Clinic

namespace Clinic

/-- The page with number `q + 1` as a window of the list. -/
theorem pageSlice_succ (α : Type) (xs : List α) (q s : Nat) :
    pageSlice xs ((q + 1 : Nat) : Int) (s : Int) = (xs.take ((q + 1) * s)).drop (q * s) := by
  rw [pageSlice_eq α xs (q + 1) s (by omega), take_min_length]
  rfl

/-- The page count bounds the length: the pages before the last lie inside the list, and the
pages up to the last cover it. -/
theorem totalPages_bounds (n s : Nat) (hs : 0 < s) :
    n ≤ totalPages n s * s ∧ (0 < n → (totalPages n s - 1) * s < n) ∧
    (0 < n → 0 < totalPages n s) := by
  unfold totalPages
  have h1 := Nat.div_add_mod (n + s - 1) s
  have h2 := Nat.mod_lt (n + s - 1) hs
  have hc : s * ((n + s - 1) / s) = (n + s - 1) / s * s := Nat.mul_comm _ _
  refine ⟨by omega, ?_, ?_⟩
  · intro hn
    have hpos : 0 < (n + s - 1) / s := Nat.div_pos (by omega) hs
    obtain ⟨t, ht⟩ : ∃ t, (n + s - 1) / s = t + 1 := ⟨(n + s - 1) / s - 1, by omega⟩
    rw [ht] at hc h1 ⊢
    rw [Nat.succ_mul] at hc
    simp only [Nat.add_sub_cancel]
    omega
  · intro hn
    exact Nat.div_pos (by omega) hs

/-- The first `k` pages, one after the other, are the first `k * s` items. -/
theorem pages_concat (α : Type) (xs : List α) (s : Nat) : ∀ k : Nat,
    ((List.range k).flatMap fun (i : Nat) => pageSlice xs ((i + 1 : Nat) : Int) (s : Int)) =
      xs.take (k * s) := by
  intro k
  induction k with
  | zero => simp
  | succ k ih =>
    rw [List.range_succ, List.flatMap_append, ih, List.flatMap_singleton, pageSlice_succ]
    have hle : k * s ≤ (k + 1) * s := Nat.mul_le_mul_right s (Nat.le_succ k)
    have ht : xs.take (k * s) = (xs.take ((k + 1) * s)).take (k * s) := by
      rw [List.take_take, Nat.min_eq_left hle]
    rw [ht, List.take_append_drop]

theorem length_pageSlice_succ (α : Type) (xs : List α) (q s : Nat) :
    (pageSlice xs ((q + 1 : Nat) : Int) (s : Int)).length =
      min (q * s + s) xs.length - q * s := by
  rw [pageSlice_succ, List.length_drop, List.length_take, Nat.succ_mul]

/-- C29: for every list and page size `s > 0`, the page slices for the pages 1 to
`ceil(n / s)`, one after the other, are the list; each of these pages holds between 1 and
`s` items, every page before the last holds `s`, and every page number above `ceil(n / s)`
yields the empty slice.  In particular the pages of AdminAppointments and of
DoctorAvailability, one after the other, are the list of appointments and of schedules. -/
theorem C29_pages_partition_the_list (α : Type) (xs : List α) (s : Nat) (hs : 0 < s) :
    ((List.range (totalPages xs.length s)).flatMap
      fun (i : Nat) => pageSlice xs ((i + 1 : Nat) : Int) (s : Int)) = xs ∧
    (∀ p : Nat, 1 ≤ p → p ≤ totalPages xs.length s →
      1 ≤ (pageSlice xs (p : Int) (s : Int)).length ∧
      (pageSlice xs (p : Int) (s : Int)).length ≤ s) ∧
    (∀ p : Nat, 1 ≤ p → p < totalPages xs.length s →
      (pageSlice xs (p : Int) (s : Int)).length = s) ∧
    (∀ p : Nat, totalPages xs.length s < p → pageSlice xs (p : Int) (s : Int) = []) ∧
    (∀ st : AdminAppointments.State,
      ((List.range (AdminAppointments.totalPages st)).flatMap fun (i : Nat) =>
        AdminAppointments.currentAppointments { st with currentPage := ((i + 1 : Nat) : Int) }) =
        st.appointments) ∧
    (∀ st : DoctorAvailability.State,
      ((List.range (DoctorAvailability.pageCount st)).flatMap fun (i : Nat) =>
        DoctorAvailability.currentAppointments
          { st with currentPage := ((i + 1 : Nat) : Int) }) = st.schedules) := by
  have hb := totalPages_bounds xs.length s hs
  have hall : ∀ (β : Type) (ys : List β) (t : Nat), 0 < t →
      ((List.range (totalPages ys.length t)).flatMap
        fun (i : Nat) => pageSlice ys ((i + 1 : Nat) : Int) (t : Int)) = ys := by
    intro β ys t ht
    rw [pages_concat, List.take_of_length_le (totalPages_bounds ys.length t ht).1]
  refine ⟨hall α xs s hs, ?_, ?_, ?_, ?_, ?_⟩
  · intro p hp hpt
    obtain ⟨q, rfl⟩ : ∃ q, p = q + 1 := ⟨p - 1, by omega⟩
    have hn : 0 < xs.length := by
      rcases Nat.eq_zero_or_pos xs.length with h0 | h0
      · rw [h0, totalPages_zero s hs] at hpt
        omega
      · exact h0
    have hq : q * s ≤ (totalPages xs.length s - 1) * s := Nat.mul_le_mul_right s (by omega)
    have hlt := hb.2.1 hn
    rw [length_pageSlice_succ]
    omega
  · intro p hp hpt
    obtain ⟨q, rfl⟩ : ∃ q, p = q + 1 := ⟨p - 1, by omega⟩
    have hn : 0 < xs.length := by
      rcases Nat.eq_zero_or_pos xs.length with h0 | h0
      · rw [h0, totalPages_zero s hs] at hpt
        omega
      · exact h0
    have hq : (q + 1) * s ≤ (totalPages xs.length s - 1) * s :=
      Nat.mul_le_mul_right s (by omega)
    rw [Nat.succ_mul] at hq
    have hlt := hb.2.1 hn
    rw [length_pageSlice_succ]
    omega
  · intro p hpt
    obtain ⟨q, rfl⟩ : ∃ q, p = q + 1 := ⟨p - 1, by omega⟩
    have hq : totalPages xs.length s * s ≤ q * s := Nat.mul_le_mul_right s (by omega)
    apply List.eq_nil_of_length_eq_zero
    rw [length_pageSlice_succ]
    have := hb.1
    omega
  · intro st
    exact hall _ st.appointments 5 (by decide)
  · intro st
    exact hall _ st.schedules 5 (by decide)

/-- C29 (witness): twelve items in pages of five: 5, 5 and 2 items, and nothing on page 4. -/
theorem C29_pages_partition_the_list_witness :
    pageSlice (List.range 12) 1 5 ++ pageSlice (List.range 12) 2 5 ++
      pageSlice (List.range 12) 3 5 = List.range 12 ∧
    (pageSlice (List.range 12) 3 5).length = 2 ∧ pageSlice (List.range 12) 4 5 = [] :=
  have h := C29_pages_partition_the_list Nat (List.range 12) 5 (by decide)
  ⟨by decide, by decide, h.2.2.2.1 4 (by decide)⟩

end Clinic

namespace Clinic

open DoctorAvailability

theorem takeUnits_zero (l : List Char) : takeUnits 0 l = [] := by
  cases l with
  | nil => rfl
  | cons c cs =>
    unfold takeUnits
    rw [if_neg]
    split_ifs <;> omega

/-- Cutting a string after the code units of its first part gives that part. -/
theorem takeUnits_append (l rest : List Char) :
    takeUnits (l.map fun c => if c.toNat < 0x10000 then 1 else 2).sum (l ++ rest) = l := by
  induction l with
  | nil => exact takeUnits_zero rest
  | cons c cs ih =>
    rw [List.map_cons, List.sum_cons, List.cons_append, takeUnits, if_pos (Nat.le_add_right _ _),
      Nat.add_sub_cancel_left, ih]

theorem sliceTo_append (t rest : String) : sliceTo (jsLength t) (t ++ rest) = t := by
  unfold sliceTo jsLength
  rw [String.data_append, takeUnits_append]

/-- The edit form loads the first five code units of a stored time with zero seconds, and
`formatTimeForAPI` gives the stored time back. -/
theorem loadTime_zeroSeconds (stored : String) (h : ZeroSeconds stored) :
    loadTime (some stored) ≠ "" ∧
    formatTimeForAPI (some (sliceTo 5 stored)) = some stored ∧
    formatTimeForAPI (some (loadTime (some stored))) = some stored ∧
    breakFieldFor (loadTime (some stored)) = some stored := by
  obtain ⟨t, ht, rfl⟩ := h
  have hs : sliceTo 5 (t ++ ":00") = t := by
    have := sliceTo_append t ":00"
    rwa [ht] at this
  have hne : t ≠ "" := ne_empty_of_jsLength ht (by decide)
  have hl : loadTime (some (t ++ ":00")) = t := by
    simp [loadTime, hs, jsOrElse, truthy, hne]
  rw [hl, hs]
  refine ⟨hne, formatTimeForAPI_five t ht, formatTimeForAPI_five t ht, ?_⟩
  rw [breakFieldFor, if_pos hne, formatTimeForAPI_five t ht]

theorem breakField_roundtrip (stored : Option String) (h : MissingOrZeroSeconds stored) :
    breakFieldFor (loadTime stored) = stored := by
  cases stored with
  | none => rfl
  | some s => exact (loadTime_zeroSeconds s h).2.2.2

/-- The payload of the edit branch for a schedule just loaded into the edit form. -/
theorem payloadFor_handleEdit (st : State) (sch : Schedule) (start stop : String)
    (hstart : sch.start_time = some start) (hstop : sch.end_time = some stop)
    (hzs : ZeroSeconds start) (hze : ZeroSeconds stop)
    (hbs : MissingOrZeroSeconds sch.break_start) (hbe : MissingOrZeroSeconds sch.break_end) :
    payloadFor (handleEdit st sch) (handleEdit st sch).formData.available_date =
      ⟨st.userId, sch.available_date, sch.start_time, sch.end_time, sch.break_start,
        sch.break_end⟩ := by
  have e : payloadFor (handleEdit st sch) (handleEdit st sch).formData.available_date =
      ⟨st.userId, sch.available_date, formatTimeForAPI (some (loadTime sch.start_time)),
        formatTimeForAPI (some (loadTime sch.end_time)), breakFieldFor (loadTime sch.break_start),
        breakFieldFor (loadTime sch.break_end)⟩ := rfl
  rw [e, breakField_roundtrip _ hbs, breakField_roundtrip _ hbe, hstart, hstop,
    (loadTime_zeroSeconds start hzs).2.2.1, (loadTime_zeroSeconds stop hze).2.2.1]

/-- C30 (counterexample): the stored schedule 17:00:00 to 09:00:00 has times with zero
seconds, yet opening it in the edit form and saving it without changes resubmits nothing: the
time check of `handleSubmit` turns the form down and no request is issued. -/
theorem C30_counterexample_reversed_hours_are_not_resubmitted :
    ZeroSeconds "17:00:00" ∧ ZeroSeconds "09:00:00" ∧
    handleSubmit (fixedZone 19800000) 5 .ok (fun _ => .ok)
      (handleEdit secondPageOfSix eveningToMorning) =
      some ⟨handleEdit secondPageOfSix eveningToMorning,
        [⟨.error, "Start time must be before end time"⟩], [], false⟩ :=
  ⟨⟨"17:00", by decide, by decide⟩, ⟨"09:00", by decide, by decide⟩, by decide⟩

/-- C30 (amended): for a stored time of the form `HH:MM:00`, `formatTimeForAPI` of its first
five characters, the value `handleEdit` loads into the form, is the stored time; a missing
break time is loaded as the empty string and sent back as null; so for a schedule whose start
and end time have zero seconds and whose break times are missing or have zero seconds, the
edit form opened by `handleEdit` yields a payload with exactly the stored start, end and
break times.  Saving that form without changes issues the one update request with that
payload when the form passes the checks of `handleSubmit` (no submission in progress, a date
present, start time before end time), and issues no request when it fails one of them. -/
theorem C30_edit_then_save_resubmits_stored_times (st : State) (sch : Schedule)
    (start stop : String) (hstart : sch.start_time = some start)
    (hstop : sch.end_time = some stop) (hzs : ZeroSeconds start) (hze : ZeroSeconds stop)
    (hbs : MissingOrZeroSeconds sch.break_start) (hbe : MissingOrZeroSeconds sch.break_end) :
    formatTimeForAPI (some (sliceTo 5 start)) = some start ∧
    formatTimeForAPI (some (sliceTo 5 stop)) = some stop ∧
    (loadTime none = "" ∧ breakFieldFor (loadTime none) = none) ∧
    payloadFor (handleEdit st sch) (handleEdit st sch).formData.available_date =
      ⟨st.userId, sch.available_date, sch.start_time, sch.end_time, sch.break_start,
        sch.break_end⟩ ∧
    (∀ (tz : TimeZone) (fuel : Nat) (update : UpdateReply) (create : Nat → CreateReply),
      st.submitting = false → sch.available_date ≠ "" →
      isTimeRangeValid tz (some (loadTime sch.start_time)) (some (loadTime sch.end_time)) = true →
      (handleSubmit tz fuel update create (handleEdit st sch)).map (·.requests) =
        some [Request.updateSchedule sch.id
          ⟨st.userId, sch.available_date, sch.start_time, sch.end_time, sch.break_start,
            sch.break_end⟩]) ∧
    (∀ (tz : TimeZone) (fuel : Nat) (update : UpdateReply) (create : Nat → CreateReply),
      (st.submitting = true ∨ sch.available_date = "" ∨
        isTimeRangeValid tz (some (loadTime sch.start_time)) (some (loadTime sch.end_time))
          = false) →
      (handleSubmit tz fuel update create (handleEdit st sch)).map (·.requests) = some []) := by
  have hp := payloadFor_handleEdit st sch start stop hstart hstop hzs hze hbs hbe
  refine ⟨(loadTime_zeroSeconds start hzs).2.1, (loadTime_zeroSeconds stop hze).2.1,
    ⟨rfl, rfl⟩, hp, ?_, ?_⟩
  · intro tz fuel update create hsub hdate hvalid
    have h1 : (handleEdit st sch).submitting = false := hsub
    have h2 : (handleEdit st sch).formData.available_date ≠ "" := hdate
    have h3 : ¬ ((handleEdit st sch).formData.start_time = "" ∨
        (handleEdit st sch).formData.end_time = "") := by
      rintro (h | h)
      · exact (hstart ▸ (loadTime_zeroSeconds start hzs).1) h
      · exact (hstop ▸ (loadTime_zeroSeconds stop hze).1) h
    have h4 : isTimeRangeValid tz (some (handleEdit st sch).formData.start_time)
        (some (handleEdit st sch).formData.end_time) = true := hvalid
    have h5 : (handleEdit st sch).editingSchedule = some sch := rfl
    unfold handleSubmit
    rw [if_neg (by simp [h1]), if_neg h2, if_neg h3, if_neg (by simp [h4]), h5]
    simp only [Option.map_some']
    rw [← hp]
    cases update <;> rfl
  · intro tz fuel update create hfail
    have e1 : (handleEdit st sch).submitting = st.submitting := rfl
    have e2 : (handleEdit st sch).formData.available_date = sch.available_date := rfl
    have e3 : isTimeRangeValid tz (some (handleEdit st sch).formData.start_time)
        (some (handleEdit st sch).formData.end_time) =
        isTimeRangeValid tz (some (loadTime sch.start_time)) (some (loadTime sch.end_time)) :=
      rfl
    unfold handleSubmit
    by_cases c1 : (handleEdit st sch).submitting = true
    · rw [if_pos c1]
      rfl
    · rw [if_neg c1]
      by_cases c2 : (handleEdit st sch).formData.available_date = ""
      · rw [if_pos c2]
        rfl
      · rw [if_neg c2]
        by_cases c3 : (handleEdit st sch).formData.start_time = "" ∨
            (handleEdit st sch).formData.end_time = ""
        · rw [if_pos c3]
          rfl
        · rw [if_neg c3]
          have c4 : ¬ isTimeRangeValid tz (some (handleEdit st sch).formData.start_time)
              (some (handleEdit st sch).formData.end_time) = true := by
            rw [e3]
            rcases hfail with h | h | h
            · exact absurd (e1.trans h) c1
            · exact absurd (e2.trans h) c2
            · rw [h]
              simp
          rw [if_pos c4]
          rfl

/-- C30 (witness): the schedule 09:00:00 to 17:00:00 with break start 12:00:00 and no break
end, opened for editing and saved in the zone UTC+5:30. -/
theorem C30_edit_then_save_resubmits_stored_times_witness :
    (handleSubmit (fixedZone 19800000) 5 .ok (fun _ => .ok)
      (handleEdit secondPageOfSix (scheduleOn "1" "2024-01-01"))).map (·.requests) =
      some [Request.updateSchedule "1"
        ⟨"7", "2024-01-01", some "09:00:00", some "17:00:00", some "12:00:00", none⟩] :=
  (C30_edit_then_save_resubmits_stored_times secondPageOfSix (scheduleOn "1" "2024-01-01")
    "09:00:00" "17:00:00" rfl rfl ⟨"09:00", by decide, by decide⟩ ⟨"17:00", by decide, by decide⟩
    ⟨"12:00", by decide, by decide⟩ trivial).2.2.2.2.1 (fixedZone 19800000) 5 .ok (fun _ => .ok)
    rfl (by decide) (by decide)

end Clinic
